import Mathlib

/-!
# QtKnx: addresses, the 2-byte float datapoint, additional info, device management frames, the disconnect response, the point-to-point TPDU factory, the connection header and description information blocks

A shallow embedding of `src/knx/qknxaddress.cpp`, `src/knx/dpt/qknx2bytefloat.cpp`,
`src/knx/qknxadditionalinfo.cpp` with its header,
`src/knx/qknxdevicemanagementframe.cpp`, `src/knx/qknxnetipdisconnectresponse.cpp`,
`src/knx/qknxtpdufactory_p2p.cpp`, `src/knx/netip/qknxnetipconnectionheader.h`,
`src/knx/netip/qknxnetipservicefamiliesdib.cpp` and
`src/knx/qknxnetipcurrentconfigdib.cpp`, with the properties of the
specification that concern them.

Conventions.
* A `quint16`, `quint8` or `int` is a `Nat` (`Int` where the C++ value is signed); a cast to
  `quint16` is written `% 65536`.
* A `QString` is a `List Char`; a `QVector<quint8>` or `QByteArray` is a `List Nat`.
* A C++ constructor that returns early leaves the object default-constructed;
  the embedding returns `QKnxAddress.invalid` there.
-/

namespace QKnx

/-! ## Qt string helpers used by the address class -/

/-- The test `QChar::isSpace`: the ASCII white space, NEL, NBSP and the Unicode
separator categories Zs, Zl and Zp. -/
def isSpace (c : Char) : Bool :=
  let u := c.toNat
  u == 0x20 || (0x09 ≤ u && u ≤ 0x0d) || u == 0x85 || u == 0xa0 || u == 0x1680
    || (0x2000 ≤ u && u ≤ 0x200a) || u == 0x2028 || u == 0x2029 || u == 0x202f
    || u == 0x205f || u == 0x3000

/-- The value of a character as a digit in `strtoull`: `0`-`9`, then the
letters of either case counting from ten. -/
def digitValue (c : Char) : Option Nat :=
  let u := c.toNat
  if 48 ≤ u ∧ u ≤ 57 then some (u - 48)
  else if 97 ≤ u ∧ u ≤ 122 then some (u - 97 + 10)
  else if 65 ≤ u ∧ u ≤ 90 then some (u - 65 + 10)
  else none

/-- The digit loop of `strtoull`: every character has to be a digit below
`base` (Qt rejects a number that is followed by anything else). -/
def parseDigits (base : Nat) : List Char → Nat → Option Nat
  | [], acc => some acc
  | c :: cs, acc =>
    match digitValue c with
    | some d => if d < base then parseDigits base cs (acc * base + d) else none
    | none => none

/-- The conversion `strtoull(s, &end, 0)` on a string without surrounding white
space, accepted only when at least one digit was read and the whole string was
consumed: an optional `+`, then `0x`/`0X` and hexadecimal digits, or `0` and
octal digits, or decimal digits. The result is unbounded here; the callers
check the range. -/
def strtoull (s : List Char) : Option Nat :=
  let body := match s with
    | c :: rest => if c = '+' then rest else s
    | [] => s
  match body with
  | [] => none
  | c :: rest =>
    if c = '0' then
      match rest with
      | [] => some 0
      | x :: hex =>
        if x = 'x' ∨ x = 'X' then
          (if hex = [] then none else parseDigits 16 hex 0)
        else parseDigits 8 rest 0
    else parseDigits 10 body 0

/-- Strips leading and trailing white space as `QLocaleData::numberToCLocale` does. -/
def trimmed (s : List Char) : List Char :=
  ((s.dropWhile isSpace).reverse.dropWhile isSpace).reverse

/-- The call `QStringRef::toUShort(&ok, 0)`: C-locale conversion with automatic
base detection; `none` stands for `ok == false`, which also covers a value
that does not fit a `quint16`. -/
def toUShort (s : List Char) : Option Nat :=
  match strtoull (trimmed s) with
  | some v => if v ≤ 65535 then some v else none
  | none => none

/-- The call `QString::splitRef(sep)` with the default `KeepEmptyParts`. -/
def splitRef (sep : Char) : List Char → List (List Char)
  | [] => [[]]
  | c :: cs =>
    if c = sep then [] :: splitRef sep cs
    else
      match splitRef sep cs with
      | [] => [[c]]
      | h :: t => (c :: h) :: t

/-- The decimal text that `QString::arg(int)` substitutes for a non-negative number. -/
def number (n : Nat) : List Char := Nat.toDigits 10 n

/-- A decimal digit character, `0` to `9`. -/
def isDecimalDigit (c : Char) : Bool := decide (48 ≤ c.toNat ∧ c.toNat ≤ 57)

/-! ## Numerals, read as the specification words them -/

/-- A character that is a digit of the given base. -/
def isDigitOf (base : Nat) (c : Char) : Bool :=
  match digitValue c with
  | some d => decide (d < base)
  | none => false

/-- The number that a string of digits denotes in positional notation, the most
significant digit first. -/
def positional (base : Nat) (cs : List Char) : Nat :=
  Nat.ofDigits base ((cs.map (fun c => (digitValue c).getD 0)).reverse)

/-- A single numeral without separator and the number it denotes: decimal
digits that do not start with `0`; `0x` and at least one hexadecimal digit; or
`0` and octal digits. -/
inductive Numeral : List Char → Nat → Prop where
  | decimal (c : Char) (cs : List Char) :
      isDigitOf 10 c = true → c ≠ '0' → (∀ x ∈ cs, isDigitOf 10 x = true) →
      Numeral (c :: cs) (positional 10 (c :: cs))
  | hexadecimal (cs : List Char) :
      cs ≠ [] → (∀ x ∈ cs, isDigitOf 16 x = true) →
      Numeral ('0' :: 'x' :: cs) (positional 16 cs)
  | octal (cs : List Char) :
      (∀ x ∈ cs, isDigitOf 8 x = true) →
      Numeral ('0' :: cs) (positional 8 cs)

/-! ## QKnxUtils -/

/-- Modelled from the spec: `QKnxUtils::QUint16::fromBytes` (`qknxutils.h`) is
not among the sources; it reads two big-endian bytes, and gives 0 when fewer
than two bytes are there. -/
def QKnxUtils.QUint16.fromBytes (b : List Nat) : Nat :=
  match b with
  | b0 :: b1 :: _ => (b0 * 256 + b1) % 65536
  | _ => 0

/-- Modelled from the spec: `QKnxUtils::QUint16::bytes` (`qknxutils.h`) is not
among the sources; it gives the two big-endian bytes of a 16 bit value. -/
def QKnxUtils.QUint16.bytes (v : Nat) : List Nat := [(v >>> 8) % 256, v % 256]

/-- Modelled from the spec: `QKnxUtils::QUint8::bytes` (`qknxutils.h`) is not
among the sources; it gives the one byte of an 8 bit value. -/
def QKnxUtils.QUint8.bytes (v : Nat) : List Nat := [v % 256]

/-- Modelled from the spec: `QKnxUtils::QUint32::bytes` (`qknxutils.h`) is not
among the sources; it gives the four big-endian bytes of a 32 bit value. -/
def QKnxUtils.QUint32.bytes (v : Nat) : List Nat :=
  [(v >>> 24) % 256, (v >>> 16) % 256, (v >>> 8) % 256, v % 256]

/-! ## QKnxAddress -/

/-- The enumeration `QKnxAddress::Type`, with `None` for the type of an address
that no constructor has set. -/
inductive AddressType where
  | Group
  | Individual
  | None
  deriving DecidableEq, Repr

/-- The enumeration `QKnxAddress::Notation`. -/
inductive Notation where
  | TwoLevel
  | ThreeLevel
  deriving DecidableEq, Repr

/-- Modelled from the spec: the class declaration (`qknxaddress.h`) is not among
the sources. An address is a type and a 16 bit value; an address that was not
set by a constructor has a type that is neither Group nor Individual. -/
structure QKnxAddress where
  m_type : AddressType
  m_address : Nat
  deriving DecidableEq, Repr

namespace QKnxAddress

/-- Modelled from the spec: the member initialisers of the default-constructed
address `QKnxAddress()` are in `qknxaddress.h`, which is not among the sources.
Its type is neither Group nor Individual; its value is taken as 0. -/
def invalid : QKnxAddress := ⟨AddressType.None, 0⟩

/-- The accessor `QKnxAddress::type`. -/
def type (a : QKnxAddress) : AddressType := a.m_type

/-- The constructor `QKnxAddress(Type, quint16)`. -/
def fromValue (type : AddressType) (address : Nat) : QKnxAddress :=
  if type ≠ AddressType.Group ∧ type ≠ AddressType.Individual then invalid
  else ⟨type, address⟩

/-- The lambda `checkRange` of the private constructor; `sec2 = none` is the
null pointer. -/
def checkRange (type : AddressType) (sec1 : Nat) (sec2 : Option Nat) (sec3 : Nat)
    (notation_ : Notation) : Bool :=
  let individual : Bool :=
    match sec2 with
    | some s2 =>
      if type = AddressType.Individual then
        decide (sec1 ≤ 15) && decide (s2 ≤ 15) && decide (sec3 ≤ 255)
      else false
    | none => false
  if type = AddressType.Group then
    if sec1 > 31 then false
    else if notation_ = Notation.TwoLevel then decide (sec3 ≤ 2047)
    else
      match sec2 with
      | some s2 => decide (s2 ≤ 7) && decide (sec3 ≤ 255)
      | none => individual
  else individual

/-- The private constructor `QKnxAddress(Type, quint16 sec1, quint16 *sec2, quint16 sec3)`.
Its two blocks are guarded by `type == Group` and `type == Individual`, of which
at most one holds. In the second block `*sec2` is read only after `checkRange`
returned true, which it does not for a null `sec2`. -/
def fromSections (type : AddressType) (sec1 : Nat) (sec2 : Option Nat) (sec3 : Nat) :
    QKnxAddress :=
  if type = AddressType.Group then
    match sec2 with
    | none =>
      if checkRange type sec1 sec2 sec3 Notation.TwoLevel then
        ⟨type, ((sec1 <<< 11) ||| sec3) % 65536⟩
      else invalid
    | some s2 =>
      if checkRange type sec1 sec2 sec3 Notation.ThreeLevel then
        ⟨type, ((sec1 <<< 11) ||| (s2 <<< 8) ||| sec3) % 65536⟩
      else invalid
  else if type = AddressType.Individual then
    if checkRange type sec1 sec2 sec3 Notation.ThreeLevel then
      match sec2 with
      | some s2 => ⟨type, ((sec1 <<< 12) ||| (s2 <<< 8) ||| sec3) % 65536⟩
      | none => invalid
    else invalid
  else invalid

/-- The loop of the lambda `convert`: every converted section is appended to
the captured vector `sections`; the first section that does not convert stops
the loop with `false`, the sections appended so far stay. -/
def convertLoop : List (List Char) → List Nat → Bool × List Nat
  | [], sections => (true, sections)
  | s :: rest, sections =>
    match toUShort s with
    | some value => convertLoop rest (sections ++ [value])
    | none => (false, sections)

/-- The lambda `convert` of the string constructor, with the captured vector
`sections` passed in and out. -/
def convert (inp : List (List Char)) (sections : List Nat) : Bool × List Nat :=
  match convertLoop inp sections with
  | (true, sections1) => (inp.length == sections1.length, sections1)
  | (false, sections1) => (false, sections1)

/-- The third block of the string constructor: the whole string as one number. -/
def fromStringNumber (type : AddressType) (address : List Char) (this : QKnxAddress)
    (sections : List Nat) : QKnxAddress :=
  if type = AddressType.Group ∨ type = AddressType.Individual then
    match convert [address] sections with
    | (true, [s0]) => ⟨type, s0⟩
    | _ => this
  else this

/-- The second block of the string constructor (dotted notation of an
Individual address), followed by the third. -/
def fromStringDots (type : AddressType) (address : List Char) (dots : Bool)
    (this : QKnxAddress) (sections : List Nat) : QKnxAddress :=
  if dots = true ∧ type = AddressType.Individual then
    match convert (splitRef '.' address) sections with
    | (true, [s0, s1, s2]) =>
      fromStringNumber type address (fromSections type s0 (some s1) s2) [s0, s1, s2]
    | (_, sections1) => fromStringNumber type address this sections1
  else fromStringNumber type address this sections

/-- The constructor `QKnxAddress(Type, const QString &)`. -/
def fromString (type : AddressType) (address : List Char) : QKnxAddress :=
  let dots := address.contains '.'
  let slashes := address.contains '/'
  if dots && slashes then invalid
  else if slashes = true ∧ type = AddressType.Group then
    match convert (splitRef '/' address) [] with
    | (false, _) => invalid
    | (true, sections) =>
      let this : QKnxAddress :=
        match sections with
        | [s0, s1] => fromSections type s0 none s1
        | [s0, s1, s2] => fromSections type s0 (some s1) s2
        | _ => invalid
      fromStringDots type address dots this sections
  else fromStringDots type address dots invalid []

/-- The constructors `QKnxAddress(Type, const QByteArray &)` and
`QKnxAddress(Type, const QVector<quint8> &)`. -/
def fromBytes (type : AddressType) (address : List Nat) : QKnxAddress :=
  if address.length < 2 then invalid
  else if type ≠ AddressType.Group ∧ type ≠ AddressType.Individual then invalid
  else ⟨type, QKnxUtils.QUint16.fromBytes address⟩

/-- The function `QKnxAddress::createGroup(quint8, quint16)`. -/
def createGroup2 (mainGroup subGroup : Nat) : QKnxAddress :=
  fromSections AddressType.Group mainGroup none subGroup

/-- The function `QKnxAddress::createGroup(quint8, quint16, quint8)`. -/
def createGroup (mainGroup middleGroup subGroup : Nat) : QKnxAddress :=
  fromSections AddressType.Group mainGroup (some middleGroup) subGroup

/-- The function `QKnxAddress::createIndividual`. -/
def createIndividual (area line sequentialNumber : Nat) : QKnxAddress :=
  fromSections AddressType.Individual area (some line) sequentialNumber

/-- The method `QKnxAddress::isBroadcast`. -/
def isBroadcast (a : QKnxAddress) : Bool :=
  decide (a.m_type = AddressType.Group) && decide (a.m_address = 0x0000)

/-- The method `QKnxAddress::isCouplerOrRouter`; `quint8(m_address)` is `% 256`. -/
def isCouplerOrRouter (a : QKnxAddress) : Bool :=
  decide (a.m_type = AddressType.Individual) && decide (a.m_address % 256 = 0x00)

/-- The method `QKnxAddress::isUnregistered`. -/
def isUnregistered (a : QKnxAddress) : Bool :=
  decide (a.m_type = AddressType.Individual) && decide (a.m_address % 256 = 0xff)

/-- The method `QKnxAddress::isValid`; the value is never negative. -/
def isValid (a : QKnxAddress) : Bool :=
  (decide (a.m_type = AddressType.Group) || decide (a.m_type = AddressType.Individual))
    && decide (0 ≤ a.m_address)

/-- The method `QKnxAddress::toString`. -/
def toString (a : QKnxAddress) (notation_ : Notation) : List Char :=
  if notation_ = Notation.ThreeLevel ∧ a.m_type = AddressType.Group then
    number ((a.m_address >>> 11) &&& 0x1f) ++ '/' :: number ((a.m_address >>> 8) &&& 0x07)
      ++ '/' :: number (a.m_address &&& 0xff)
  else if notation_ = Notation.ThreeLevel ∧ a.m_type = AddressType.Individual then
    number (a.m_address >>> 12) ++ '.' :: number ((a.m_address >>> 8) &&& 0x0f)
      ++ '.' :: number (a.m_address &&& 0xff)
  else if notation_ = Notation.TwoLevel ∧ a.m_type = AddressType.Group then
    number ((a.m_address >>> 11) &&& 0x1f) ++ '/' :: number (a.m_address &&& 0x07ff)
  else []

/-- Modelled from the spec: the inline template `QKnxAddress::bytes` (`qknxaddress.h`)
is not among the sources; it returns the two big-endian bytes of a valid
address and nothing for an invalid one. -/
def bytes (a : QKnxAddress) : List Nat :=
  if a.isValid then QKnxUtils.QUint16.bytes a.m_address else []

end QKnxAddress

/-! ## Floating point numbers -/

/-- The integer nearest to `q` and, for a `q` halfway between two integers, the
even one of the two. -/
def roundHalfEven (q : ℚ) : Int :=
  if q - ⌊q⌋ < 1 / 2 then ⌊q⌋
  else if 1 / 2 < q - ⌊q⌋ then ⌊q⌋ + 1
  else if ⌊q⌋ % 2 = 0 then ⌊q⌋ else ⌊q⌋ + 1

/-- The number with `p` significant bits nearest to `x`, the one with the even
significand when two are equally near: the rounding of the binary formats of
IEEE 754 in the mode round-to-nearest-even, in which the program runs. For
`2^e ≤ |x| < 2^(e+1)` the numbers of the format are the multiples of
`2^(e-(p-1))`. The range of the exponent is not bounded here; no operation of
`QKnx2ByteFloat::value` and `QKnx2ByteFloat::setValue` on a finite `float`
overflows, and where one of them gives a number below the normal range, the
number is exact in the format and in the embedding alike. -/
def roundToPrecision (p : Nat) (x : ℚ) : ℚ :=
  if x = 0 then 0
  else
    (roundHalfEven (x / (2 : ℚ) ^ (Int.log 2 |x| - ((p : Int) - 1))) : ℚ)
      * (2 : ℚ) ^ (Int.log 2 |x| - ((p : Int) - 1))

/-- The conversion to `float`, the format with 24 significant bits, and with it
the rounding of the result of an operation on two `float` numbers. -/
def toFloat (x : ℚ) : ℚ := roundToPrecision 24 x

/-- The conversion to `double`, the format with 53 significant bits, and with it
the rounding of the result of an operation on two `double` numbers. -/
def toDouble (x : ℚ) : ℚ := roundToPrecision 53 x

/-! ## QKnx2ByteFloat -/

namespace QKnx2ByteFloat

/-- The integer `M` that `QKnx2ByteFloat::value` computes from the 16 bit word
`temp`: the sign and mantissa bits are kept (`temp & 0x87ff`), the bits reserved
for the exponent are turned on for a set sign bit (`encodedM += 0x7800` on a
`quint16`), and the result is reinterpreted as a `qint16`. -/
def mantissa (temp : Nat) : Int :=
  let encodedM := temp &&& 0x87ff
  let encodedM := if encodedM > 2047 then (encodedM + 0x7800) % 65536 else encodedM
  if encodedM < 32768 then (encodedM : Int) else (encodedM : Int) - 65536

/-- The `quint8 E` that `QKnx2ByteFloat::value` computes: `(temp & 0x7800) >> 11`. -/
def exponent (temp : Nat) : Nat := ((temp &&& 0x7800) >>> 11) % 256

/-- The method `QKnx2ByteFloat::value` on the stored bytes:
`float(0.01 * (M) * qPow(2, qreal(E)))`. The literal `0.01` is the `double`
nearest to 1/100, the two products are taken from left to right in `double`, the
power `qPow(2, qreal(E))` is the `double` `2^E`, and the result is converted to
`float`. -/
def value (bytes : List Nat) : ℚ :=
  let temp := QKnxUtils.QUint16.fromBytes bytes
  toFloat (toDouble (toDouble (toDouble (1 / 100) * (mantissa temp : ℚ))
    * (2 : ℚ) ^ exponent temp))

/-- The conversion of a floating point number to `int`, which truncates towards zero. -/
def truncate (x : ℚ) : Int := if 0 ≤ x then ⌊x⌋ else ⌈x⌉

/-- The function `qRound(float)` of Qt:
`d >= 0.0f ? int(d + 0.5f) : int(d - float(int(d-1)) + 0.5f) + int(d-1)`.
Every sum and difference is an operation on `float` numbers, whose result is
rounded to `float`. -/
def qRound (d : ℚ) : Int :=
  if 0 ≤ d then truncate (toFloat (d + 1 / 2))
  else
    truncate (toFloat (toFloat (d - toFloat (truncate (toFloat (d - 1)) : ℚ)) + 1 / 2))
      + truncate (toFloat (d - 1))

/-- The exponent that `QKnx2ByteFloat::setValue` chooses:
`quint8(qFloor(qLn(qAbs(qreal(value) * 100 / 2048.)) / qLn(2) + 1))` when
`qAbs(qreal(value)) > 20.48`, and 0 otherwise. The argument is a `float`, so the
conversion to `qreal`, the product with 100 and the quotient by 2048 are exact in
`double`, and no `float` lies between 20.48 and the `double` nearest to it. The
quotient of the logarithms is the logarithm to the base 2, whose floor is
`Int.log 2`: for a `float` argument above 20.48 in absolute value the number
`value * 100 / 2048` differs from every power of two by more than `2^-26` of its
size, far more than the error of the `double` logarithms, so the floor of the
computed quotient is the floor of the logarithm. The cast to `quint8` is
`% 256`. -/
def setValueExponent (value : ℚ) : Nat :=
  if |value| > 2048 / 100 then ((Int.log 2 (|value * 100 / 2048|) + 1) % 256).toNat else 0

/-- The mantissa that `QKnx2ByteFloat::setValue` computes for the exponent `E`:
`qint32(qRound((value*float(qPow(2, -E)) * 100)))`, where the two products are
operations on `float` numbers. -/
def setValueMantissa (value : ℚ) (E : Nat) : Int :=
  qRound (toFloat (toFloat (value * toFloat ((2 : ℚ) ^ (-(E : Int)))) * 100))

/-- The 16 bit word that `QKnx2ByteFloat::setValue` stores for an accepted
mantissa and exponent: `quint16(M)`, masked with `0x87ff` for a negative value,
with `E << 11` or-ed in. -/
def encode (value : ℚ) (M : Int) (E : Nat) : Nat :=
  let encodedM : Nat := (M % 65536).toNat
  let encodedM := if value < 0 then encodedM &&& 0x87ff else encodedM
  (encodedM ||| (E <<< 11)) % 65536

end QKnx2ByteFloat

/-- Modelled from the spec: the base class `QKnxDatapointType` is not among the
sources. Of a 2-byte float datapoint the embedding keeps the stored bytes and
the two bounds that `setRange` was given, which `minimum()` and `maximum()`
return. A `float` or a `double` is the rational number it stands for. -/
structure QKnx2ByteFloat where
  bytes : List Nat
  minimum : ℚ
  maximum : ℚ
  deriving DecidableEq

namespace QKnx2ByteFloat

/-- The method `QKnx2ByteFloat::setValue`, which returns its result together
with the datapoint after the call. The argument is compared with
`minimum().toFloat()` and `maximum().toFloat()`. -/
def setValue (d : QKnx2ByteFloat) (value : ℚ) : Bool × QKnx2ByteFloat :=
  if value < toFloat d.minimum ∨ value > toFloat d.maximum then (false, d)
  else
    let E := setValueExponent value
    let M := setValueMantissa value E
    if E > 15 ∨ M > 2047 ∨ M < -2048 then (false, d)
    else (true, { d with bytes := QKnxUtils.QUint16.bytes (encode value M E) })

/-- The constructor `QKnx2ByteFloat(int subType, float value)`: `setRange` with
the `double` literals `-671088.64` and `670760.96`, and then `setValue(value)` on
the two zero bytes. -/
def create (value : ℚ) : QKnx2ByteFloat :=
  (setValue ⟨[0, 0], toDouble (-67108864 / 100), toDouble (67076096 / 100)⟩ value).2

/-- The constructors that `CREATE_CLASS_BODY` defines: the base constructor with
the value 0.0, then `setRange` with the bounds of the class. -/
def createClass (rangeMinimum rangeMaximum : ℚ) : QKnx2ByteFloat :=
  { create 0 with minimum := rangeMinimum, maximum := rangeMaximum }

/-- The class `QKnxTemperatureCelsius`, with the range -273 to 670760. -/
def QKnxTemperatureCelsius : QKnx2ByteFloat := createClass (-273) 670760

/-- The class `QKnxTemperatureKelvin`, with the range -670760 to 670760. -/
def QKnxTemperatureKelvin : QKnx2ByteFloat := createClass (-670760) 670760

/-- The class `QKnxValueLux`, with the range 0 to 670760. -/
def QKnxValueLux : QKnx2ByteFloat := createClass 0 670760

/-- The class `QKnxTemperatureFahrenheit`, with the range of the `double`
literals `-459.6` and `670760.96`. -/
def QKnxTemperatureFahrenheit : QKnx2ByteFloat :=
  createClass (toDouble (-4596 / 10)) (toDouble (67076096 / 100))

/-- The number read back from a datapoint: `value()` on its stored bytes. -/
def storedValue (d : QKnx2ByteFloat) : ℚ := value d.bytes

/-- The exponent field of the stored bytes. -/
def storedExponent (d : QKnx2ByteFloat) : Nat :=
  exponent (QKnxUtils.QUint16.fromBytes d.bytes)

/-- The mantissa field of the stored bytes. -/
def storedMantissa (d : QKnx2ByteFloat) : Int :=
  mantissa (QKnxUtils.QUint16.fromBytes d.bytes)

/-- The requirement of the specification on the exponent, in its words: `E` is
the smallest value in 0..15 for which the rounded mantissa
`round(100 * v / 2^E)` is at most 2047 in absolute value. The rounding is that
to the nearest integer. -/
def IsSmallestExponent (v : ℚ) (E : Nat) : Prop :=
  E ≤ 15 ∧ |round (100 * v / (2 : ℚ) ^ E)| ≤ 2047
    ∧ ∀ E1 : Nat, E1 < E → ¬ |round (100 * v / (2 : ℚ) ^ E1)| ≤ 2047

/-- The range condition of `QKnx2ByteFloat::isValid`:
`value() >= minimum().toFloat() && value() <= maximum().toFloat()`. The other
condition, `QKnxDatapointType::isValid()` of the base class, is not among the
sources. -/
def isValidRange (d : QKnx2ByteFloat) : Bool :=
  decide (value d.bytes ≥ toFloat d.minimum) && decide (value d.bytes ≤ toFloat d.maximum)

end QKnx2ByteFloat

/-! ## QKnxByteStore -/

namespace QKnxByteStore

/-- Modelled from the spec: the class `QKnxByteStore` (`qknxbytestore.h`) is not
among the sources. A store is the sequence of its bytes; `byte` reads at an
offset and gives 0 past the end. -/
def byte (store : List Nat) (index : Nat) : Nat := store.getD index 0

/-- Modelled from the spec: `QKnxByteStore::resize`, which cuts the store or
fills it up with zero bytes. -/
def resize (store : List Nat) (size : Nat) : List Nat :=
  store.take size ++ List.replicate (size - store.length) 0

/-- Modelled from the spec: `QKnxByteStore::setByte`, which writes at an offset
and first grows the store when the offset is not inside it. -/
def setByte (store : List Nat) (index value : Nat) : List Nat :=
  (if store.length ≤ index then resize store (index + 1) else store).set index value

/-- Modelled from the spec: `QKnxByteStore::appendBytes`. -/
def appendBytes (store bytes : List Nat) : List Nat := store ++ bytes

end QKnxByteStore

/-! ## QKnxAdditionalInfo -/

namespace QKnxAdditionalInfo

/-- The enumerator `QKnxAdditionalInfo::Type::Reserved`. -/
abbrev Reserved : Nat := 0x00
/-- The enumerator `QKnxAdditionalInfo::Type::PlMediumInformation`. -/
abbrev PlMediumInformation : Nat := 0x01
/-- The enumerator `QKnxAdditionalInfo::Type::RfMediumInformation`. -/
abbrev RfMediumInformation : Nat := 0x02
/-- The enumerator `QKnxAdditionalInfo::Type::BusmonitorStatusInfo`. -/
abbrev BusmonitorStatusInfo : Nat := 0x03
/-- The enumerator `QKnxAdditionalInfo::Type::TimestampRelative`. -/
abbrev TimestampRelative : Nat := 0x04
/-- The enumerator `QKnxAdditionalInfo::Type::TimeDelayUntilSending`. -/
abbrev TimeDelayUntilSending : Nat := 0x05
/-- The enumerator `QKnxAdditionalInfo::Type::ExtendedRelativeTimestamp`. -/
abbrev ExtendedRelativeTimestamp : Nat := 0x06
/-- The enumerator `QKnxAdditionalInfo::Type::BiBatInformation`. -/
abbrev BiBatInformation : Nat := 0x07
/-- The enumerator `QKnxAdditionalInfo::Type::RfMultiInformation`. -/
abbrev RfMultiInformation : Nat := 0x08
/-- The enumerator `QKnxAdditionalInfo::Type::PreambleAndPostamble`. -/
abbrev PreambleAndPostamble : Nat := 0x09
/-- The enumerator `QKnxAdditionalInfo::Type::RfFastAckInformation`. -/
abbrev RfFastAckInformation : Nat := 0x0a
/-- The enumerator `QKnxAdditionalInfo::Type::ManufactorSpecificData`. -/
abbrev ManufactorSpecificData : Nat := 0xfe
/-- The enumerator `QKnxAdditionalInfo::Type::EscCode`. -/
abbrev EscCode : Nat := 0xff

/-- The static table of `expectedDataSize`: -1 everywhere but at the eleven
known types. -/
def table (type : Nat) : Int :=
  if type = PlMediumInformation then 2
  else if type = RfMediumInformation then 8
  else if type = BusmonitorStatusInfo then 1
  else if type = TimestampRelative then 2
  else if type = TimeDelayUntilSending then 4
  else if type = ExtendedRelativeTimestamp then 4
  else if type = BiBatInformation then 2
  else if type = RfMultiInformation then 4
  else if type = PreambleAndPostamble then 3
  else if type = RfFastAckInformation then 2
  else if type = ManufactorSpecificData then 3
  else -1

/-- The function `QKnxAdditionalInfo::expectedDataSize(type, &isFixedSize)`: the
returned size, and the value written to `isFixedSize`. -/
def expectedDataSize (type : Nat) : Int × Bool :=
  (table type, decide (type < RfFastAckInformation))

/-- The nine types of the first group of cases in both `isValid` switches. -/
def isFixedCase (type : Nat) : Bool :=
  type == PlMediumInformation || type == RfMediumInformation
    || type == BusmonitorStatusInfo || type == TimestampRelative
    || type == TimeDelayUntilSending || type == ExtendedRelativeTimestamp
    || type == BiBatInformation || type == RfMultiInformation
    || type == PreambleAndPostamble

/-- The static template `QKnxAdditionalInfo::isValid(Type, const T &data)` of the header. -/
def isValidData (type : Nat) (data : List Nat) : Bool :=
  let size : Int := data.length
  if size > 252 then false
  else if isFixedCase type then decide (size = (expectedDataSize type).1)
  else if type = RfFastAckInformation then
    decide (size ≥ (expectedDataSize type).1) && decide (size % 2 = 0)
  else if type = ManufactorSpecificData then decide (size ≥ (expectedDataSize type).1)
  else false

/-- The method `size()` of the byte store that holds the additional info. -/
def size (store : List Nat) : Nat := store.length

/-- The method `QKnxAdditionalInfo::dataSize`, a `quint8`. -/
def dataSize (store : List Nat) : Nat :=
  if size store ≥ 2 then (size store - 2) % 256 else 0

/-- The method `QKnxAdditionalInfo::isValid()` of `qknxadditionalinfo.cpp`. -/
def isValid (store : List Nat) : Bool :=
  if size store > 254 then false
  else
    let type := QKnxByteStore.byte store 0
    if isFixedCase type then decide ((dataSize store : Int) = (expectedDataSize type).1)
    else if type = RfFastAckInformation then
      decide ((dataSize store : Int) ≥ (expectedDataSize type).1)
        && decide ((dataSize store : Int) % 2 = 0)
    else if type = ManufactorSpecificData then
      decide ((dataSize store : Int) ≥ (expectedDataSize type).1)
    else false

/-- The constructors `QKnxAdditionalInfo(Type, const QByteArray &)` and
`QKnxAdditionalInfo(Type, const QVector<quint8> &)` of `qknxadditionalinfo.cpp`,
on the empty store of a new object. -/
def create (type : Nat) (data : List Nat) : List Nat :=
  let store := QKnxByteStore.setByte [] 0 (type % 256)
  let store := QKnxByteStore.setByte store 1 (data.length % 256)
  let store := QKnxByteStore.appendBytes store data
  if isValid store then store else QKnxByteStore.resize store 0

/-- Modelled from the spec: `QKnxAdditionalInfo::bytes` is inherited from the byte
store, which is not among the sources; it gives the bytes of a valid additional
info and nothing for an invalid one. -/
def bytes (store : List Nat) : List Nat := if isValid store then store else []

/-- The template `QKnxAdditionalInfo::rawData` of the header, on the members
`m_type` and `m_data`. The member `isValid()` of that revision is not among the
sources; it is taken as the static check of the header on the two members. -/
def rawData (m_type : Nat) (m_data : List Nat) : List Nat :=
  if isValidData m_type m_data then [m_type % 256, m_data.length % 256] ++ m_data else []

/-- What the specification asks of the data length of a type, in its words:
exactly 2, 8, 1, 2, 4, 4, 2, 4, 3 bytes for the nine fixed types, an even
length of at least 2 for RfFastAck, at least 3 for ManufacturerSpecific. -/
def Fits (type length : Nat) : Prop :=
  (type = PlMediumInformation ∧ length = 2) ∨ (type = RfMediumInformation ∧ length = 8)
    ∨ (type = BusmonitorStatusInfo ∧ length = 1) ∨ (type = TimestampRelative ∧ length = 2)
    ∨ (type = TimeDelayUntilSending ∧ length = 4)
    ∨ (type = ExtendedRelativeTimestamp ∧ length = 4)
    ∨ (type = BiBatInformation ∧ length = 2) ∨ (type = RfMultiInformation ∧ length = 4)
    ∨ (type = PreambleAndPostamble ∧ length = 3)
    ∨ (type = RfFastAckInformation ∧ 2 ≤ length ∧ length % 2 = 0)
    ∨ (type = ManufactorSpecificData ∧ 3 ≤ length)

end QKnxAdditionalInfo

/-! ## QKnxDeviceManagementFrame -/

/-- Modelled from the spec: the enumeration `QKnxCemiFrame::MessageCode` is not
among the sources. These are the codes that `qknxdevicemanagementframe.cpp`
names (`FunctionPropertyStateReadConfirmation` is the same code as
`FunctionPropertyCommandConfirmation`), and `Other` for every other code. -/
inductive MessageCode where
  | PropertyReadRequest
  | PropertyReadConfirmation
  | PropertyWriteRequest
  | PropertyWriteConfirmation
  | PropertyInfoIndication
  | FunctionPropertyCommandRequest
  | FunctionPropertyStateReadRequest
  | FunctionPropertyCommandConfirmation
  | ResetRequest
  | ResetIndication
  | Other (code : Nat)
  deriving DecidableEq

/-- Modelled from the spec: the functions `QKnxInterfaceObject::Type::isObjectType`
and `QKnxInterfaceObject::Type::isMatch` are not among the sources; the
embedding takes them as parameters. -/
structure QKnxInterfaceObject where
  isObjectType : Nat → Bool
  isMatch : Nat → Nat → Bool

/-- Modelled from the spec: the base class `QKnxCemiFrame` is not among the
sources. A frame is its message code, one byte, followed by the bytes of the
service information. -/
structure QKnxDeviceManagementFrame where
  messageCode : MessageCode
  serviceInformation : List Nat

namespace QKnxDeviceManagementFrame

/-- The number of bytes of the frame: the message code and the service information. -/
def size (f : QKnxDeviceManagementFrame) : Nat := 1 + f.serviceInformation.length

/-- The constructor `QKnxDeviceManagementFrame(MessageCode)`. -/
def create (code : MessageCode) : QKnxDeviceManagementFrame :=
  if code ≠ MessageCode.ResetRequest ∧ code ≠ MessageCode.ResetIndication then
    ⟨code, [0xff, 0xff, 0x00, 0x00, 0x00, 0x00]⟩
  else ⟨code, []⟩

/-- The method `QKnxDeviceManagementFrame::objectType`. -/
def objectType (f : QKnxDeviceManagementFrame) : Nat :=
  QKnxUtils.QUint16.fromBytes f.serviceInformation

/-- The method `QKnxDeviceManagementFrame::objectInstance`. -/
def objectInstance (f : QKnxDeviceManagementFrame) : Nat :=
  QKnxByteStore.byte f.serviceInformation 2

/-- The method `QKnxDeviceManagementFrame::property`. -/
def property (f : QKnxDeviceManagementFrame) : Nat :=
  QKnxByteStore.byte f.serviceInformation 3

/-- The method `QKnxDeviceManagementFrame::numberOfElements`. -/
def numberOfElements (f : QKnxDeviceManagementFrame) : Nat :=
  ((QKnxByteStore.byte f.serviceInformation 4 &&& 0xf0) % 256) >>> 4

/-- The checks of `QKnxDeviceManagementFrame::isValid` after its switch. -/
def isValidObject (io : QKnxInterfaceObject) (f : QKnxDeviceManagementFrame) : Bool :=
  if !io.isObjectType f.objectType then false
  else if f.objectInstance < 1 then false
  else if !io.isMatch f.objectType f.property then false
  else true

/-- The method `QKnxDeviceManagementFrame::isValid`. The case of
`PropertyReadRequest` falls through to the cases below it. -/
def isValid (io : QKnxInterfaceObject) (f : QKnxDeviceManagementFrame) : Bool :=
  match f.messageCode with
  | MessageCode.PropertyReadRequest =>
    if f.size > 7 then false
    else if f.size < 7 then false
    else isValidObject io f
  | MessageCode.PropertyReadConfirmation
  | MessageCode.PropertyWriteRequest
  | MessageCode.PropertyWriteConfirmation
  | MessageCode.PropertyInfoIndication
  | MessageCode.FunctionPropertyCommandRequest
  | MessageCode.FunctionPropertyStateReadRequest
  | MessageCode.FunctionPropertyCommandConfirmation =>
    if f.size < 7 then false
    else isValidObject io f
  | MessageCode.ResetRequest
  | MessageCode.ResetIndication => decide (f.size = 1)
  | MessageCode.Other _ => false

/-- The method `QKnxDeviceManagementFrame::isNegativeConfirmation`. -/
def isNegativeConfirmation (f : QKnxDeviceManagementFrame) : Bool :=
  (decide (f.messageCode = MessageCode.PropertyReadConfirmation)
      || decide (f.messageCode = MessageCode.PropertyWriteConfirmation))
    && decide (f.numberOfElements = 0)

/-- The message codes of the property services that the claims on `isValid` list. -/
def isPropertyCode (code : MessageCode) : Bool :=
  match code with
  | MessageCode.PropertyReadRequest
  | MessageCode.PropertyReadConfirmation
  | MessageCode.PropertyWriteRequest
  | MessageCode.PropertyWriteConfirmation
  | MessageCode.PropertyInfoIndication
  | MessageCode.FunctionPropertyCommandRequest
  | MessageCode.FunctionPropertyStateReadRequest
  | MessageCode.FunctionPropertyCommandConfirmation => true
  | _ => false

end QKnxDeviceManagementFrame

/-- Modelled from the spec: the enumeration `QKnxDeviceManagementFrame::Error` is
not among the sources. An error is its 8 bit code; the codes of the two
enumerators that `errorCode` names are parameters. -/
structure DeviceManagementError where
  None : Nat
  Data : Nat

namespace QKnxDeviceManagementFrame

/-- Modelled from the spec: the template `QKnxDeviceManagementFrame::data` of the
header is not among the sources; the data are the bytes of the service
information after object type, instance, property, number of elements and
start index. -/
def data (f : QKnxDeviceManagementFrame) : List Nat := f.serviceInformation.drop 6

/-- The method `QKnxDeviceManagementFrame::errorCode`. -/
def errorCode (error : DeviceManagementError) (f : QKnxDeviceManagementFrame) : Nat :=
  if !f.isNegativeConfirmation then error.None
  else
    match f.data with
    | [] => error.Data
    | err0 :: _ => err0 % 256

end QKnxDeviceManagementFrame

/-! ## QKnxNetIpDisconnectResponse -/

namespace QKnxNetIp

/-- Modelled from the spec: the enumeration `QKnxNetIp::ServiceType` is not among
the sources; the table of service types gives 0x0208 for the connection state
response. -/
abbrev ServiceType.ConnectionStateResponse : Nat := 0x0208

/-- Modelled from the spec: the service type of the disconnect request, 0x0209. -/
abbrev ServiceType.DisconnectRequest : Nat := 0x0209

/-- Modelled from the spec: the service type of the disconnect response, 0x020A. -/
abbrev ServiceType.DisconnectResponse : Nat := 0x020A

/-- Modelled from the spec: the code of `QKnxNetIp::Error::NoError`, 0x00. -/
abbrev Error.NoError : Nat := 0x00

end QKnxNetIp

/-- Modelled from the spec: the class `QKnxNetIpFrame` is not among the sources.
A frame is its service type and its payload; the header is made from them when
the frame is serialised. -/
structure QKnxNetIpFrame where
  serviceType : Nat
  payload : List Nat
  deriving DecidableEq

namespace QKnxNetIpFrame

/-- The number of bytes of the frame: the header of 6 bytes and the payload. -/
def size (f : QKnxNetIpFrame) : Nat := 6 + f.payload.length

/-- Modelled from the spec: the bytes of a frame are the header size 0x06, the
version 0x10, the service type and the total size, both big-endian, and the
payload. -/
def bytes (f : QKnxNetIpFrame) : List Nat :=
  [0x06, 0x10] ++ QKnxUtils.QUint16.bytes f.serviceType ++ QKnxUtils.QUint16.bytes f.size
    ++ f.payload

end QKnxNetIpFrame

namespace QKnxNetIpDisconnectResponse

/-- The constructor `QKnxNetIpDisconnectResponse(quint8 channelId, QKnxNetIp::Error status)`. -/
def create (channelId status : Nat) : QKnxNetIpFrame :=
  let payload : List Nat := []
  let payload := QKnxByteStore.setByte payload 0 (channelId % 256)
  let payload := QKnxByteStore.setByte payload 1 (status % 256)
  ⟨QKnxNetIp.ServiceType.ConnectionStateResponse % 65536, payload⟩

/-- The method `QKnxNetIpDisconnectResponse::channelId`. -/
def channelId (f : QKnxNetIpFrame) : Nat := QKnxByteStore.byte f.payload 0

/-- The method `QKnxNetIpDisconnectResponse::status`. -/
def status (f : QKnxNetIpFrame) : Nat := QKnxByteStore.byte f.payload 1

end QKnxNetIpDisconnectResponse

/-! ## QKnxTpdu and QKnxTpduFactory -/

/-- Modelled from the spec: the enumeration `QKnxTpdu::TransportControlField` is
not among the sources; these are the fields that the specification lists, and
`Invalid`. -/
inductive TransportControlField where
  | DataGroup
  | DataBroadcast
  | DataTagGroup
  | DataIndividual
  | DataConnected
  | Invalid
  deriving DecidableEq

/-- Modelled from the spec: the enumeration `QKnxTpdu::ApplicationControlField` is
not among the sources; these are the fields of the point-to-point services. -/
inductive ApplicationControlField where
  | FunctionPropertyCommand
  | FunctionPropertyStateRead
  | FunctionPropertyStateResponse
  | DeviceDescriptorRead
  | DeviceDescriptorResponse
  | Restart
  | PropertyValueRead
  | PropertyValueResponse
  | PropertyValueWrite
  | PropertyDescriptionRead
  | PropertyDescriptionResponse
  | LinkRead
  | LinkResponse
  | LinkWrite
  | FileStreamInfoReport
  | NetworkParameterResponse
  | NetworkParameterWrite
  | MemoryRead
  | MemoryResponse
  | MemoryWrite
  | AdcRead
  | AdcResponse
  | UserMemoryRead
  | UserMemoryResponse
  | UserMemoryWrite
  | UserManufacturerInfoRead
  | UserManufacturerInfoResponse
  | AuthorizeRequest
  | AuthorizeResponse
  | KeyWrite
  | KeyResponse
  | Invalid
  deriving DecidableEq

/-- Modelled from the spec: the class `QKnxTpdu` is not among the sources. A TPDU
is what its constructor is given: the transport and the application control
field, the sequence number (0 when none is given) and the data (empty when
none are given). -/
structure QKnxTpdu where
  tpci : TransportControlField
  apci : ApplicationControlField
  seqNumber : Nat
  data : List Nat
  deriving DecidableEq

/-- Modelled from the spec: the enumeration `QKnxTpdu::ResetType` is not among the
sources; the factory only asks whether the type is `BasicRestart`. -/
inductive ResetType where
  | BasicRestart
  | Other (code : Nat)
  deriving DecidableEq

/-- Modelled from the spec: the enumeration `QKnxTpdu::EraseCode` is not among the
sources. An erase code is its 8 bit code; the codes of the enumerators that
`createRestartTpdu` names are parameters. -/
structure EraseCode where
  Reserved : Nat
  ConfirmedRestart : Nat
  ResetIa : Nat
  ResetAp : Nat
  Invalid : Nat

namespace QKnxTpduFactory

/-- The enumeration `QKnxTpduFactory::PointToPoint::Mode`. -/
inductive Mode where
  | Connectionless
  | ConnectionOriented
  deriving DecidableEq

/-- The TPDU `{TransportControlField::Invalid, ApplicationControlField::Invalid}`
that the factory returns when a check fails. -/
def invalid : QKnxTpdu :=
  ⟨TransportControlField.Invalid, ApplicationControlField.Invalid, 0, []⟩

/-- The static function `tpci` of `qknxtpdufactory_p2p.cpp`. -/
def tpci (mode : Mode) (seq : Nat) : TransportControlField :=
  if seq > 15 then TransportControlField.Invalid
  else if mode = Mode.ConnectionOriented then TransportControlField.DataConnected
  else TransportControlField.DataIndividual

namespace PointToPoint

/-- The function `PointToPoint::createFunctionPropertyCommandTpdu`. -/
def createFunctionPropertyCommandTpdu (mode : Mode) (objIndex property : Nat)
    (data : List Nat) (seqNumber : Nat) : QKnxTpdu :=
  if data.length > 251 then invalid
  else ⟨tpci mode seqNumber, ApplicationControlField.FunctionPropertyCommand, seqNumber,
    QKnxUtils.QUint8.bytes objIndex ++ QKnxUtils.QUint8.bytes property ++ data⟩

/-- The function `PointToPoint::createFunctionPropertyStateReadTpdu`. -/
def createFunctionPropertyStateReadTpdu (mode : Mode) (objIndex property : Nat)
    (data : List Nat) (seqNumber : Nat) : QKnxTpdu :=
  if data.length > 251 then invalid
  else ⟨tpci mode seqNumber, ApplicationControlField.FunctionPropertyStateRead, seqNumber,
    QKnxUtils.QUint8.bytes objIndex ++ QKnxUtils.QUint8.bytes property ++ data⟩

/-- The function `PointToPoint::createFunctionPropertyStateResponseTpdu`. -/
def createFunctionPropertyStateResponseTpdu (mode : Mode) (objectIndex property code : Nat)
    (data : List Nat) (seqNumber : Nat) : QKnxTpdu :=
  if data.length > 250 then invalid
  else ⟨tpci mode seqNumber, ApplicationControlField.FunctionPropertyStateResponse, seqNumber,
    QKnxUtils.QUint8.bytes objectIndex ++ QKnxUtils.QUint8.bytes property
      ++ QKnxUtils.QUint8.bytes (code % 256) ++ data⟩

/-- The function `PointToPoint::createDeviceDescriptorReadTpdu`. -/
def createDeviceDescriptorReadTpdu (mode : Mode) (descriptorType seqNumber : Nat) : QKnxTpdu :=
  if descriptorType ≥ 64 then invalid
  else ⟨tpci mode seqNumber, ApplicationControlField.DeviceDescriptorRead, seqNumber,
    QKnxUtils.QUint8.bytes descriptorType⟩

/-- The function `PointToPoint::createDeviceDescriptorResponseTpdu`. -/
def createDeviceDescriptorResponseTpdu (mode : Mode) (descriptorType : Nat)
    (deviceDescriptor : List Nat) (seqNumber : Nat) : QKnxTpdu :=
  if descriptorType ≥ 64 ∨ deviceDescriptor.length > 254 then invalid
  else ⟨tpci mode seqNumber, ApplicationControlField.DeviceDescriptorResponse, seqNumber,
    QKnxUtils.QUint8.bytes descriptorType ++ deviceDescriptor⟩

/-- The function `PointToPoint::createRestartTpdu`. -/
def createRestartTpdu (codes : EraseCode) (mode : Mode) (type : ResetType)
    (eraseCode channelNumber seqNumber : Nat) : QKnxTpdu :=
  if type = ResetType.BasicRestart then
    ⟨tpci mode seqNumber, ApplicationControlField.Restart, seqNumber, []⟩
  else if eraseCode = codes.Reserved ∨ eraseCode ≥ codes.Invalid then invalid
  else if (eraseCode = codes.ConfirmedRestart ∨ eraseCode = codes.ResetIa
      ∨ eraseCode = codes.ResetAp) ∧ channelNumber ≠ 0x00 then invalid
  else ⟨tpci mode seqNumber, ApplicationControlField.Restart, seqNumber,
    QKnxUtils.QUint8.bytes 0x01 ++ QKnxUtils.QUint8.bytes (eraseCode % 256)
      ++ QKnxUtils.QUint8.bytes channelNumber⟩

/-- The function `PointToPoint::createRestartResponseTpdu`. -/
def createRestartResponseTpdu (mode : Mode) (type : ResetType)
    (code processTime seqNumber : Nat) : QKnxTpdu :=
  if type = ResetType.BasicRestart then invalid
  else ⟨tpci mode seqNumber, ApplicationControlField.Restart, seqNumber,
    QKnxUtils.QUint8.bytes 0x21 ++ QKnxUtils.QUint8.bytes (code % 256)
      ++ QKnxUtils.QUint16.bytes processTime⟩

/-- The static function `createPropertyValueTpdu`; the first of the two bytes of
the start index takes the number of elements in its high nibble. -/
def createPropertyValueTpdu (mode : Mode) (seqNumber : Nat) (apci : ApplicationControlField)
    (objectIndex property nbElement startIndex : Nat) (data : List Nat) : QKnxTpdu :=
  if data.length > 249 then invalid
  else if nbElement > 0x0f ∨ startIndex > 0x0fff then invalid
  else
    let tmp := QKnxUtils.QUint16.bytes startIndex
    let tmp := tmp.set 0 ((((nbElement <<< 4) % 256) ||| (tmp.getD 0 0 % 256)) % 256)
    ⟨tpci mode seqNumber, apci, seqNumber,
      QKnxUtils.QUint8.bytes objectIndex ++ QKnxUtils.QUint8.bytes property ++ tmp ++ data⟩

/-- The function `PointToPoint::createPropertyValueReadTpdu`. -/
def createPropertyValueReadTpdu (mode : Mode) (objectIndex property nbElement startIndex
    seqNumber : Nat) : QKnxTpdu :=
  createPropertyValueTpdu mode seqNumber ApplicationControlField.PropertyValueRead objectIndex
    (property % 256) nbElement startIndex []

/-- The function `PointToPoint::createPropertyValueResponseTpdu`. -/
def createPropertyValueResponseTpdu (mode : Mode) (objectIndex property nbElement
    startIndex : Nat) (data : List Nat) (seqNumber : Nat) : QKnxTpdu :=
  createPropertyValueTpdu mode seqNumber ApplicationControlField.PropertyValueResponse
    objectIndex (property % 256) nbElement startIndex data

/-- The function `PointToPoint::createPropertyValueWriteTpdu`. -/
def createPropertyValueWriteTpdu (mode : Mode) (objectIndex property nbElement
    startIndex : Nat) (data : List Nat) (seqNumber : Nat) : QKnxTpdu :=
  createPropertyValueTpdu mode seqNumber ApplicationControlField.PropertyValueWrite
    objectIndex (property % 256) nbElement startIndex data

/-- The function `PointToPoint::createPropertyDescriptionReadTpdu`. -/
def createPropertyDescriptionReadTpdu (mode : Mode) (objectIndex property propertyIndex
    seqNumber : Nat) : QKnxTpdu :=
  ⟨tpci mode seqNumber, ApplicationControlField.PropertyDescriptionRead, seqNumber,
    QKnxUtils.QUint8.bytes objectIndex ++ QKnxUtils.QUint8.bytes (property % 256)
      ++ QKnxUtils.QUint8.bytes propertyIndex⟩

/-- The function `PointToPoint::createPropertyDescriptionResponseTpdu`; the code of
`QKnxInterfaceObjectPropertyDataType::Id::Invalid`, which is not among the
sources, is the parameter `invalidId`. -/
def createPropertyDescriptionResponseTpdu (invalidId : Nat) (mode : Mode)
    (objectIndex property propertyIndex : Nat) (writeable : Bool)
    (type maxSize read write seqNumber : Nat) : QKnxTpdu :=
  if type ≥ invalidId then invalid
  else if maxSize > 0x0fff ∨ read > 15 ∨ write > 15 then invalid
  else ⟨tpci mode seqNumber, ApplicationControlField.PropertyDescriptionResponse, seqNumber,
    QKnxUtils.QUint8.bytes objectIndex ++ QKnxUtils.QUint8.bytes (property % 256)
      ++ QKnxUtils.QUint8.bytes propertyIndex
      ++ QKnxUtils.QUint8.bytes ((if writeable then 0x80 else 0x00) ||| ((type % 256) &&& 0x3f))
      ++ QKnxUtils.QUint16.bytes maxSize
      ++ QKnxUtils.QUint8.bytes (((read <<< 4) % 256) ||| ((write &&& 0x0f) % 256))⟩

/-- The function `PointToPoint::createLinkReadTpdu`. -/
def createLinkReadTpdu (mode : Mode) (groupObjectNumber startIndex seqNumber : Nat) :
    QKnxTpdu :=
  if startIndex > 0x0f then invalid
  else ⟨tpci mode seqNumber, ApplicationControlField.LinkRead, seqNumber,
    QKnxUtils.QUint8.bytes groupObjectNumber ++ QKnxUtils.QUint8.bytes startIndex⟩

/-- The function `PointToPoint::createLinkResponseTpdu`. -/
def createLinkResponseTpdu (mode : Mode) (groupObjectNumber sendingAddress
    startAddress : Nat) (addresses : List QKnxAddress) (seqNumber : Nat) : QKnxTpdu :=
  if sendingAddress > 15 ∨ startAddress > 15 then invalid
  else if addresses.length > 6
      ∨ ¬ addresses.all (fun a => decide (a.type = AddressType.Group)) = true then invalid
  else ⟨tpci mode seqNumber, ApplicationControlField.LinkResponse, seqNumber,
    QKnxUtils.QUint8.bytes groupObjectNumber
      ++ QKnxUtils.QUint8.bytes (((sendingAddress <<< 4) % 256) ||| ((startAddress &&& 0x0f) % 256))
      ++ (addresses.map QKnxAddress.bytes).flatten⟩

/-- The function `PointToPoint::createLinkWriteTpdu`. -/
def createLinkWriteTpdu (mode : Mode) (groupObjectNumber flags : Nat)
    (groupAddress : QKnxAddress) (seqNumber : Nat) : QKnxTpdu :=
  if groupAddress.type ≠ AddressType.Group then invalid
  else ⟨tpci mode seqNumber, ApplicationControlField.LinkWrite, seqNumber,
    QKnxUtils.QUint8.bytes groupObjectNumber ++ QKnxUtils.QUint8.bytes (flags % 256)
      ++ groupAddress.bytes⟩

/-- The function `PointToPoint::createFileStreamInfoReportTpdu`. -/
def createFileStreamInfoReportTpdu (mode : Mode) (fileHandle fileBlockSeqNumber : Nat)
    (data : List Nat) (seqNumber : Nat) : QKnxTpdu :=
  if fileHandle > 15 ∨ fileBlockSeqNumber > 15 then invalid
  else if data.length > 254 then invalid
  else ⟨tpci mode seqNumber, ApplicationControlField.FileStreamInfoReport, seqNumber,
    QKnxUtils.QUint8.bytes (((fileHandle <<< 4) % 256) ||| ((fileBlockSeqNumber &&& 0x0f) % 256))
      ++ data⟩

end PointToPoint

namespace PointToPointConnectionless

/-- The static function `createNetworkParameterTpduP2P`; `isMatch` of the interface
object table is not among the sources and is a parameter. -/
def createNetworkParameterTpduP2P (io : QKnxInterfaceObject) (apci : ApplicationControlField)
    (object property : Nat) (data testResult : List Nat) : QKnxTpdu :=
  if !io.isMatch object property then invalid
  else
    let objectVector := QKnxUtils.QUint16.bytes (object % 65536)
    let objectVector := objectVector ++ [property % 256]
    ⟨TransportControlField.DataIndividual, apci, 0, objectVector ++ data ++ testResult⟩

/-- The function `PointToPointConnectionless::createNetworkParameterResponseTpdu`. -/
def createNetworkParameterResponseTpdu (io : QKnxInterfaceObject) (object property : Nat)
    (testInfo testResult : List Nat) : QKnxTpdu :=
  if testResult.length > 21 then invalid
  else if testInfo.length + testResult.length > 250 then invalid
  else createNetworkParameterTpduP2P io ApplicationControlField.NetworkParameterResponse
    object property testInfo testResult

/-- The function `PointToPointConnectionless::createNetworkParameterWriteTpdu`. -/
def createNetworkParameterWriteTpdu (io : QKnxInterfaceObject) (object property : Nat)
    (value : List Nat) : QKnxTpdu :=
  if value.length > 250 then invalid
  else createNetworkParameterTpduP2P io ApplicationControlField.NetworkParameterWrite
    object property value []

end PointToPointConnectionless

namespace PointToPointConnectionOriented

/-- The function `PointToPointConnectionOriented::createMemoryReadTpdu`. -/
def createMemoryReadTpdu (number address seqNumber : Nat) : QKnxTpdu :=
  let mode := Mode.ConnectionOriented
  ⟨tpci mode seqNumber, ApplicationControlField.MemoryRead, seqNumber,
    QKnxUtils.QUint8.bytes number ++ QKnxUtils.QUint16.bytes address⟩

/-- The function `PointToPointConnectionOriented::createMemoryResponseTpdu`. -/
def createMemoryResponseTpdu (number address : Nat) (data : List Nat) (seqNumber : Nat) :
    QKnxTpdu :=
  if data.length > 251 then invalid
  else
    let mode := Mode.ConnectionOriented
    ⟨tpci mode seqNumber, ApplicationControlField.MemoryResponse, seqNumber,
      QKnxUtils.QUint8.bytes number ++ QKnxUtils.QUint16.bytes address ++ data⟩

/-- The function `PointToPointConnectionOriented::createMemoryWriteTpdu`. -/
def createMemoryWriteTpdu (number address : Nat) (data : List Nat) (seqNumber : Nat) :
    QKnxTpdu :=
  if data.length > 251 then invalid
  else
    let mode := Mode.ConnectionOriented
    ⟨tpci mode seqNumber, ApplicationControlField.MemoryWrite, seqNumber,
      QKnxUtils.QUint8.bytes number ++ QKnxUtils.QUint16.bytes address ++ data⟩

/-- The function `PointToPointConnectionOriented::createAdcReadTpdu`. -/
def createAdcReadTpdu (channel readCount seqNumber : Nat) : QKnxTpdu :=
  if channel > 0x3f then invalid
  else
    let mode := Mode.ConnectionOriented
    ⟨tpci mode seqNumber, ApplicationControlField.AdcRead, seqNumber,
      QKnxUtils.QUint8.bytes channel ++ QKnxUtils.QUint8.bytes readCount⟩

/-- The function `PointToPointConnectionOriented::createAdcResponseTpdu`. -/
def createAdcResponseTpdu (channel readCount sumOfAdc seqNumber : Nat) : QKnxTpdu :=
  if channel > 0x3f then invalid
  else
    let mode := Mode.ConnectionOriented
    ⟨tpci mode seqNumber, ApplicationControlField.AdcRead, seqNumber,
      QKnxUtils.QUint8.bytes channel ++ QKnxUtils.QUint8.bytes readCount
        ++ QKnxUtils.QUint16.bytes sumOfAdc⟩

/-- The function `PointToPointConnectionOriented::createUserMemoryReadTpdu`. -/
def createUserMemoryReadTpdu (addressExtention number address seqNumber : Nat) : QKnxTpdu :=
  if addressExtention > 15 ∨ number > 15 then invalid
  else
    let mode := Mode.ConnectionOriented
    ⟨tpci mode seqNumber, ApplicationControlField.UserMemoryRead, seqNumber,
      QKnxUtils.QUint8.bytes (((addressExtention <<< 4) % 256) ||| ((number &&& 0x0f) % 256))
        ++ QKnxUtils.QUint16.bytes address⟩

/-- The function `PointToPointConnectionOriented::createUserMemoryResponseTpdu`. -/
def createUserMemoryResponseTpdu (addressExtention number address : Nat) (data : List Nat)
    (seqNumber : Nat) : QKnxTpdu :=
  if addressExtention > 15 ∨ number > 15 ∨ data.length ≤ 0 ∨ data.length > 250 then invalid
  else
    let mode := Mode.ConnectionOriented
    ⟨tpci mode seqNumber, ApplicationControlField.UserMemoryResponse, seqNumber,
      QKnxUtils.QUint8.bytes (((addressExtention <<< 4) % 256) ||| ((number &&& 0x0f) % 256))
        ++ QKnxUtils.QUint16.bytes address ++ data⟩

/-- The function `PointToPointConnectionOriented::createUserMemoryWriteTpdu`. -/
def createUserMemoryWriteTpdu (addressExtention number address : Nat) (data : List Nat)
    (seqNumber : Nat) : QKnxTpdu :=
  if addressExtention > 15 ∨ number > 15 ∨ data.length ≤ 0 ∨ data.length > 250 then invalid
  else
    let mode := Mode.ConnectionOriented
    ⟨tpci mode seqNumber, ApplicationControlField.UserMemoryWrite, seqNumber,
      QKnxUtils.QUint8.bytes (((addressExtention <<< 4) % 256) ||| ((number &&& 0x0f) % 256))
        ++ QKnxUtils.QUint16.bytes address ++ data⟩

/-- The function `PointToPointConnectionOriented::createUserManufacturerInfoReadTpdu`. -/
def createUserManufacturerInfoReadTpdu (seqNumber : Nat) : QKnxTpdu :=
  let mode := Mode.ConnectionOriented
  ⟨tpci mode seqNumber, ApplicationControlField.UserManufacturerInfoRead, seqNumber, []⟩

/-- The function `PointToPointConnectionOriented::createUserManufacturerInfoResponseTpdu`. -/
def createUserManufacturerInfoResponseTpdu (id manufacturerSpecific seqNumber : Nat) :
    QKnxTpdu :=
  let mode := Mode.ConnectionOriented
  ⟨tpci mode seqNumber, ApplicationControlField.UserManufacturerInfoResponse, seqNumber,
    QKnxUtils.QUint8.bytes id ++ QKnxUtils.QUint16.bytes manufacturerSpecific⟩

/-- The function `PointToPointConnectionOriented::createAuthorizeRequestTpdu`. -/
def createAuthorizeRequestTpdu (key seqNumber : Nat) : QKnxTpdu :=
  let mode := Mode.ConnectionOriented
  ⟨tpci mode seqNumber, ApplicationControlField.AuthorizeRequest, seqNumber,
    QKnxUtils.QUint8.bytes 0 ++ QKnxUtils.QUint32.bytes key⟩

/-- The function `PointToPointConnectionOriented::createAuthorizeResponseTpdu`. -/
def createAuthorizeResponseTpdu (level seqNumber : Nat) : QKnxTpdu :=
  let mode := Mode.ConnectionOriented
  ⟨tpci mode seqNumber, ApplicationControlField.AuthorizeResponse, seqNumber,
    QKnxUtils.QUint8.bytes level⟩

/-- The function `PointToPointConnectionOriented::createKeyWriteTpdu`. -/
def createKeyWriteTpdu (level key seqNumber : Nat) : QKnxTpdu :=
  let mode := Mode.ConnectionOriented
  ⟨tpci mode seqNumber, ApplicationControlField.KeyWrite, seqNumber,
    QKnxUtils.QUint8.bytes level ++ QKnxUtils.QUint32.bytes key⟩

/-- The function `PointToPointConnectionOriented::createKeyResponseTpdu`. -/
def createKeyResponseTpdu (level seqNumber : Nat) : QKnxTpdu :=
  let mode := Mode.ConnectionOriented
  ⟨tpci mode seqNumber, ApplicationControlField.KeyResponse, seqNumber,
    QKnxUtils.QUint8.bytes level⟩

end PointToPointConnectionOriented

/-- A call of a function of `QKnxTpduFactory::PointToPoint`: the function and its
arguments other than the mode and the sequence number, which all of them
take. -/
inductive PointToPoint.Call where
  | FunctionPropertyCommand (objIndex property : Nat) (data : List Nat)
  | FunctionPropertyStateRead (objIndex property : Nat) (data : List Nat)
  | FunctionPropertyStateResponse (objectIndex property code : Nat) (data : List Nat)
  | DeviceDescriptorRead (descriptorType : Nat)
  | DeviceDescriptorResponse (descriptorType : Nat) (deviceDescriptor : List Nat)
  | Restart (type : ResetType) (eraseCode channelNumber : Nat)
  | RestartResponse (type : ResetType) (code processTime : Nat)
  | PropertyValueRead (objectIndex property nbElement startIndex : Nat)
  | PropertyValueResponse (objectIndex property nbElement startIndex : Nat) (data : List Nat)
  | PropertyValueWrite (objectIndex property nbElement startIndex : Nat) (data : List Nat)
  | PropertyDescriptionRead (objectIndex property propertyIndex : Nat)
  | PropertyDescriptionResponse (objectIndex property propertyIndex : Nat) (writeable : Bool)
      (type maxSize read write : Nat)
  | LinkRead (groupObjectNumber startIndex : Nat)
  | LinkResponse (groupObjectNumber sendingAddress startAddress : Nat)
      (addresses : List QKnxAddress)
  | LinkWrite (groupObjectNumber flags : Nat) (groupAddress : QKnxAddress)
  | FileStreamInfoReport (fileHandle fileBlockSeqNumber : Nat) (data : List Nat)

/-- The TPDU that the call returns for a mode and a sequence number. -/
def PointToPoint.Call.result (codes : EraseCode) (invalidId : Nat) (mode : Mode)
    (seqNumber : Nat) : PointToPoint.Call → QKnxTpdu
  | .FunctionPropertyCommand objIndex property data =>
      PointToPoint.createFunctionPropertyCommandTpdu mode objIndex property data seqNumber
  | .FunctionPropertyStateRead objIndex property data =>
      PointToPoint.createFunctionPropertyStateReadTpdu mode objIndex property data seqNumber
  | .FunctionPropertyStateResponse objectIndex property code data =>
      PointToPoint.createFunctionPropertyStateResponseTpdu mode objectIndex property code data
        seqNumber
  | .DeviceDescriptorRead descriptorType =>
      PointToPoint.createDeviceDescriptorReadTpdu mode descriptorType seqNumber
  | .DeviceDescriptorResponse descriptorType deviceDescriptor =>
      PointToPoint.createDeviceDescriptorResponseTpdu mode descriptorType deviceDescriptor
        seqNumber
  | .Restart type eraseCode channelNumber =>
      PointToPoint.createRestartTpdu codes mode type eraseCode channelNumber seqNumber
  | .RestartResponse type code processTime =>
      PointToPoint.createRestartResponseTpdu mode type code processTime seqNumber
  | .PropertyValueRead objectIndex property nbElement startIndex =>
      PointToPoint.createPropertyValueReadTpdu mode objectIndex property nbElement startIndex
        seqNumber
  | .PropertyValueResponse objectIndex property nbElement startIndex data =>
      PointToPoint.createPropertyValueResponseTpdu mode objectIndex property nbElement
        startIndex data seqNumber
  | .PropertyValueWrite objectIndex property nbElement startIndex data =>
      PointToPoint.createPropertyValueWriteTpdu mode objectIndex property nbElement
        startIndex data seqNumber
  | .PropertyDescriptionRead objectIndex property propertyIndex =>
      PointToPoint.createPropertyDescriptionReadTpdu mode objectIndex property propertyIndex
        seqNumber
  | .PropertyDescriptionResponse objectIndex property propertyIndex writeable type maxSize
      read write =>
      PointToPoint.createPropertyDescriptionResponseTpdu invalidId mode objectIndex property
        propertyIndex writeable type maxSize read write seqNumber
  | .LinkRead groupObjectNumber startIndex =>
      PointToPoint.createLinkReadTpdu mode groupObjectNumber startIndex seqNumber
  | .LinkResponse groupObjectNumber sendingAddress startAddress addresses =>
      PointToPoint.createLinkResponseTpdu mode groupObjectNumber sendingAddress startAddress
        addresses seqNumber
  | .LinkWrite groupObjectNumber flags groupAddress =>
      PointToPoint.createLinkWriteTpdu mode groupObjectNumber flags groupAddress seqNumber
  | .FileStreamInfoReport fileHandle fileBlockSeqNumber data =>
      PointToPoint.createFileStreamInfoReportTpdu mode fileHandle fileBlockSeqNumber data
        seqNumber

/-- A call of a function of `QKnxTpduFactory::PointToPointConnectionOriented`: the
function and its arguments other than the sequence number. -/
inductive PointToPointConnectionOriented.Call where
  | MemoryRead (number address : Nat)
  | MemoryResponse (number address : Nat) (data : List Nat)
  | MemoryWrite (number address : Nat) (data : List Nat)
  | AdcRead (channel readCount : Nat)
  | AdcResponse (channel readCount sumOfAdc : Nat)
  | UserMemoryRead (addressExtention number address : Nat)
  | UserMemoryResponse (addressExtention number address : Nat) (data : List Nat)
  | UserMemoryWrite (addressExtention number address : Nat) (data : List Nat)
  | UserManufacturerInfoRead
  | UserManufacturerInfoResponse (id manufacturerSpecific : Nat)
  | AuthorizeRequest (key : Nat)
  | AuthorizeResponse (level : Nat)
  | KeyWrite (level key : Nat)
  | KeyResponse (level : Nat)

/-- The TPDU that the call returns for a sequence number. -/
def PointToPointConnectionOriented.Call.result (seqNumber : Nat) :
    PointToPointConnectionOriented.Call → QKnxTpdu
  | .MemoryRead number address =>
      PointToPointConnectionOriented.createMemoryReadTpdu number address seqNumber
  | .MemoryResponse number address data =>
      PointToPointConnectionOriented.createMemoryResponseTpdu number address data seqNumber
  | .MemoryWrite number address data =>
      PointToPointConnectionOriented.createMemoryWriteTpdu number address data seqNumber
  | .AdcRead channel readCount =>
      PointToPointConnectionOriented.createAdcReadTpdu channel readCount seqNumber
  | .AdcResponse channel readCount sumOfAdc =>
      PointToPointConnectionOriented.createAdcResponseTpdu channel readCount sumOfAdc seqNumber
  | .UserMemoryRead addressExtention number address =>
      PointToPointConnectionOriented.createUserMemoryReadTpdu addressExtention number address
        seqNumber
  | .UserMemoryResponse addressExtention number address data =>
      PointToPointConnectionOriented.createUserMemoryResponseTpdu addressExtention number
        address data seqNumber
  | .UserMemoryWrite addressExtention number address data =>
      PointToPointConnectionOriented.createUserMemoryWriteTpdu addressExtention number address
        data seqNumber
  | .UserManufacturerInfoRead =>
      PointToPointConnectionOriented.createUserManufacturerInfoReadTpdu seqNumber
  | .UserManufacturerInfoResponse id manufacturerSpecific =>
      PointToPointConnectionOriented.createUserManufacturerInfoResponseTpdu id
        manufacturerSpecific seqNumber
  | .AuthorizeRequest key =>
      PointToPointConnectionOriented.createAuthorizeRequestTpdu key seqNumber
  | .AuthorizeResponse level =>
      PointToPointConnectionOriented.createAuthorizeResponseTpdu level seqNumber
  | .KeyWrite level key =>
      PointToPointConnectionOriented.createKeyWriteTpdu level key seqNumber
  | .KeyResponse level =>
      PointToPointConnectionOriented.createKeyResponseTpdu level seqNumber

/-- The checks that the function of the call makes on its arguments before it
builds a TPDU, read off the conditions under which the function returns the
invalid TPDU: the call passes when none of these conditions holds. The mode and
the sequence number are not checked by any of the functions. -/
def PointToPoint.Call.passesChecks (codes : EraseCode) (invalidId : Nat) :
    PointToPoint.Call → Bool
  | .FunctionPropertyCommand _ _ data => decide (¬ data.length > 251)
  | .FunctionPropertyStateRead _ _ data => decide (¬ data.length > 251)
  | .FunctionPropertyStateResponse _ _ _ data => decide (¬ data.length > 250)
  | .DeviceDescriptorRead descriptorType => decide (¬ descriptorType ≥ 64)
  | .DeviceDescriptorResponse descriptorType deviceDescriptor =>
      decide (¬ (descriptorType ≥ 64 ∨ deviceDescriptor.length > 254))
  | .Restart type eraseCode channelNumber =>
      decide (type = ResetType.BasicRestart
        ∨ (¬ (eraseCode = codes.Reserved ∨ eraseCode ≥ codes.Invalid)
          ∧ ¬ ((eraseCode = codes.ConfirmedRestart ∨ eraseCode = codes.ResetIa
            ∨ eraseCode = codes.ResetAp) ∧ channelNumber ≠ 0x00)))
  | .RestartResponse type _ _ => decide (¬ type = ResetType.BasicRestart)
  | .PropertyValueRead _ _ nbElement startIndex =>
      decide (¬ (nbElement > 0x0f ∨ startIndex > 0x0fff))
  | .PropertyValueResponse _ _ nbElement startIndex data =>
      decide (¬ data.length > 249 ∧ ¬ (nbElement > 0x0f ∨ startIndex > 0x0fff))
  | .PropertyValueWrite _ _ nbElement startIndex data =>
      decide (¬ data.length > 249 ∧ ¬ (nbElement > 0x0f ∨ startIndex > 0x0fff))
  | .PropertyDescriptionRead _ _ _ => true
  | .PropertyDescriptionResponse _ _ _ _ type maxSize read write =>
      decide (¬ type ≥ invalidId ∧ ¬ (maxSize > 0x0fff ∨ read > 15 ∨ write > 15))
  | .LinkRead _ startIndex => decide (¬ startIndex > 0x0f)
  | .LinkResponse _ sendingAddress startAddress addresses =>
      decide (¬ (sendingAddress > 15 ∨ startAddress > 15)
        ∧ ¬ (addresses.length > 6
          ∨ ¬ addresses.all (fun a => decide (a.type = AddressType.Group)) = true))
  | .LinkWrite _ _ groupAddress => decide (¬ groupAddress.type ≠ AddressType.Group)
  | .FileStreamInfoReport fileHandle fileBlockSeqNumber data =>
      decide (¬ (fileHandle > 15 ∨ fileBlockSeqNumber > 15) ∧ ¬ data.length > 254)

/-- The checks that the function of the call makes on its arguments before it
builds a TPDU, read off the conditions under which the function returns the
invalid TPDU; six of the functions check nothing. The sequence number is not
checked by any of the functions. -/
def PointToPointConnectionOriented.Call.passesChecks :
    PointToPointConnectionOriented.Call → Bool
  | .MemoryRead _ _ => true
  | .MemoryResponse _ _ data => decide (¬ data.length > 251)
  | .MemoryWrite _ _ data => decide (¬ data.length > 251)
  | .AdcRead channel _ => decide (¬ channel > 0x3f)
  | .AdcResponse channel _ _ => decide (¬ channel > 0x3f)
  | .UserMemoryRead addressExtention number _ =>
      decide (¬ (addressExtention > 15 ∨ number > 15))
  | .UserMemoryResponse addressExtention number _ data =>
      decide (¬ (addressExtention > 15 ∨ number > 15 ∨ data.length ≤ 0 ∨ data.length > 250))
  | .UserMemoryWrite addressExtention number _ data =>
      decide (¬ (addressExtention > 15 ∨ number > 15 ∨ data.length ≤ 0 ∨ data.length > 250))
  | .UserManufacturerInfoRead => true
  | .UserManufacturerInfoResponse _ _ => true
  | .AuthorizeRequest _ => true
  | .AuthorizeResponse _ => true
  | .KeyWrite _ _ => true
  | .KeyResponse _ => true

end QKnxTpduFactory

/-! ## More of QKnxByteStore and QKnxUtils -/

/-- Modelled from the spec: `QKnxByteStore::bytes(start, count)`, a copy of `count`
bytes from the offset `start`. -/
def QKnxByteStore.bytes (store : List Nat) (start count : Nat) : List Nat :=
  (store.drop start).take count

/-- Modelled from the spec: `QKnxByteStore::insertBytes`, which inserts at an offset
and grows the store; the bytes from the offset on follow the inserted ones. -/
def QKnxByteStore.insertBytes (store : List Nat) (pos : Nat) (bytes : List Nat) : List Nat :=
  store.take pos ++ bytes ++ store.drop pos

/-- Modelled from the spec: `QKnxByteStore::replaceBytes`, which overwrites from an
offset on and requires the replacement to end inside the store; otherwise the
store stays as it is. -/
def QKnxByteStore.replaceBytes (store : List Nat) (pos : Nat) (replacement : List Nat) :
    List Nat :=
  if pos + replacement.length ≤ store.length then
    store.take pos ++ replacement ++ store.drop (pos + replacement.length)
  else store

/-- Modelled from the spec: `QKnxUtils::QUint8::fromBytes(bytes, index)`
(`qknxutils.h`) is not among the sources; it reads the byte at the index and
gives 0 when there is none. -/
def QKnxUtils.QUint8.fromBytes (bytes : List Nat) (index : Nat) : Nat :=
  if bytes.length ≤ index then 0 else bytes.getD index 0 % 256

/-! ## The setters of QKnxDeviceManagementFrame -/

namespace QKnxDeviceManagementFrame

/-- The method `QKnxDeviceManagementFrame::setNumberOfElements`. -/
def setNumberOfElements (f : QKnxDeviceManagementFrame) (numOfElements : Nat) :
    QKnxDeviceManagementFrame :=
  if numOfElements > 0xf then f
  else
    let si := f.serviceInformation
    let si := QKnxByteStore.setByte si 4
      (((QKnxByteStore.byte si 4 &&& 0xf) ||| (numOfElements <<< 4)) % 256)
    { f with serviceInformation := si }

/-- The method `QKnxDeviceManagementFrame::startIndex`; `serviceInformationRef(4)`
is the service information from byte 4 on. -/
def startIndex (f : QKnxDeviceManagementFrame) : Nat :=
  QKnxUtils.QUint16.fromBytes (f.serviceInformation.drop 4) &&& 0x0fff

/-- The method `QKnxDeviceManagementFrame::setStartIndex`. -/
def setStartIndex (f : QKnxDeviceManagementFrame) (index : Nat) :
    QKnxDeviceManagementFrame :=
  if index > 0x0fff then f
  else
    let si := f.serviceInformation
    let startIndex := QKnxUtils.QUint16.fromBytes (f.serviceInformation.drop 4)
    let si := QKnxByteStore.replaceBytes si 4
      (QKnxUtils.QUint16.bytes (((startIndex &&& 0xf000) ||| index) % 65536))
    { f with serviceInformation := si }

end QKnxDeviceManagementFrame

/-! ## QKnxNetIpConnectionHeader -/

/-- The class `QKnxNetIpConnectionHeader`, a byte store. The private member
`m_isValid` is only used in `qknxnetipconnectionheader.cpp`, which is not among
the sources, and is not part of the embedding. -/
structure QKnxNetIpConnectionHeader where
  store : List Nat
  deriving DecidableEq

namespace QKnxNetIpConnectionHeader

/-- The default-constructed header, which `fromBytes` returns as `{}`. -/
def empty : QKnxNetIpConnectionHeader := ⟨[]⟩

/-- The method `size()` of the byte store. -/
def size (h : QKnxNetIpConnectionHeader) : Nat := h.store.length

/-- The method `bytes()` of the byte store. -/
def bytes (h : QKnxNetIpConnectionHeader) : List Nat := h.store

/-- Modelled from the spec: the constructor
`QKnxNetIpConnectionHeader(channelId, sequenceCount, serviceTypeSpecificValue)`
is in the `.cpp` file, which is not among the sources; it gives the header of
four bytes: the size 4, the channel id, the sequence count and the service
type specific value. -/
def create (channelId sequenceCount serviceTypeSpecificValue : Nat) :
    QKnxNetIpConnectionHeader :=
  ⟨[4, channelId % 256, sequenceCount % 256, serviceTypeSpecificValue % 256]⟩

/-- Modelled from the spec: `isValid` is in the `.cpp` file, which is not among the
sources; a header is valid when it has at least 4 bytes and its first byte is
its number of bytes. -/
def isValid (h : QKnxNetIpConnectionHeader) : Bool :=
  decide (h.size ≥ 4) && decide (QKnxByteStore.byte h.store 0 = h.size)

/-- Modelled from the spec: `channelId` is in the `.cpp` file; it is byte 1. -/
def channelId (h : QKnxNetIpConnectionHeader) : Nat := QKnxByteStore.byte h.store 1

/-- Modelled from the spec: `sequenceCount` is in the `.cpp` file; it is byte 2. -/
def sequenceCount (h : QKnxNetIpConnectionHeader) : Nat := QKnxByteStore.byte h.store 2

/-- Modelled from the spec: `serviceTypeSpecificValue` is in the `.cpp` file; it is
byte 3. -/
def serviceTypeSpecificValue (h : QKnxNetIpConnectionHeader) : Nat :=
  QKnxByteStore.byte h.store 3

/-- The template `connectionTypeSpecificHeaderItems`: `bytes<T>(4, size() - 4)`. A
header of fewer than 4 bytes has no byte from the offset 4 on, whatever the
count. -/
def connectionTypeSpecificHeaderItems (h : QKnxNetIpConnectionHeader) : List Nat :=
  QKnxByteStore.bytes h.store 4 (h.size - 4)

/-- The template `setConnectionTypeSpecificHeaderItems`:
`insertBytes(4, items); setByte(0, quint8(items.size()) + 4);`. -/
def setConnectionTypeSpecificHeaderItems (h : QKnxNetIpConnectionHeader) (items : List Nat) :
    QKnxNetIpConnectionHeader :=
  let store := QKnxByteStore.insertBytes h.store 4 items
  let store := QKnxByteStore.setByte store 0 ((items.length % 256 + 4) % 256)
  ⟨store⟩

/-- The static template `QKnxNetIpConnectionHeader::fromBytes(bytes, index)`. -/
def fromBytes (bytes : List Nat) (index : Nat) : QKnxNetIpConnectionHeader :=
  let availableSize : Int := (bytes.length : Int) - (index : Int)
  if availableSize < 1 then empty
  else
    let totalSize := QKnxUtils.QUint8.fromBytes bytes index
    if availableSize < (totalSize : Int) then empty
    else
      let channelId := QKnxUtils.QUint8.fromBytes bytes (index + 1)
      let sequenceCount := QKnxUtils.QUint8.fromBytes bytes (index + 2)
      let serviceTypeSpecificValue := QKnxUtils.QUint8.fromBytes bytes (index + 3)
      let header := create channelId sequenceCount serviceTypeSpecificValue
      if totalSize > 4 then
        header.setConnectionTypeSpecificHeaderItems
          ((bytes.drop (index + 4)).take (totalSize - 4))
      else header

end QKnxNetIpConnectionHeader

/-! ## KNXnet/IP structures -/

namespace QKnxNetIp

/-- Modelled from the spec: the enumeration of the description types is not among
the sources; the codes follow the order in which the specification lists the
types, and the test of the addresses DIB gives 0x05 for `KnxAddresses`. -/
abbrev DescriptionType.SupportedServiceFamilies : Nat := 0x02

/-- Modelled from the spec: the code of `CurrentIpConfiguration`, 0x04. -/
abbrev DescriptionType.CurrentIpConfiguration : Nat := 0x04

/-- Modelled from the spec: the code of `KnxAddresses`, 0x05, as the test shows it. -/
abbrev DescriptionType.KnxAddresses : Nat := 0x05

end QKnxNetIp

/-- Modelled from the spec: the base classes `QKnxNetIpStructure` and
`QKnxNetIpDescriptionTypeStruct` of the description information blocks are not
among the sources. A structure is its code and its payload (its data, in the
words of the older revision); the code 0 is the one of a default-constructed
structure, which has no header. -/
structure QKnxNetIpStruct where
  code : Nat
  payload : List Nat
  deriving DecidableEq

namespace QKnxNetIpStruct

/-- Modelled from the spec: the size of a structure, a header of two bytes and the
payload; a default-constructed structure has the size 0, as the test shows. -/
def size (s : QKnxNetIpStruct) : Nat := if s.code = 0 then 0 else 2 + s.payload.length

/-- Modelled from the spec: `setPayload` (`setData` in the older revision). -/
def setPayload (s : QKnxNetIpStruct) (payload : List Nat) : QKnxNetIpStruct :=
  { s with payload := payload }

/-- Modelled from the spec: `dataSize` of the older revision, the size of the data. -/
def dataSize (s : QKnxNetIpStruct) : Nat := s.payload.length

/-- Modelled from the spec: `data(start, count)` of the older revision, a copy of
`count` bytes of the data from the offset `start`. -/
def data (s : QKnxNetIpStruct) (start count : Nat) : List Nat :=
  QKnxByteStore.bytes s.payload start count

/-- Modelled from the spec: the base `isValid`: the structure has a code and its
size fits the size byte of the header. -/
def isValid (s : QKnxNetIpStruct) : Bool := decide (s.code ≠ 0) && decide (s.size ≤ 255)

/-- Modelled from the spec: the bytes `[struct_size:1][description_type:1][payload]`
of a structure, and no byte for a default-constructed one. -/
def bytes (s : QKnxNetIpStruct) : List Nat :=
  if s.code = 0 then [] else [s.size % 256, s.code % 256] ++ s.payload

end QKnxNetIpStruct

/-! ## QKnxNetIpKnxAddressesDIB -/

namespace QKnxNetIpKnxAddressesDIB

/-- Modelled from the spec: the class is not among the sources, only its test is.
The constructor from a list of addresses gives the code `KnxAddresses` and as
payload the two bytes of each address, in the order of the list. -/
def create (addresses : List QKnxAddress) : QKnxNetIpStruct :=
  ⟨QKnxNetIp.DescriptionType.KnxAddresses, (addresses.map QKnxAddress.bytes).flatten⟩

/-- The addresses that two bytes each of a payload stand for. -/
def addressesOf : List Nat → List QKnxAddress
  | b0 :: b1 :: rest =>
    QKnxAddress.fromBytes AddressType.Individual [b0, b1] :: addressesOf rest
  | _ => []

/-- Modelled from the spec: `individualAddresses`, the individual addresses that
the payload holds, two bytes each. -/
def individualAddresses (s : QKnxNetIpStruct) : List QKnxAddress := addressesOf s.payload

/-- Modelled from the spec: `isValid`: the base check, an even size and the code
`KnxAddresses`. -/
def isValid (s : QKnxNetIpStruct) : Bool :=
  s.isValid && decide (s.size % 2 = 0)
    && decide (s.code = QKnxNetIp.DescriptionType.KnxAddresses)

end QKnxNetIpKnxAddressesDIB

/-! ## QMultiMap -/

/-- The class `QMultiMap<ServiceFamilieId, quint8>` of Qt: the items in the order
of iteration, ascending by key, and among the items of one key the most
recently inserted first. -/
abbrev QMultiMap := List (Nat × Nat)

namespace QMultiMap

/-- The method `insertMulti`: the new item goes before the first item whose key
is not smaller. -/
def insertMulti : QMultiMap → Nat → Nat → QMultiMap
  | [], key, value => [(key, value)]
  | (k, v) :: rest, key, value =>
    if key ≤ k then (key, value) :: (k, v) :: rest
    else (k, v) :: insertMulti rest key value

/-- The method `uniqueKeys`: the keys in ascending order, each one once. -/
def uniqueKeys (m : QMultiMap) : List Nat := (m.map Prod.fst).dedup

/-- The method `values(key)`: the values of the items with the key, in the order
of iteration. -/
def values (m : QMultiMap) (key : Nat) : List Nat :=
  (m.filter (fun p => decide (p.1 = key))).map Prod.snd

/-- The invariant of the map: the items are in ascending order of their keys. -/
def WellFormed (m : QMultiMap) : Prop := m.Pairwise (fun a b => a.1 ≤ b.1)

end QMultiMap

/-- The assignment `a[i] = c` on a `QByteArray`, which first extends the array when
the index is not inside it. -/
def QByteArray.assign (a : List Nat) (i c : Nat) : List Nat :=
  (if a.length ≤ i then a ++ List.replicate (i + 1 - a.length) 0 else a).set i c

/-! ## QKnxNetIpServiceFamiliesDib -/

namespace QKnxNetIpServiceFamiliesDib

/-- The default constructor `QKnxNetIpServiceFamiliesDib()`. -/
def empty : QKnxNetIpStruct := ⟨QKnxNetIp.DescriptionType.SupportedServiceFamilies, []⟩

/-- The method `add(ServiceFamilieId id, quint8 version)`. -/
def add (dib : QKnxNetIpStruct) (id version : Nat) : QKnxNetIpStruct :=
  let load := dib.payload
  let load := QKnxByteStore.appendBytes load [id % 256, version % 256]
  dib.setPayload load

/-- The statement `additionalData[i++] = quint8(key), additionalData[i++] = value`
of `add(families)`, on the array and the index `i`. -/
def addStep (key : Nat) (state : List Nat × Nat) (value : Nat) : List Nat × Nat :=
  let additionalData := QByteArray.assign state.1 state.2 (key % 256)
  let additionalData := QByteArray.assign additionalData (state.2 + 1) value
  (additionalData, state.2 + 2)

/-- The body of the loop over the keys in `add(families)`: the values of the key
are sorted and written one after the other. -/
def addKey (families : QMultiMap) (state : List Nat × Nat) (key : Nat) : List Nat × Nat :=
  let values := (families.values key).insertionSort (fun a b => a ≤ b)
  values.foldl (addStep key) state

/-- The method `add(const ServiceFamilyIdVersions &families)`. -/
def addFamilies (dib : QKnxNetIpStruct) (families : QMultiMap) : QKnxNetIpStruct :=
  let keys := families.uniqueKeys
  let additionalData := (keys.foldl (addKey families) ([], 0)).1
  let load := dib.payload
  let load := QKnxByteStore.appendBytes load additionalData
  dib.setPayload load

/-- The constructor `QKnxNetIpServiceFamiliesDib(ServiceFamilieId id, quint8 version)`. -/
def create (id version : Nat) : QKnxNetIpStruct := add empty id version

/-- The constructor `QKnxNetIpServiceFamiliesDib(const ServiceFamilyIdVersions &families)`. -/
def createFamilies (families : QMultiMap) : QKnxNetIpStruct := addFamilies empty families

/-- The constructor `QKnxNetIpServiceFamiliesDib(const QKnxNetIpDescriptionTypeStruct &other)`. -/
def ofStruct (other : QKnxNetIpStruct) : QKnxNetIpStruct := other

/-- The loop of `serviceFamilyIdVersions` over the payload, two bytes at a time:
`insertMulti(ref.byte(i), ref.byte(i+1))`; a byte past the end reads as 0. -/
def insertPairs : List Nat → QMultiMap → QMultiMap
  | [], m => m
  | [b0], m => m.insertMulti b0 0
  | b0 :: b1 :: rest, m => insertPairs rest (m.insertMulti b0 b1)

/-- The method `QKnxNetIpServiceFamiliesDib::serviceFamilyIdVersions`. -/
def serviceFamilyIdVersions (dib : QKnxNetIpStruct) : QMultiMap := insertPairs dib.payload []

/-- The method `QKnxNetIpServiceFamiliesDib::descriptionType`. -/
def descriptionType (dib : QKnxNetIpStruct) : Nat := dib.code

/-- The method `QKnxNetIpServiceFamiliesDib::isValid`. -/
def isValid (dib : QKnxNetIpStruct) : Bool :=
  dib.isValid && decide (dib.size % 2 = 0)
    && decide (descriptionType dib = QKnxNetIp.DescriptionType.SupportedServiceFamilies)

/-- The blocks that are built with the constructors of the class and the two
`add` methods alone; the constructor from another structure is applied to a
block that was built in this way. -/
inductive Built : QKnxNetIpStruct → Prop where
  | empty : Built empty
  | create (id version : Nat) : Built (create id version)
  | createFamilies (families : QMultiMap) : Built (createFamilies families)
  | ofStruct (other : QKnxNetIpStruct) : Built other → Built (ofStruct other)
  | add (dib : QKnxNetIpStruct) (id version : Nat) : Built dib → Built (add dib id version)
  | addFamilies (dib : QKnxNetIpStruct) (families : QMultiMap) :
      Built dib → Built (addFamilies dib families)

end QKnxNetIpServiceFamiliesDib

/-! ## QKnxNetIpCurrentConfigDIB -/

namespace QKnxNetIpCurrentConfigDIB

/-- Modelled from the spec: the enumeration `AssignmentMethod` of the class is in
its header, which is not among the sources; the values are those of the same
enumeration in `qknxnetipconfigdib.h`: 0x01, 0x02, 0x04, 0x08. -/
abbrev AssignmentMethod.Manual : Nat := 0x01
/-- Modelled from the spec: the enumerator `BootP`, 0x02. -/
abbrev AssignmentMethod.BootP : Nat := 0x02
/-- Modelled from the spec: the enumerator `Dhcp`, 0x04. -/
abbrev AssignmentMethod.Dhcp : Nat := 0x04
/-- Modelled from the spec: the enumerator `AutoIp`, 0x08. -/
abbrev AssignmentMethod.AutoIp : Nat := 0x08

/-- The number of set bits of a byte, `std::bitset<8>(v).count()`. -/
def bitcount (v : Nat) : Nat := ((List.range 8).filter (fun k => v.testBit k)).length

/-- Modelled from the spec: `QKnxUtils::HostAddress::toArray`, the four big-endian
bytes of an IPv4 address, which is a number of 32 bits. -/
def toArray (address : Nat) : List Nat := QKnxUtils.QUint32.bytes address

/-- Modelled from the spec: `QKnxUtils::HostAddress::fromArray`, the IPv4 address
of four big-endian bytes. -/
def fromArray (bytes : List Nat) : Nat :=
  match bytes with
  | [b0, b1, b2, b3] => ((b0 * 256 + b1) * 256 + b2) * 256 + b3
  | _ => 0

/-- The method `QByteArray::insert(i, ba)` for an index up to the size of the array. -/
def insert (data : List Nat) (i : Nat) (ba : List Nat) : List Nat :=
  data.take i ++ ba ++ data.drop i

/-- The method `QByteArray::resize`: the array is cut, or extended with bytes that
are not initialised. Their content is the parameter `uninitialized`, a byte
for every index. -/
def resize (uninitialized : Nat → Nat) (data : List Nat) (size : Nat) : List Nat :=
  data.take size
    ++ (List.range' data.length (size - data.length)).map (fun k => uninitialized k % 256)

/-- The constructor `QKnxNetIpCurrentConfigDIB(ip, subnetMask, gateway, dhcp, method)`. -/
def create (uninitialized : Nat → Nat) (ip subnetMask gateway dhcp method : Nat) :
    QKnxNetIpStruct :=
  let s : QKnxNetIpStruct := ⟨QKnxNetIp.DescriptionType.CurrentIpConfiguration, []⟩
  let bitcount := bitcount (method % 256)
  if method < AssignmentMethod.Manual ∨ method > AssignmentMethod.AutoIp ∨ bitcount ≠ 1 then s
  else
    let data : List Nat := []
    let data := insert data 0 (toArray ip)
    let data := insert data 4 (toArray subnetMask)
    let data := insert data 8 (toArray gateway)
    let data := insert data 12 (toArray dhcp)
    let data := resize uninitialized data 18
    let data := data.set 17 (method % 256)
    s.setPayload data

/-- The method `QKnxNetIpCurrentConfigDIB::ipAddress`. -/
def ipAddress (s : QKnxNetIpStruct) : Nat := fromArray (s.data 0 4)

/-- The method `QKnxNetIpCurrentConfigDIB::subnetMask`. -/
def subnetMask (s : QKnxNetIpStruct) : Nat := fromArray (s.data 4 4)

/-- The method `QKnxNetIpCurrentConfigDIB::defaultGateway`. -/
def defaultGateway (s : QKnxNetIpStruct) : Nat := fromArray (s.data 8 4)

/-- The method `QKnxNetIpCurrentConfigDIB::dhcpOrBootP`. -/
def dhcpOrBootP (s : QKnxNetIpStruct) : Nat := fromArray (s.data 12 4)

/-- The method `QKnxNetIpCurrentConfigDIB::assignmentMethod`. -/
def assignmentMethod (s : QKnxNetIpStruct) : Nat := (s.data 16 1).getD 0 0

/-- The method `QKnxNetIpCurrentConfigDIB::isValid`. -/
def isValid (s : QKnxNetIpStruct) : Bool :=
  s.isValid && decide (s.dataSize = 18)
    && decide (s.code = QKnxNetIp.DescriptionType.CurrentIpConfiguration)

end QKnxNetIpCurrentConfigDIB

/-! ## Inputs of the examples -/

/-- An interface-object table for the examples: the only object type is 0 and
every property matches it. -/
def exampleInterfaceObject : QKnxInterfaceObject :=
  ⟨fun type => type == 0, fun _ _ => true⟩

/-- Error codes for the examples: `None` is 0 and `Data` is 3. -/
def exampleError : DeviceManagementError := ⟨0, 3⟩

/-- Erase codes for the examples: `Reserved` is 0, `ConfirmedRestart` 1, `ResetIa` 3,
`ResetAp` 4 and `Invalid` 8. -/
def exampleEraseCode : EraseCode := ⟨0, 1, 3, 4, 8⟩

/-- A negative read confirmation with the data byte 0x07. -/
def negativeConfirmation : QKnxDeviceManagementFrame :=
  ⟨MessageCode.PropertyReadConfirmation, [0x00, 0x00, 0x01, 0x0b, 0x00, 0x01, 0x07]⟩

/-- Data of 251 bytes. -/
def data251 : List Nat := List.replicate 251 0

/-- The `float` nearest to -5.2, the first value of the test of the datapoint. -/
def minusFivePointTwo : ℚ := -5452595 / 1048576

/-- The `float` nearest to 20.479. -/
def twentyPoint479 : ℚ := 5368447 / 262144

/-- The `float` nearest to -671088.64, the lower bound of the main type. -/
def floatMinimum : ℚ := -5368709 / 8

/-- The `float` nearest to -459.6, the lower bound of the temperature in degrees
Fahrenheit. -/
def minusFourFiveNinePointSix : ℚ := -15060173 / 32768

/-- The `float` nearest to 670760.96, the upper bound of the main type. -/
def floatMaximum : ℚ := 10732175 / 16

/-- A buffer with a connection header of 6 bytes at the index 1. -/
def exampleBuffer : List Nat := [0xff, 0x06, 0x01, 0x02, 0x03, 0xaa, 0xbb, 0xcc]

/-- A connection header of 5 bytes, with one connection type specific item. -/
def headerWithItem : QKnxNetIpConnectionHeader := ⟨[0x05, 0x01, 0x02, 0x03, 0xaa]⟩

/-- The three individual addresses of the test of the addresses DIB: 1.1.0, 1.2.5
and 2.3.8. -/
def testAddresses : List QKnxAddress :=
  [QKnxAddress.createIndividual 1 1 0, QKnxAddress.createIndividual 1 2 5,
    QKnxAddress.createIndividual 2 3 8]

/-- A multimap of service families: version 1 of the family 0x02, and the versions
1 and 2 of the family 0x04, the version 2 inserted last. -/
def exampleFamilies : QMultiMap := [(0x02, 0x01), (0x04, 0x02), (0x04, 0x01)]

end QKnx

namespace QKnx

open QKnxAddress

/-! ## Bit arithmetic -/

theorem or_shift_11_8 (a b c : Nat) (hb : b ≤ 7) (hc : c ≤ 255) :
    (a <<< 11) ||| (b <<< 8) ||| c = a * 2048 + b * 256 + c := by
  have h1 := Nat.mul_add_lt_is_or (i := 11) (b := b * 256) (by omega) a
  have h2 := Nat.mul_add_lt_is_or (i := 8) (b := c) (by omega) (a * 8 + b)
  have e1 : a <<< 11 = 2 ^ 11 * a := by rw [Nat.shiftLeft_eq, Nat.mul_comm]
  have e2 : b <<< 8 = b * 256 := by rw [Nat.shiftLeft_eq]
  have e3 : 2 ^ 11 * a + b * 256 = 2 ^ 8 * (a * 8 + b) := by omega
  rw [e1, e2, ← h1, e3, ← h2]
  omega

theorem or_shift_12_8 (a b c : Nat) (hb : b ≤ 15) (hc : c ≤ 255) :
    (a <<< 12) ||| (b <<< 8) ||| c = a * 4096 + b * 256 + c := by
  have h1 := Nat.mul_add_lt_is_or (i := 12) (b := b * 256) (by omega) a
  have h2 := Nat.mul_add_lt_is_or (i := 8) (b := c) (by omega) (a * 16 + b)
  have e1 : a <<< 12 = 2 ^ 12 * a := by rw [Nat.shiftLeft_eq, Nat.mul_comm]
  have e2 : b <<< 8 = b * 256 := by rw [Nat.shiftLeft_eq]
  have e3 : 2 ^ 12 * a + b * 256 = 2 ^ 8 * (a * 16 + b) := by omega
  rw [e1, e2, ← h1, e3, ← h2]
  omega

theorem or_shift_11 (a c : Nat) (hc : c ≤ 2047) : (a <<< 11) ||| c = a * 2048 + c := by
  have h1 := Nat.mul_add_lt_is_or (i := 11) (b := c) (by omega) a
  have e1 : a <<< 11 = 2 ^ 11 * a := by rw [Nat.shiftLeft_eq, Nat.mul_comm]
  rw [e1, ← h1]
  omega

theorem and_mask (v k : Nat) : v &&& (2 ^ k - 1) = v % 2 ^ k :=
  Nat.and_pow_two_sub_one_eq_mod v k

theorem and_0xff (v : Nat) : v &&& 0xFF = v % 256 := and_mask v 8

theorem and_0x7ff (v : Nat) : v &&& 0x07ff = v % 2048 := and_mask v 11

theorem and_0x1f (v : Nat) : v &&& 0x1f = v % 32 := and_mask v 5

theorem and_0x0f (v : Nat) : v &&& 0x0f = v % 16 := and_mask v 4

theorem and_0x07 (v : Nat) : v &&& 0x07 = v % 8 := and_mask v 3

/-! ## Decimal text and its conversion back -/

theorem digitChar_decimal (d : Nat) (h : d < 10) :
    digitValue (Nat.digitChar d) = some d ∧ isDecimalDigit (Nat.digitChar d) = true := by
  interval_cases d <;> decide

theorem toDigitsCore_eq (n : Nat) :
    ∀ fuel ds, n < fuel → Nat.toDigitsCore 10 fuel n ds = Nat.toDigits 10 n ++ ds := by
  induction n using Nat.strong_induction_on with
  | _ n ih =>
    intro fuel ds hf
    obtain ⟨f, rfl⟩ : ∃ f, fuel = f + 1 := ⟨fuel - 1, by omega⟩
    by_cases h : n / 10 = 0
    · simp [Nat.toDigits, Nat.toDigitsCore, h]
    · have hlt : n / 10 < n := by omega
      have h1 := ih (n / 10) hlt f (Nat.digitChar (n % 10) :: ds) (by omega)
      have h2 := ih (n / 10) hlt n [Nat.digitChar (n % 10)] hlt
      unfold Nat.toDigits
      rw [Nat.toDigitsCore, Nat.toDigitsCore]
      simp only [h, if_false]
      rw [h1, h2]
      simp

theorem number_lt (n : Nat) (h : n < 10) : number n = [Nat.digitChar n] := by
  simp [number, Nat.toDigits, Nat.toDigitsCore, Nat.div_eq_of_lt h, Nat.mod_eq_of_lt h]

theorem number_ge (n : Nat) (h : 10 ≤ n) :
    number n = number (n / 10) ++ [Nat.digitChar (n % 10)] := by
  have h0 : ¬ n / 10 = 0 := by omega
  unfold number Nat.toDigits
  rw [Nat.toDigitsCore]
  simp only [h0, if_false]
  exact toDigitsCore_eq (n / 10) n [Nat.digitChar (n % 10)] (by omega)

theorem number_decimal (n : Nat) : ∀ c ∈ number n, isDecimalDigit c = true := by
  induction n using Nat.strong_induction_on with
  | _ n ih =>
    by_cases h : n < 10
    · rw [number_lt n h]
      intro c hc
      simp only [List.mem_singleton] at hc
      rw [hc]
      exact (digitChar_decimal n h).2
    · rw [number_ge n (by omega)]
      intro c hc
      rcases List.mem_append.mp hc with hc | hc
      · exact ih (n / 10) (by omega) c hc
      · simp only [List.mem_singleton] at hc
        rw [hc]
        exact (digitChar_decimal (n % 10) (by omega)).2

/-- The text of a positive number starts with a digit other than `0`. -/
theorem number_head (n : Nat) (hn : 0 < n) :
    ∃ c rest, number n = c :: rest ∧ c ≠ '0' := by
  induction n using Nat.strong_induction_on with
  | _ n ih =>
    by_cases h : n < 10
    · refine ⟨Nat.digitChar n, [], number_lt n h, ?_⟩
      interval_cases n <;> decide
    · obtain ⟨c, rest, hc, hne⟩ := ih (n / 10) (by omega) (by omega)
      exact ⟨c, rest ++ [Nat.digitChar (n % 10)], by rw [number_ge n (by omega), hc]; rfl, hne⟩

theorem parseDigits_append (base : Nat) (xs : List Char) (c : Char) :
    ∀ acc, parseDigits base (xs ++ [c]) acc
      = (parseDigits base xs acc).bind (fun v => parseDigits base [c] v) := by
  induction xs with
  | nil => intro acc; rfl
  | cons x xs ih =>
    intro acc
    simp only [List.cons_append, parseDigits]
    cases digitValue x with
    | none => rfl
    | some d =>
      by_cases hd : d < base
      · simp only [hd, if_true]; exact ih _
      · simp only [hd, if_false]; rfl

theorem parseDigits_number (n : Nat) : parseDigits 10 (number n) 0 = some n := by
  induction n using Nat.strong_induction_on with
  | _ n ih =>
    by_cases h : n < 10
    · rw [number_lt n h]
      simp [parseDigits, (digitChar_decimal n h).1, h]
    · rw [number_ge n (by omega), parseDigits_append, ih (n / 10) (by omega)]
      have hm : n % 10 < 10 := by omega
      simp only [Option.some_bind, parseDigits, (digitChar_decimal (n % 10) hm).1, hm, if_true]
      congr 1
      omega

theorem isSpace_of_decimal (c : Char) (h : isDecimalDigit c = true) : isSpace c = false := by
  simp only [isDecimalDigit, decide_eq_true_eq] at h
  simp only [isSpace, Bool.or_eq_false_iff, Bool.and_eq_false_iff, beq_eq_false_iff_ne,
    decide_eq_false_iff_not]
  omega

theorem trimmed_of_no_space (s : List Char) (h : ∀ c ∈ s, isSpace c = false) :
    trimmed s = s := by
  have drop : ∀ l : List Char, (∀ c ∈ l, isSpace c = false) → l.dropWhile isSpace = l := by
    intro l hl
    cases l with
    | nil => rfl
    | cons a l => exact List.dropWhile_cons_of_neg (by simp [hl a (by simp)])
  unfold trimmed
  rw [drop s h, drop s.reverse (fun c hc => h c (List.mem_reverse.mp hc)), List.reverse_reverse]

/-- Converting the decimal text of a 16 bit number gives the number back. -/
theorem toUShort_number (n : Nat) (hn : n ≤ 65535) : toUShort (number n) = some n := by
  have htrim : trimmed (number n) = number n :=
    trimmed_of_no_space _ (fun c hc => isSpace_of_decimal c (number_decimal n c hc))
  unfold toUShort
  rw [htrim]
  by_cases h0 : n = 0
  · subst h0; decide
  · obtain ⟨c, rest, hc, hne⟩ := number_head n (by omega)
    have hplus : c ≠ '+' := by
      intro hp
      have := number_decimal n c (by rw [hc]; simp)
      rw [hp] at this
      exact absurd this (by decide)
    have hs : strtoull (number n) = parseDigits 10 (number n) 0 := by
      rw [hc]
      simp [strtoull, hplus, hne]
    rw [hs, parseDigits_number]
    simp [hn]

/-! ## Splitting and rejected sections -/

theorem splitRef_ne_nil (sep : Char) (s : List Char) : splitRef sep s ≠ [] := by
  cases s with
  | nil => simp [splitRef]
  | cons c cs =>
    unfold splitRef
    split_ifs
    · simp
    · split <;> simp

theorem splitRef_of_not_mem (sep : Char) (s : List Char) (h : sep ∉ s) :
    splitRef sep s = [s] := by
  induction s with
  | nil => rfl
  | cons c cs ih =>
    have hc : c ≠ sep := fun e => h (by simp [e])
    have hcs : sep ∉ cs := fun e => h (by simp [e])
    simp [splitRef, hc, ih hcs]

theorem splitRef_append (sep : Char) (s rest : List Char) (h : sep ∉ s) :
    splitRef sep (s ++ sep :: rest) = s :: splitRef sep rest := by
  induction s with
  | nil => simp [splitRef]
  | cons c cs ih =>
    have hc : c ≠ sep := fun e => h (by simp [e])
    have hcs : sep ∉ cs := fun e => h (by simp [e])
    simp [splitRef, hc, ih hcs]

theorem parseDigits_digits (base : Nat) (cs : List Char) :
    ∀ acc v, parseDigits base cs acc = some v → ∀ c ∈ cs, (digitValue c).isSome = true := by
  induction cs with
  | nil => intro acc v _ c hc; simp at hc
  | cons x xs ih =>
    intro acc v h c hc
    simp only [parseDigits] at h
    cases hx : digitValue x with
    | none => rw [hx] at h; simp at h
    | some d =>
      rw [hx] at h
      simp only at h
      by_cases hd : d < base
      · simp only [hd, if_true] at h
        rcases List.mem_cons.mp hc with e | e
        · rw [e, hx]; rfl
        · exact ih _ _ h c e
      · simp [hd] at h

theorem strtoull_chars (s : List Char) (v : Nat) (h : strtoull s = some v) :
    ∀ c ∈ s, c = '+' ∨ (digitValue c).isSome = true := by
  have key : ∀ body : List Char,
      (match body with
        | [] => none
        | c :: rest =>
          if c = '0' then
            match rest with
            | [] => some 0
            | x :: hex =>
              if x = 'x' ∨ x = 'X' then
                (if hex = [] then none else parseDigits 16 hex 0)
              else parseDigits 8 rest 0
          else parseDigits 10 body 0) = some v →
      ∀ c ∈ body, (digitValue c).isSome = true := by
    intro body hb
    match body, hb with
    | c :: rest, hb =>
      simp only at hb
      by_cases hc : c = '0'
      · simp only [hc, if_true] at hb
        match rest, hb with
        | [], _ =>
          intro y hy
          simp only [List.mem_singleton] at hy
          rw [hy, hc]; decide
        | x :: hex, hb =>
          simp only at hb
          by_cases hx : x = 'x' ∨ x = 'X'
          · simp only [hx, if_true] at hb
            by_cases hh : hex = []
            · simp [hh] at hb
            · simp only [hh, if_false] at hb
              intro y hy
              rcases List.mem_cons.mp hy with e | e
              · rw [e, hc]; decide
              · rcases List.mem_cons.mp e with e | e
                · rcases hx with hx | hx <;> (rw [e, hx]; decide)
                · exact parseDigits_digits 16 hex 0 v hb y e
          · simp only [hx, if_false] at hb
            intro y hy
            rcases List.mem_cons.mp hy with e | e
            · rw [e, hc]; decide
            · exact parseDigits_digits 8 (x :: hex) 0 v hb y e
      · simp only [hc, if_false] at hb
        exact parseDigits_digits 10 (c :: rest) 0 v hb
  unfold strtoull at h
  match s, h with
  | [], h => simp at h
  | c :: rest, h =>
    simp only at h
    by_cases hp : c = '+'
    · simp only [hp, if_true] at h
      intro y hy
      rcases List.mem_cons.mp hy with e | e
      · exact Or.inl (e.trans hp)
      · exact Or.inr (key rest h y e)
    · simp only [hp, if_false] at h
      intro y hy
      exact Or.inr (key (c :: rest) h y hy)

theorem mem_dropWhile_of_neg {p : Char → Bool} (c : Char) (hc : p c = false) :
    ∀ l : List Char, c ∈ l → c ∈ l.dropWhile p := by
  intro l
  induction l with
  | nil => intro h; exact h
  | cons a l ih =>
    intro h
    by_cases ha : p a = true
    · rw [List.dropWhile_cons_of_pos ha]
      rcases List.mem_cons.mp h with e | e
      · rw [e, ha] at hc; exact absurd hc (by simp)
      · exact ih e
    · rw [List.dropWhile_cons_of_neg ha]
      exact h

theorem mem_trimmed (c : Char) (hc : isSpace c = false) (s : List Char) (h : c ∈ s) :
    c ∈ trimmed s := by
  unfold trimmed
  rw [List.mem_reverse]
  apply mem_dropWhile_of_neg c hc
  rw [List.mem_reverse]
  exact mem_dropWhile_of_neg c hc s h

/-- A section that holds a character which is neither white space, nor `+`,
nor a digit or letter is not converted. -/
theorem toUShort_eq_none_of_mem (s : List Char) (c : Char) (hs : isSpace c = false)
    (hp : c ≠ '+') (hd : digitValue c = none) (h : c ∈ s) : toUShort s = none := by
  unfold toUShort
  cases hv : strtoull (trimmed s) with
  | none => rfl
  | some v =>
    rcases strtoull_chars _ v hv c (mem_trimmed c hs s h) with e | e
    · exact absurd e hp
    · rw [hd] at e; simp at e

theorem toUShort_dot (s : List Char) (h : '.' ∈ s) : toUShort s = none :=
  toUShort_eq_none_of_mem s '.' (by decide) (by decide) (by decide) h

theorem toUShort_slash (s : List Char) (h : '/' ∈ s) : toUShort s = none :=
  toUShort_eq_none_of_mem s '/' (by decide) (by decide) (by decide) h

/-! ## The constructor from parts -/

theorem createGroup_eq (a b c : Nat) (ha : a ≤ 31) (hb : b ≤ 7) (hc : c ≤ 255) :
    createGroup a b c = ⟨AddressType.Group, a * 2048 + b * 256 + c⟩ := by
  have hv : ((a <<< 11) ||| (b <<< 8) ||| c) % 65536 = a * 2048 + b * 256 + c := by
    rw [or_shift_11_8 a b c hb hc]; omega
  simp [createGroup, fromSections, checkRange, hv, hb, hc, Nat.not_lt.mpr ha]

theorem createGroup2_eq (a c : Nat) (ha : a ≤ 31) (hc : c ≤ 2047) :
    createGroup2 a c = ⟨AddressType.Group, a * 2048 + c⟩ := by
  have hv : ((a <<< 11) ||| c) % 65536 = a * 2048 + c := by
    rw [or_shift_11 a c hc]; omega
  simp [createGroup2, fromSections, checkRange, hv, hc, Nat.not_lt.mpr ha]

theorem createIndividual_eq (a b c : Nat) (ha : a ≤ 15) (hb : b ≤ 15) (hc : c ≤ 255) :
    createIndividual a b c = ⟨AddressType.Individual, a * 4096 + b * 256 + c⟩ := by
  have hv : ((a <<< 12) ||| (b <<< 8) ||| c) % 65536 = a * 4096 + b * 256 + c := by
    rw [or_shift_12_8 a b c hb hc]; omega
  simp [createIndividual, fromSections, checkRange, hv, ha, hb, hc]

theorem fromSections_cases (type : AddressType) (sec1 : Nat) (sec2 : Option Nat) (sec3 : Nat) :
    (fromSections type sec1 sec2 sec3).isValid = true
      ∨ fromSections type sec1 sec2 sec3 = invalid := by
  unfold fromSections
  cases type <;> cases sec2 <;> simp only [isValid, invalid] <;> split_ifs <;> simp_all

/-! ## Claims on the constructors from parts and from bytes -/

/-- C3: for main ≤ 31, middle ≤ 7 and sub ≤ 255 the address `createGroup main middle sub`
has the value `main*2048 + middle*256 + sub`, is equal to the 2-level address
`createGroup main (middle*256 + sub)`, and its 2-level string is
`main/(middle*256+sub)`. -/
theorem createGroup_value_and_twoLevel (main middle sub : Nat)
    (hmain : main ≤ 31) (hmiddle : middle ≤ 7) (hsub : sub ≤ 255) :
    (createGroup main middle sub).m_type = AddressType.Group
      ∧ (createGroup main middle sub).m_address = main * 2048 + middle * 256 + sub
      ∧ createGroup main middle sub = createGroup2 main (middle * 256 + sub)
      ∧ (createGroup main middle sub).toString Notation.TwoLevel
          = number main ++ '/' :: number (middle * 256 + sub) := by
  have h2 : createGroup2 main (middle * 256 + sub)
      = ⟨AddressType.Group, main * 2048 + (middle * 256 + sub)⟩ :=
    createGroup2_eq main (middle * 256 + sub) hmain (by omega)
  rw [createGroup_eq main middle sub hmain hmiddle hsub, h2]
  refine ⟨rfl, rfl, by simp [Nat.add_assoc], ?_⟩
  have e1 : ((main * 2048 + middle * 256 + sub) >>> 11) &&& 0x1f = main := by
    rw [and_0x1f, Nat.shiftRight_eq_div_pow]
    omega
  have e2 : (main * 2048 + middle * 256 + sub) &&& 0x07ff = middle * 256 + sub := by
    rw [and_0x7ff]
    omega
  simp only [QKnxAddress.toString, e1, e2]
  simp

/-- C3, on the example of the specification: `1/2/3` has the value 0x0A03 and the
2-level string `1/515`. -/
theorem createGroup_value_and_twoLevel_witness :
    (createGroup 1 2 3).m_type = AddressType.Group
      ∧ (createGroup 1 2 3).m_address = 0x0A03
      ∧ createGroup 1 2 3 = createGroup2 1 515
      ∧ (createGroup 1 2 3).toString Notation.TwoLevel = ['1', '/', '5', '1', '5'] :=
  createGroup_value_and_twoLevel 1 2 3 (by decide) (by decide) (by decide)

/-- C4: for area ≤ 15, line ≤ 15 and device ≤ 255 the address
`createIndividual area line device` is a valid Individual address with the value
`area*4096 + line*256 + device`, and its bytes are `[value >> 8, value & 0xFF]`. -/
theorem createIndividual_value_and_bytes (area line device : Nat)
    (harea : area ≤ 15) (hline : line ≤ 15) (hdevice : device ≤ 255) :
    (createIndividual area line device).isValid = true
      ∧ (createIndividual area line device).m_type = AddressType.Individual
      ∧ (createIndividual area line device).m_address = area * 4096 + line * 256 + device
      ∧ bytes (createIndividual area line device)
          = [(area * 4096 + line * 256 + device) >>> 8,
             (area * 4096 + line * 256 + device) &&& 0xFF] := by
  rw [createIndividual_eq area line device harea hline hdevice]
  refine ⟨by simp [isValid], rfl, rfl, ?_⟩
  have e1 : (area * 4096 + line * 256 + device) &&& 0xFF
      = (area * 4096 + line * 256 + device) % 256 := and_0xff _
  have e2 : ((area * 4096 + line * 256 + device) >>> 8) % 256
      = (area * 4096 + line * 256 + device) >>> 8 := by
    rw [Nat.shiftRight_eq_div_pow]
    omega
  simp [bytes, isValid, QKnxUtils.QUint16.bytes, e1, e2]

/-- C4, on the example of the specification: 1.1.1 has the value 0x1101 and the
bytes 0x11, 0x01. -/
theorem createIndividual_value_and_bytes_witness :
    (createIndividual 1 1 1).isValid = true
      ∧ (createIndividual 1 1 1).m_type = AddressType.Individual
      ∧ (createIndividual 1 1 1).m_address = 0x1101
      ∧ bytes (createIndividual 1 1 1) = [0x11, 0x01] :=
  createIndividual_value_and_bytes 1 1 1 (by decide) (by decide) (by decide)

/-- C5: the constructor from parts gives a valid address exactly when every part
is within its limit (Group 3-level: 31, 7, 255; Group 2-level: 31, 2047;
Individual: 15, 15, 255); whenever the result is not valid it is the
default-constructed address, whose type is neither Group nor Individual; and an
Individual address requested without a middle part is that invalid address. -/
theorem fromSections_valid_iff (type : AddressType) (sec1 sec2 sec3 : Nat) (opt : Option Nat) :
    ((fromSections AddressType.Group sec1 (some sec2) sec3).isValid = true
        ↔ sec1 ≤ 31 ∧ sec2 ≤ 7 ∧ sec3 ≤ 255)
      ∧ ((fromSections AddressType.Group sec1 none sec3).isValid = true
        ↔ sec1 ≤ 31 ∧ sec3 ≤ 2047)
      ∧ ((fromSections AddressType.Individual sec1 (some sec2) sec3).isValid = true
        ↔ sec1 ≤ 15 ∧ sec2 ≤ 15 ∧ sec3 ≤ 255)
      ∧ ((fromSections type sec1 opt sec3).isValid = true
        ∨ (fromSections type sec1 opt sec3 = invalid
            ∧ (fromSections type sec1 opt sec3).m_type ≠ AddressType.Group
            ∧ (fromSections type sec1 opt sec3).m_type ≠ AddressType.Individual))
      ∧ fromSections AddressType.Individual sec1 none sec3 = invalid
      ∧ fromSections AddressType.None sec1 opt sec3 = invalid := by
  refine ⟨?_, ?_, ?_, ?_, ?_, ?_⟩
  · simp only [fromSections, checkRange, isValid]
    by_cases h1 : sec1 ≤ 31 <;> by_cases h2 : sec2 ≤ 7 <;> by_cases h3 : sec3 ≤ 255 <;>
      simp [h1, h2, h3, invalid, Nat.not_lt.mpr, Nat.lt_of_not_le]
  · simp only [fromSections, checkRange, isValid]
    by_cases h1 : sec1 ≤ 31 <;> by_cases h3 : sec3 ≤ 2047 <;>
      simp [h1, h3, invalid, Nat.not_lt.mpr, Nat.lt_of_not_le]
  · simp only [fromSections, checkRange, isValid]
    by_cases h1 : sec1 ≤ 15 <;> by_cases h2 : sec2 ≤ 15 <;> by_cases h3 : sec3 ≤ 255 <;>
      simp [h1, h2, h3, invalid]
  · rcases fromSections_cases type sec1 opt sec3 with h | h
    · exact Or.inl h
    · exact Or.inr ⟨h, by rw [h]; simp [invalid], by rw [h]; simp [invalid]⟩
  · simp [fromSections, checkRange]
  · simp [fromSections]

/-- C6: for type Group or Individual and a sequence `b` of bytes, the address built
from `b` is invalid when `b` has fewer than two bytes, and otherwise valid with
the value `b[0]*256 + b[1]`; rebuilding a valid address from its own bytes with
its own type gives the address back. -/
theorem fromBytes_spec (type : AddressType) (b : List Nat) (a : QKnxAddress)
    (htype : type = AddressType.Group ∨ type = AddressType.Individual)
    (hb : ∀ x ∈ b, x < 256) (ha : a.isValid = true) (hav : a.m_address < 65536) :
    (b.length < 2 → fromBytes type b = invalid ∧ (fromBytes type b).isValid = false)
      ∧ (2 ≤ b.length → (fromBytes type b).isValid = true
          ∧ fromBytes type b = ⟨type, b.getD 0 0 * 256 + b.getD 1 0⟩)
      ∧ fromBytes a.m_type (bytes a) = a := by
  refine ⟨?_, ?_, ?_⟩
  · intro h
    simp [fromBytes, h, invalid, isValid]
  · intro h
    match b, h, hb with
    | b0 :: b1 :: rest, _, hb =>
      have h0 : b0 < 256 := hb b0 (by simp)
      have h1 : b1 < 256 := hb b1 (by simp)
      have hv : (b0 * 256 + b1) % 65536 = b0 * 256 + b1 := by omega
      have hlen : ¬ (rest.length + 1 + 1 < 2) := by omega
      rcases htype with rfl | rfl <;> simp [fromBytes, isValid, QKnxUtils.QUint16.fromBytes, hv, hlen]
  · obtain ⟨t, v⟩ := a
    have hv : ((v >>> 8) % 256 * 256 + v % 256) % 65536 = v := by
      rw [Nat.shiftRight_eq_div_pow]
      simp only [] at hav
      omega
    cases t <;> simp_all [fromBytes, bytes, isValid, QKnxUtils.QUint16.bytes, QKnxUtils.QUint16.fromBytes]

/-- C6, on an Individual address read from three bytes, of which the third is
ignored, on a Group address read from one byte, and on the bytes of 1.1.1. -/
theorem fromBytes_spec_witness :
    fromBytes AddressType.Individual [0x11, 0x01, 0x7f] = ⟨AddressType.Individual, 0x1101⟩
      ∧ fromBytes AddressType.Group [0x11] = invalid
      ∧ fromBytes AddressType.Individual (bytes (QKnxAddress.mk AddressType.Individual 0x1101))
          = QKnxAddress.mk AddressType.Individual 0x1101 :=
  ⟨((fromBytes_spec AddressType.Individual [0x11, 0x01, 0x7f]
      (QKnxAddress.mk AddressType.Individual 0x1101) (Or.inr rfl) (by decide) (by decide)
      (by decide)).2.1 (by decide)).2,
   ((fromBytes_spec AddressType.Group [0x11]
      (QKnxAddress.mk AddressType.Individual 0x1101) (Or.inl rfl) (by decide) (by decide)
      (by decide)).1 (by decide)).1,
   (fromBytes_spec AddressType.Individual [0x11, 0x01, 0x7f]
      (QKnxAddress.mk AddressType.Individual 0x1101) (Or.inr rfl) (by decide) (by decide)
      (by decide)).2.2⟩

/-- C9: for every address, `isBroadcast` holds iff the type is Group and the value
is 0, `isCouplerOrRouter` iff the type is Individual and `value & 0xFF` is 0,
`isUnregistered` iff the type is Individual and `value & 0xFF` is 0xFF; no
address is both a coupler or router and unregistered, and an address that is not
valid is none of the three. -/
theorem address_predicates (a : QKnxAddress) :
    (a.isBroadcast = true ↔ a.m_type = AddressType.Group ∧ a.m_address = 0)
      ∧ (a.isCouplerOrRouter = true
          ↔ a.m_type = AddressType.Individual ∧ a.m_address &&& 0xFF = 0)
      ∧ (a.isUnregistered = true
          ↔ a.m_type = AddressType.Individual ∧ a.m_address &&& 0xFF = 0xFF)
      ∧ ¬ (a.isCouplerOrRouter = true ∧ a.isUnregistered = true)
      ∧ (a.isValid = false →
          a.isBroadcast = false ∧ a.isCouplerOrRouter = false ∧ a.isUnregistered = false)
      ∧ (invalid.isBroadcast = false ∧ invalid.isCouplerOrRouter = false
          ∧ invalid.isUnregistered = false) := by
  have e : a.m_address &&& 0xFF = a.m_address % 256 := and_0xff _
  obtain ⟨t, v⟩ := a
  simp only [] at e
  refine ⟨by simp [isBroadcast], by simp [isCouplerOrRouter, e],
    by simp [isUnregistered, e], ?_, ?_, by decide⟩
  · simp only [isCouplerOrRouter, isUnregistered]
    intro h
    simp at h
    omega
  · cases t <;> simp [isValid, isBroadcast, isCouplerOrRouter, isUnregistered]

/-! ## The constructor from a string -/

theorem fromStringNumber_of_none (type : AddressType) (address : List Char)
    (this : QKnxAddress) (sections : List Nat) (h : toUShort address = none) :
    fromStringNumber type address this sections = this := by
  unfold fromStringNumber
  split_ifs
  · simp [convert, convertLoop, h]
  · rfl

theorem fromStringNumber_of_some (type : AddressType) (address : List Char)
    (this : QKnxAddress) (v : Nat)
    (htype : type = AddressType.Group ∨ type = AddressType.Individual)
    (h : toUShort address = some v) :
    fromStringNumber type address this [] = ⟨type, v⟩ := by
  unfold fromStringNumber
  simp [htype, convert, convertLoop, h]

theorem not_mem_of_decimal (c : Char) (hc : isDecimalDigit c = false) (s : List Char)
    (h : ∀ x ∈ s, isDecimalDigit x = true) : c ∉ s := by
  intro hm
  rw [h c hm] at hc
  exact absurd hc (by simp)

theorem slash_not_mem_number (n : Nat) : '/' ∉ number n :=
  not_mem_of_decimal '/' (by decide) _ (number_decimal n)

theorem dot_not_mem_number (n : Nat) : '.' ∉ number n :=
  not_mem_of_decimal '.' (by decide) _ (number_decimal n)

theorem fromString_group3 (x y z : Nat) (hx : x ≤ 65535) (hy : y ≤ 65535) (hz : z ≤ 65535) :
    fromString AddressType.Group (number x ++ '/' :: number y ++ '/' :: number z)
      = fromSections AddressType.Group x (some y) z := by
  have hs : number x ++ '/' :: number y ++ '/' :: number z
      = number x ++ '/' :: (number y ++ '/' :: number z) := by simp
  rw [hs]
  have hsplit : splitRef '/' (number x ++ '/' :: (number y ++ '/' :: number z))
      = [number x, number y, number z] := by
    rw [splitRef_append _ _ _ (slash_not_mem_number x),
      splitRef_append _ _ _ (slash_not_mem_number y),
      splitRef_of_not_mem _ _ (slash_not_mem_number z)]
  have hslash : (number x ++ '/' :: (number y ++ '/' :: number z)).contains '/' = true := by
    simp
  have hdot : (number x ++ '/' :: (number y ++ '/' :: number z)).contains '.' = false := by
    have h1 := dot_not_mem_number x
    have h2 := dot_not_mem_number y
    have h3 := dot_not_mem_number z
    simp [h1, h2, h3]
  have hnone : toUShort (number x ++ '/' :: (number y ++ '/' :: number z)) = none :=
    toUShort_slash _ (by simp)
  unfold fromString
  simp only [hslash, hdot, hsplit]
  simp [convert, convertLoop, toUShort_number, hx, hy, hz, fromStringDots,
    fromStringNumber_of_none _ _ _ _ hnone]

theorem fromString_group2 (x z : Nat) (hx : x ≤ 65535) (hz : z ≤ 65535) :
    fromString AddressType.Group (number x ++ '/' :: number z)
      = fromSections AddressType.Group x none z := by
  have hsplit : splitRef '/' (number x ++ '/' :: number z) = [number x, number z] := by
    rw [splitRef_append _ _ _ (slash_not_mem_number x),
      splitRef_of_not_mem _ _ (slash_not_mem_number z)]
  have hslash : (number x ++ '/' :: number z).contains '/' = true := by simp
  have hdot : (number x ++ '/' :: number z).contains '.' = false := by
    have h1 := dot_not_mem_number x
    have h3 := dot_not_mem_number z
    simp [h1, h3]
  have hnone : toUShort (number x ++ '/' :: number z) = none := toUShort_slash _ (by simp)
  unfold fromString
  simp only [hslash, hdot, hsplit]
  simp [convert, convertLoop, toUShort_number, hx, hz, fromStringDots,
    fromStringNumber_of_none _ _ _ _ hnone]

theorem fromString_individual3 (x y z : Nat) (hx : x ≤ 65535) (hy : y ≤ 65535)
    (hz : z ≤ 65535) :
    fromString AddressType.Individual (number x ++ '.' :: number y ++ '.' :: number z)
      = fromSections AddressType.Individual x (some y) z := by
  have hs : number x ++ '.' :: number y ++ '.' :: number z
      = number x ++ '.' :: (number y ++ '.' :: number z) := by simp
  rw [hs]
  have hsplit : splitRef '.' (number x ++ '.' :: (number y ++ '.' :: number z))
      = [number x, number y, number z] := by
    rw [splitRef_append _ _ _ (dot_not_mem_number x),
      splitRef_append _ _ _ (dot_not_mem_number y),
      splitRef_of_not_mem _ _ (dot_not_mem_number z)]
  have hdot : (number x ++ '.' :: (number y ++ '.' :: number z)).contains '.' = true := by
    simp
  have hslash : (number x ++ '.' :: (number y ++ '.' :: number z)).contains '/' = false := by
    have h1 := slash_not_mem_number x
    have h2 := slash_not_mem_number y
    have h3 := slash_not_mem_number z
    simp [h1, h2, h3]
  have hnone : toUShort (number x ++ '.' :: (number y ++ '.' :: number z)) = none :=
    toUShort_dot _ (by simp)
  unfold fromString
  simp only [hslash, hdot]
  simp [convert, convertLoop, toUShort_number, hx, hy, hz, fromStringDots, hsplit,
    fromStringNumber_of_none _ _ _ _ hnone]

/-- C1: a Group address built from 3-level parts (main ≤ 31, middle ≤ 7, sub ≤ 255)
and an Individual address built from parts (area ≤ 15, line ≤ 15, device ≤ 255)
are given back by the string constructor of their type applied to their
3-level string. -/
theorem roundtrip_threeLevel (main middle sub area line device : Nat)
    (hmain : main ≤ 31) (hmiddle : middle ≤ 7) (hsub : sub ≤ 255)
    (harea : area ≤ 15) (hline : line ≤ 15) (hdevice : device ≤ 255) :
    fromString AddressType.Group ((createGroup main middle sub).toString Notation.ThreeLevel)
        = createGroup main middle sub
      ∧ fromString AddressType.Individual
          ((createIndividual area line device).toString Notation.ThreeLevel)
        = createIndividual area line device := by
  constructor
  · have e1 : ((main * 2048 + middle * 256 + sub) >>> 11) &&& 0x1f = main := by
      rw [and_0x1f, Nat.shiftRight_eq_div_pow]; omega
    have e2 : ((main * 2048 + middle * 256 + sub) >>> 8) &&& 0x07 = middle := by
      rw [and_0x07, Nat.shiftRight_eq_div_pow]; omega
    have e3 : (main * 2048 + middle * 256 + sub) &&& 0xff = sub := by
      rw [and_0xff]; omega
    have hstr : (createGroup main middle sub).toString Notation.ThreeLevel
        = number main ++ '/' :: number middle ++ '/' :: number sub := by
      rw [createGroup_eq main middle sub hmain hmiddle hsub]
      simp only [QKnxAddress.toString, e1, e2, e3]
      simp
    rw [hstr, fromString_group3 main middle sub (by omega) (by omega) (by omega)]
    rfl
  · have e1 : (area * 4096 + line * 256 + device) >>> 12 = area := by
      rw [Nat.shiftRight_eq_div_pow]; omega
    have e2 : ((area * 4096 + line * 256 + device) >>> 8) &&& 0x0f = line := by
      rw [and_0x0f, Nat.shiftRight_eq_div_pow]; omega
    have e3 : (area * 4096 + line * 256 + device) &&& 0xff = device := by
      rw [and_0xff]; omega
    have hstr : (createIndividual area line device).toString Notation.ThreeLevel
        = number area ++ '.' :: number line ++ '.' :: number device := by
      rw [createIndividual_eq area line device harea hline hdevice]
      simp only [QKnxAddress.toString, e1, e2, e3]
      simp
    rw [hstr, fromString_individual3 area line device (by omega) (by omega) (by omega)]
    rfl

/-- C1, on the Group address 31/7/255 and the Individual address 15.15.255. -/
theorem roundtrip_threeLevel_witness :
    fromString AddressType.Group ((createGroup 31 7 255).toString Notation.ThreeLevel)
        = createGroup 31 7 255
      ∧ fromString AddressType.Individual
          ((createIndividual 15 15 255).toString Notation.ThreeLevel)
        = createIndividual 15 15 255 :=
  roundtrip_threeLevel 31 7 255 15 15 255 (by decide) (by decide) (by decide) (by decide)
    (by decide) (by decide)

/-- C2: a Group address built from 2-level parts (main ≤ 31, sub ≤ 2047) is given
back by the Group string constructor applied to its 2-level string. -/
theorem roundtrip_twoLevel (main sub : Nat) (hmain : main ≤ 31) (hsub : sub ≤ 2047) :
    fromString AddressType.Group ((createGroup2 main sub).toString Notation.TwoLevel)
      = createGroup2 main sub := by
  have e1 : ((main * 2048 + sub) >>> 11) &&& 0x1f = main := by
    rw [and_0x1f, Nat.shiftRight_eq_div_pow]; omega
  have e2 : (main * 2048 + sub) &&& 0x07ff = sub := by
    rw [and_0x7ff]; omega
  have hstr : (createGroup2 main sub).toString Notation.TwoLevel
      = number main ++ '/' :: number sub := by
    rw [createGroup2_eq main sub hmain hsub]
    simp only [QKnxAddress.toString, e1, e2]
    simp
  rw [hstr, fromString_group2 main sub (by omega) (by omega)]
  rfl

/-- C2, on the Group address 31/2047. -/
theorem roundtrip_twoLevel_witness :
    fromString AddressType.Group ((createGroup2 31 2047).toString Notation.TwoLevel)
      = createGroup2 31 2047 :=
  roundtrip_twoLevel 31 2047 (by decide) (by decide)

/-- C8: a string that holds both a `/` and a `.` gives the invalid address for
every type; so does a string with a `.` given as a Group address and a string
with a `/` given as an Individual address. -/
theorem fromString_mixed_separators (type : AddressType) (s : List Char) :
    ('/' ∈ s → '.' ∈ s → fromString type s = invalid ∧ (fromString type s).isValid = false)
      ∧ ('.' ∈ s → fromString AddressType.Group s = invalid
          ∧ (fromString AddressType.Group s).isValid = false)
      ∧ ('/' ∈ s → fromString AddressType.Individual s = invalid
          ∧ (fromString AddressType.Individual s).isValid = false) := by
  have hinv : invalid.isValid = false := by decide
  have both : ∀ t : AddressType, '/' ∈ s → '.' ∈ s → fromString t s = invalid := by
    intro t h1 h2
    simp [fromString, h1, h2]
  have group : '.' ∈ s → fromString AddressType.Group s = invalid := by
    intro h2
    by_cases h1 : '/' ∈ s
    · exact both _ h1 h2
    · simp [fromString, h1, h2, fromStringDots, fromStringNumber_of_none _ _ _ _ (toUShort_dot s h2)]
  have individual : '/' ∈ s → fromString AddressType.Individual s = invalid := by
    intro h1
    by_cases h2 : '.' ∈ s
    · exact both _ h1 h2
    · simp [fromString, h1, h2, fromStringDots,
        fromStringNumber_of_none _ _ _ _ (toUShort_slash s h1)]
  refine ⟨fun h1 h2 => ?_, fun h2 => ?_, fun h1 => ?_⟩
  · rw [both type h1 h2]; exact ⟨rfl, hinv⟩
  · rw [group h2]; exact ⟨rfl, hinv⟩
  · rw [individual h1]; exact ⟨rfl, hinv⟩

/-! ## Numerals -/

theorem parseDigits_positional (base : Nat) (cs : List Char)
    (h : ∀ c ∈ cs, isDigitOf base c = true) :
    ∀ acc, parseDigits base cs acc
      = some (Nat.ofDigits base ((cs.map (fun c => (digitValue c).getD 0)).reverse ++ [acc])) := by
  induction cs with
  | nil => intro acc; simp [parseDigits]
  | cons x xs ih =>
    intro acc
    have hx := h x (by simp)
    unfold isDigitOf at hx
    cases hd : digitValue x with
    | none => rw [hd] at hx; simp at hx
    | some d =>
      rw [hd] at hx
      simp only [decide_eq_true_eq] at hx
      simp only [parseDigits, hd, hx, if_true]
      rw [ih (fun c hc => h c (by simp [hc]))]
      simp only [List.map_cons, List.reverse_cons, hd, Option.getD_some, List.append_assoc,
        List.singleton_append, Nat.ofDigits_append, Nat.ofDigits_cons, Nat.ofDigits_nil]
      congr 1
      ring

theorem parseDigits_zero (base : Nat) (cs : List Char)
    (h : ∀ c ∈ cs, isDigitOf base c = true) :
    parseDigits base cs 0 = some (positional base cs) := by
  rw [parseDigits_positional base cs h 0]
  simp [positional, Nat.ofDigits_append]

theorem digit_facts (base : Nat) (c : Char) (hb : base ≤ 16) (h : isDigitOf base c = true) :
    isSpace c = false ∧ c ≠ '+' ∧ c ≠ '.' ∧ c ≠ '/' ∧ c ≠ 'x' ∧ c ≠ 'X' := by
  have hne : ∀ k : Char, isDigitOf base k = false → c ≠ k := by
    intro k hk e
    rw [e, hk] at h
    exact absurd h (by simp)
  have hfalse : ∀ k : Char, (digitValue k = none ∨ ∃ d, digitValue k = some d ∧ 16 ≤ d) →
      isDigitOf base k = false := by
    intro k hk
    unfold isDigitOf
    rcases hk with hk | ⟨d, hk, hd⟩
    · rw [hk]
    · rw [hk]
      simp only [decide_eq_false_iff_not]
      omega
  refine ⟨?_, hne _ (hfalse _ (Or.inl (by decide))), hne _ (hfalse _ (Or.inl (by decide))),
    hne _ (hfalse _ (Or.inl (by decide))), hne _ (hfalse _ (Or.inr ⟨33, by decide, by decide⟩)),
    hne _ (hfalse _ (Or.inr ⟨33, by decide, by decide⟩))⟩
  have hsome : (digitValue c).isSome = true := by
    unfold isDigitOf at h
    cases hd : digitValue c with
    | none => rw [hd] at h; simp at h
    | some d => rfl
  unfold digitValue at hsome
  dsimp only at hsome
  simp only [isSpace, Bool.or_eq_false_iff, Bool.and_eq_false_iff, beq_eq_false_iff_ne,
    decide_eq_false_iff_not]
  split_ifs at hsome with h1 h2 h3
  · omega
  · omega
  · omega
  · simp at hsome

theorem isDigitOf_mono (c : Char) (b1 b2 : Nat) (hb : b1 ≤ b2) (h : isDigitOf b1 c = true) :
    isDigitOf b2 c = true := by
  unfold isDigitOf at h ⊢
  cases hd : digitValue c with
  | none => rw [hd] at h; simp at h
  | some d =>
    rw [hd] at h
    simp only [decide_eq_true_eq] at h ⊢
    omega

/-- A numeral is made of digits of a base up to 16, and converts to the number
it denotes. -/
theorem numeral_facts (s : List Char) (n : Nat) (h : Numeral s n) :
    (∀ c ∈ s, c = 'x' ∨ isDigitOf 16 c = true) ∧ strtoull s = some n := by
  cases h with
  | decimal c cs hc h0 hcs =>
    refine ⟨?_, ?_⟩
    · intro y hy
      rcases List.mem_cons.mp hy with e | e
      · exact Or.inr (e ▸ isDigitOf_mono c 10 16 (by omega) hc)
      · exact Or.inr (isDigitOf_mono y 10 16 (by omega) (hcs y e))
    · have hp : c ≠ '+' := (digit_facts 10 c (by omega) hc).2.1
      have hall : ∀ x ∈ c :: cs, isDigitOf 10 x = true := by
        intro x hx
        rcases List.mem_cons.mp hx with e | e
        · exact e ▸ hc
        · exact hcs x e
      simp [strtoull, hp, h0, parseDigits_zero 10 (c :: cs) hall]
  | hexadecimal cs hne hcs =>
    refine ⟨?_, ?_⟩
    · intro y hy
      rcases List.mem_cons.mp hy with e | e
      · exact Or.inr (by rw [e]; decide)
      · rcases List.mem_cons.mp e with e | e
        · exact Or.inl e
        · exact Or.inr (hcs y e)
    · simp [strtoull, hne, parseDigits_zero 16 cs hcs]
  | octal cs hcs =>
    refine ⟨?_, ?_⟩
    · intro y hy
      rcases List.mem_cons.mp hy with e | e
      · exact Or.inr (by rw [e]; decide)
      · exact Or.inr (isDigitOf_mono y 8 16 (by omega) (hcs y e))
    · cases cs with
      | nil => simp [strtoull, positional]
      | cons x hex =>
        have hx := digit_facts 8 x (by omega) (hcs x (by simp))
        simp [strtoull, hx.2.2.2.2.1, hx.2.2.2.2.2, parseDigits_zero 8 (x :: hex) hcs]

theorem toUShort_numeral (s : List Char) (n : Nat) (h : Numeral s n) :
    toUShort s = if n ≤ 65535 then some n else none := by
  obtain ⟨hchars, hval⟩ := numeral_facts s n h
  have htrim : trimmed s = s := by
    apply trimmed_of_no_space
    intro c hc
    rcases hchars c hc with e | e
    · rw [e]; decide
    · exact (digit_facts 16 c (by omega) e).1
  unfold toUShort
  rw [htrim, hval]

theorem numeral_no_separator (s : List Char) (n : Nat) (h : Numeral s n) :
    '.' ∉ s ∧ '/' ∉ s := by
  obtain ⟨hchars, _⟩ := numeral_facts s n h
  constructor
  · intro hm
    rcases hchars _ hm with e | e
    · exact absurd e (by decide)
    · exact absurd e (by decide)
  · intro hm
    rcases hchars _ hm with e | e
    · exact absurd e (by decide)
    · exact absurd e (by decide)

/-- C7: for type Group or Individual and a string that is a single numeral
without separator (decimal, `0x` hexadecimal or `0` octal) denoting `n`, the
string constructor gives the valid address of that type with value `n` when
`n ≤ 65535`, and the invalid address when `n > 65535`. -/
theorem fromString_numeral (type : AddressType) (s : List Char) (n : Nat)
    (htype : type = AddressType.Group ∨ type = AddressType.Individual)
    (h : Numeral s n) :
    (n ≤ 65535 → fromString type s = ⟨type, n⟩ ∧ (fromString type s).isValid = true)
      ∧ (65535 < n → fromString type s = invalid ∧ (fromString type s).isValid = false) := by
  obtain ⟨hdot, hslash⟩ := numeral_no_separator s n h
  have hconv := toUShort_numeral s n h
  have hstep : fromString type s = fromStringNumber type s invalid [] := by
    simp [fromString, hdot, hslash, fromStringDots]
  constructor
  · intro hn
    rw [if_pos hn] at hconv
    rw [hstep, fromStringNumber_of_some type s invalid n htype hconv]
    refine ⟨rfl, ?_⟩
    rcases htype with e | e <;> simp [isValid, e]
  · intro hn
    rw [if_neg (by omega)] at hconv
    rw [hstep, fromStringNumber_of_none type s invalid [] hconv]
    exact ⟨rfl, by decide⟩

/-- C7, on the hexadecimal numeral `0x0A03` as a Group address and the decimal
numeral `65536` as an Individual address. -/
theorem fromString_numeral_witness :
    fromString AddressType.Group ['0', 'x', '0', 'A', '0', '3'] = ⟨AddressType.Group, 0x0A03⟩
      ∧ fromString AddressType.Individual ['6', '5', '5', '3', '6'] = invalid := by
  have h1 := (fromString_numeral AddressType.Group _ _ (Or.inl rfl)
    (Numeral.hexadecimal ['0', 'A', '0', '3'] (by decide) (by decide))).1
  have h2 := (fromString_numeral AddressType.Individual _ _ (Or.inr rfl)
    (Numeral.decimal '6' ['5', '5', '3', '6'] (by decide) (by decide) (by decide))).2
  have v1 : positional 16 ['0', 'A', '0', '3'] = 0x0A03 := by decide
  have v2 : positional 10 ['6', '5', '5', '3', '6'] = 65536 := by decide
  rw [v1] at h1
  rw [v2] at h2
  exact ⟨(h1 (by decide)).1, (h2 (by decide)).1⟩

/-- C8, on the string `1/2.3` for the three types, on `1.2.3` as a Group address
and on `1/2/3` as an Individual address. -/
theorem fromString_mixed_separators_witness :
    fromString AddressType.Group ['1', '/', '2', '.', '3'] = invalid
      ∧ fromString AddressType.Individual ['1', '/', '2', '.', '3'] = invalid
      ∧ fromString AddressType.None ['1', '/', '2', '.', '3'] = invalid
      ∧ fromString AddressType.Group ['1', '.', '2', '.', '3'] = invalid
      ∧ fromString AddressType.Individual ['1', '/', '2', '/', '3'] = invalid :=
  ⟨((fromString_mixed_separators AddressType.Group _).1 (by decide) (by decide)).1,
   ((fromString_mixed_separators AddressType.Individual _).1 (by decide) (by decide)).1,
   ((fromString_mixed_separators AddressType.None _).1 (by decide) (by decide)).1,
   ((fromString_mixed_separators AddressType.Group _).2.1 (by decide)).1,
   ((fromString_mixed_separators AddressType.Group _).2.2 (by decide)).1⟩

/-! ## Rounding to a binary format -/

theorem roundHalfEven_sub_le (q : ℚ) : |(roundHalfEven q : ℚ) - q| ≤ 1 / 2 := by
  have h1 := Int.floor_le q
  have h2 := Int.lt_floor_add_one q
  unfold roundHalfEven
  rw [abs_le]
  split_ifs <;> push_cast <;> constructor <;> linarith

theorem roundHalfEven_intCast (n : Int) : roundHalfEven (n : ℚ) = n := by
  unfold roundHalfEven
  simp

theorem roundHalfEven_mono {a b : ℚ} (h : a ≤ b) : roundHalfEven a ≤ roundHalfEven b := by
  have h1 := Int.floor_le_floor h
  have ha1 := Int.floor_le a
  have ha2 := Int.lt_floor_add_one a
  have hb1 := Int.floor_le b
  have hb2 := Int.lt_floor_add_one b
  unfold roundHalfEven
  by_cases hf : ⌊a⌋ = ⌊b⌋
  · rw [hf] at ha1 ha2 ⊢
    split_ifs <;> first | omega | (exfalso; linarith)
  · split_ifs <;> omega

theorem roundHalfEven_eq_of_lt {q : ℚ} {n : Int} (h : |q - n| < 1 / 2) :
    roundHalfEven q = n := by
  rw [abs_lt] at h
  have h1 := roundHalfEven_sub_le q
  rw [abs_le] at h1
  have h2 : ((roundHalfEven q - n : Int) : ℚ) < 1 := by push_cast; linarith
  have h3 : (-1 : ℚ) < ((roundHalfEven q - n : Int) : ℚ) := by push_cast; linarith
  have h4 : roundHalfEven q - n < 1 := by exact_mod_cast h2
  have h5 : -1 < roundHalfEven q - n := by exact_mod_cast h3
  omega

theorem log_spec {x : ℚ} (hx : x ≠ 0) :
    (2 : ℚ) ^ Int.log 2 |x| ≤ |x| ∧ |x| < (2 : ℚ) ^ (Int.log 2 |x| + 1) := by
  have h0 : 0 < |x| := abs_pos.mpr hx
  have h1 := Int.zpow_log_le_self (b := 2) (by norm_num) h0
  have h2 := Int.lt_zpow_succ_log_self (b := 2) (by norm_num) |x|
  constructor
  · exact_mod_cast h1
  · exact_mod_cast h2

theorem log_eq_of {x : ℚ} {e : Int} (h1 : (2 : ℚ) ^ e ≤ |x|) (h2 : |x| < (2 : ℚ) ^ (e + 1)) :
    Int.log 2 |x| = e := by
  have h0 : 0 < |x| := lt_of_lt_of_le (by positivity) h1
  have a : e ≤ Int.log 2 |x| := by
    rw [← Int.zpow_le_iff_le_log (by norm_num) h0]
    exact_mod_cast h1
  have b : Int.log 2 |x| < e + 1 := by
    rw [← Int.lt_zpow_iff_log_lt (by norm_num) h0]
    exact_mod_cast h2
  omega

theorem ulp_eq (p : Nat) (e : Int) :
    (2 : ℚ) ^ (e - ((p : Int) - 1)) = 2 * (2 : ℚ) ^ e / (2 : ℚ) ^ p := by
  rw [zpow_sub₀ (by norm_num : (2 : ℚ) ≠ 0), zpow_sub_one₀ (by norm_num : (2 : ℚ) ≠ 0),
    zpow_natCast]
  field_simp
  ring

theorem ulp_pos (p : Nat) (e : Int) : (0 : ℚ) < (2 : ℚ) ^ (e - ((p : Int) - 1)) := by
  positivity

theorem roundToPrecision_sub_le (p : Nat) (x : ℚ) :
    |roundToPrecision p x - x| ≤ |x| / (2 : ℚ) ^ p := by
  unfold roundToPrecision
  split_ifs with hx
  · simp [hx]
  · have hu := ulp_pos p (Int.log 2 |x|)
    have hl := (log_spec hx).1
    have hq := roundHalfEven_sub_le (x / (2 : ℚ) ^ (Int.log 2 |x| - ((p : Int) - 1)))
    have hp : (0 : ℚ) < (2 : ℚ) ^ p := by positivity
    have e1 : (roundHalfEven (x / (2 : ℚ) ^ (Int.log 2 |x| - ((p : Int) - 1))) : ℚ)
          * (2 : ℚ) ^ (Int.log 2 |x| - ((p : Int) - 1)) - x
        = ((roundHalfEven (x / (2 : ℚ) ^ (Int.log 2 |x| - ((p : Int) - 1))) : ℚ)
            - x / (2 : ℚ) ^ (Int.log 2 |x| - ((p : Int) - 1)))
          * (2 : ℚ) ^ (Int.log 2 |x| - ((p : Int) - 1)) := by
      field_simp
    rw [e1, abs_mul, abs_of_pos hu]
    calc _ ≤ 1 / 2 * (2 : ℚ) ^ (Int.log 2 |x| - ((p : Int) - 1)) :=
          mul_le_mul_of_nonneg_right hq hu.le
      _ = (2 : ℚ) ^ Int.log 2 |x| / (2 : ℚ) ^ p := by rw [ulp_eq]; ring
      _ ≤ |x| / (2 : ℚ) ^ p := div_le_div_of_nonneg_right hl hp.le

theorem roundToPrecision_nonneg (p : Nat) {x : ℚ} (h : 0 ≤ x) : 0 ≤ roundToPrecision p x := by
  have h1 := roundToPrecision_sub_le p x
  rw [abs_of_nonneg h, abs_le] at h1
  have hp : (1 : ℚ) ≤ (2 : ℚ) ^ p := one_le_pow₀ (by norm_num)
  have h2 : x / (2 : ℚ) ^ p ≤ x := div_le_self h hp
  linarith [h1.1]

theorem roundToPrecision_nonpos (p : Nat) {x : ℚ} (h : x ≤ 0) : roundToPrecision p x ≤ 0 := by
  have h1 := roundToPrecision_sub_le p x
  rw [abs_of_nonpos h, abs_le] at h1
  have hp : (1 : ℚ) ≤ (2 : ℚ) ^ p := one_le_pow₀ (by norm_num)
  have h2 : -x / (2 : ℚ) ^ p ≤ -x := div_le_self (by linarith) hp
  linarith [h1.2]

theorem roundToPrecision_eq_of {p : Nat} {x : ℚ} {e n : Int}
    (h1 : (2 : ℚ) ^ e ≤ |x|) (h2 : |x| < (2 : ℚ) ^ (e + 1))
    (hn : |x / (2 : ℚ) ^ (e - ((p : Int) - 1)) - n| < 1 / 2) :
    roundToPrecision p x = n * (2 : ℚ) ^ (e - ((p : Int) - 1)) := by
  have hx : x ≠ 0 := by
    intro h
    rw [h, abs_zero] at h1
    exact absurd h1 (not_le.mpr (by positivity))
  unfold roundToPrecision
  rw [if_neg hx, log_eq_of h1 h2, roundHalfEven_eq_of_lt hn]

theorem roundToPrecision_of_div_eq {p : Nat} {x : ℚ} (m : Int)
    (h : x / (2 : ℚ) ^ (Int.log 2 |x| - ((p : Int) - 1)) = m) : roundToPrecision p x = x := by
  unfold roundToPrecision
  split_ifs with hx
  · exact hx.symm
  · rw [h, roundHalfEven_intCast, ← h]
    have hu := ulp_pos p (Int.log 2 |x|)
    field_simp

/-- Numbers with at most p significant bits are not changed. -/
theorem roundToPrecision_of_int_mul (p : Nat) (n j : Int) (hn : |n| < 2 ^ p) :
    roundToPrecision p ((n : ℚ) * (2 : ℚ) ^ j) = (n : ℚ) * (2 : ℚ) ^ j := by
  by_cases hx : (n : ℚ) * (2 : ℚ) ^ j = 0
  · rw [hx]; simp [roundToPrecision]
  · have h0 : 0 < |(n : ℚ) * (2 : ℚ) ^ j| := abs_pos.mpr hx
    have hlt : |(n : ℚ) * (2 : ℚ) ^ j| < (2 : ℚ) ^ ((p : Int) + j) := by
      rw [abs_mul, abs_of_pos (by positivity : (0 : ℚ) < (2 : ℚ) ^ j),
        zpow_add₀ (by norm_num : (2 : ℚ) ≠ 0), zpow_natCast]
      have : |(n : ℚ)| < (2 : ℚ) ^ p := by exact_mod_cast hn
      exact mul_lt_mul_of_pos_right this (by positivity)
    have hlog : Int.log 2 |(n : ℚ) * (2 : ℚ) ^ j| < (p : Int) + j := by
      rw [← Int.lt_zpow_iff_log_lt (by norm_num) h0]
      exact_mod_cast hlt
    obtain ⟨k, hk⟩ : ∃ k : Nat, (k : Int)
        = j - (Int.log 2 |(n : ℚ) * (2 : ℚ) ^ j| - ((p : Int) - 1)) :=
      ⟨(j - (Int.log 2 |(n : ℚ) * (2 : ℚ) ^ j| - ((p : Int) - 1))).toNat,
        Int.toNat_of_nonneg (by omega)⟩
    apply roundToPrecision_of_div_eq (n * 2 ^ k)
    rw [mul_div_assoc, ← zpow_sub₀ (by norm_num : (2 : ℚ) ≠ 0), ← hk, zpow_natCast]
    push_cast
    ring

theorem ulp_mul_low (k : Nat) (e : Int) :
    (((2 : Int) ^ k : Int) : ℚ) * (2 : ℚ) ^ (e - (((k + 1 : Nat) : Int) - 1)) = (2 : ℚ) ^ e := by
  rw [ulp_eq]
  push_cast
  field_simp
  ring

theorem ulp_mul_high (k : Nat) (e : Int) :
    (((2 : Int) ^ (k + 1) : Int) : ℚ) * (2 : ℚ) ^ (e - (((k + 1 : Nat) : Int) - 1))
      = (2 : ℚ) ^ (e + 1) := by
  rw [ulp_eq, zpow_add_one₀ (by norm_num : (2 : ℚ) ≠ 0)]
  push_cast
  field_simp
  ring

theorem roundToPrecision_binade_pos (k : Nat) {x : ℚ} (hx : 0 < x) :
    (2 : ℚ) ^ Int.log 2 |x| ≤ roundToPrecision (k + 1) x
      ∧ roundToPrecision (k + 1) x ≤ (2 : ℚ) ^ (Int.log 2 |x| + 1) := by
  have hl := log_spec hx.ne.symm
  rw [abs_of_pos hx] at hl
  have hu := ulp_pos (k + 1) (Int.log 2 x)
  unfold roundToPrecision
  rw [if_neg hx.ne.symm, abs_of_pos hx]
  constructor
  · have h1 : (((2 : Int) ^ k : Int) : ℚ)
        ≤ x / (2 : ℚ) ^ (Int.log 2 x - (((k + 1 : Nat) : Int) - 1)) := by
      rw [le_div_iff₀ hu, ulp_mul_low]
      exact hl.1
    have h2 := roundHalfEven_mono h1
    rw [roundHalfEven_intCast] at h2
    have h3 : (((2 : Int) ^ k : Int) : ℚ)
        ≤ (roundHalfEven (x / (2 : ℚ) ^ (Int.log 2 x - (((k + 1 : Nat) : Int) - 1))) : ℚ) := by
      exact_mod_cast h2
    calc (2 : ℚ) ^ Int.log 2 x
        = (((2 : Int) ^ k : Int) : ℚ) * (2 : ℚ) ^ (Int.log 2 x - (((k + 1 : Nat) : Int) - 1)) :=
          (ulp_mul_low k _).symm
      _ ≤ _ := mul_le_mul_of_nonneg_right h3 hu.le
  · have h1 : x / (2 : ℚ) ^ (Int.log 2 x - (((k + 1 : Nat) : Int) - 1))
        ≤ (((2 : Int) ^ (k + 1) : Int) : ℚ) := by
      rw [div_le_iff₀ hu, ulp_mul_high]
      exact hl.2.le
    have h2 := roundHalfEven_mono h1
    rw [roundHalfEven_intCast] at h2
    have h3 : (roundHalfEven (x / (2 : ℚ) ^ (Int.log 2 x - (((k + 1 : Nat) : Int) - 1))) : ℚ)
        ≤ (((2 : Int) ^ (k + 1) : Int) : ℚ) := by
      exact_mod_cast h2
    calc _ ≤ (((2 : Int) ^ (k + 1) : Int) : ℚ)
          * (2 : ℚ) ^ (Int.log 2 x - (((k + 1 : Nat) : Int) - 1)) :=
          mul_le_mul_of_nonneg_right h3 hu.le
      _ = _ := ulp_mul_high k _

theorem roundToPrecision_binade_neg (k : Nat) {x : ℚ} (hx : x < 0) :
    -(2 : ℚ) ^ (Int.log 2 |x| + 1) ≤ roundToPrecision (k + 1) x
      ∧ roundToPrecision (k + 1) x ≤ -(2 : ℚ) ^ Int.log 2 |x| := by
  have hl := log_spec hx.ne
  rw [abs_of_neg hx] at hl
  have hu := ulp_pos (k + 1) (Int.log 2 (-x))
  unfold roundToPrecision
  rw [if_neg hx.ne, abs_of_neg hx]
  constructor
  · have h1 : (((-(2 : Int) ^ (k + 1)) : Int) : ℚ)
        ≤ x / (2 : ℚ) ^ (Int.log 2 (-x) - (((k + 1 : Nat) : Int) - 1)) := by
      rw [le_div_iff₀ hu, Int.cast_neg, neg_mul, ulp_mul_high]
      linarith [hl.2]
    have h2 := roundHalfEven_mono h1
    rw [roundHalfEven_intCast] at h2
    have h3 : (((-(2 : Int) ^ (k + 1)) : Int) : ℚ)
        ≤ (roundHalfEven (x / (2 : ℚ) ^ (Int.log 2 (-x) - (((k + 1 : Nat) : Int) - 1))) : ℚ) := by
      exact_mod_cast h2
    calc -(2 : ℚ) ^ (Int.log 2 (-x) + 1)
        = (((-(2 : Int) ^ (k + 1)) : Int) : ℚ)
            * (2 : ℚ) ^ (Int.log 2 (-x) - (((k + 1 : Nat) : Int) - 1)) := by
          rw [Int.cast_neg, neg_mul, ulp_mul_high]
      _ ≤ _ := mul_le_mul_of_nonneg_right h3 hu.le
  · have h1 : x / (2 : ℚ) ^ (Int.log 2 (-x) - (((k + 1 : Nat) : Int) - 1))
        ≤ (((-(2 : Int) ^ k) : Int) : ℚ) := by
      rw [div_le_iff₀ hu, Int.cast_neg, neg_mul, ulp_mul_low]
      linarith [hl.1]
    have h2 := roundHalfEven_mono h1
    rw [roundHalfEven_intCast] at h2
    have h3 : (roundHalfEven (x / (2 : ℚ) ^ (Int.log 2 (-x) - (((k + 1 : Nat) : Int) - 1))) : ℚ)
        ≤ (((-(2 : Int) ^ k) : Int) : ℚ) := by
      exact_mod_cast h2
    calc _ ≤ (((-(2 : Int) ^ k) : Int) : ℚ)
          * (2 : ℚ) ^ (Int.log 2 (-x) - (((k + 1 : Nat) : Int) - 1)) :=
          mul_le_mul_of_nonneg_right h3 hu.le
      _ = _ := by rw [Int.cast_neg, neg_mul, ulp_mul_low]

theorem two_zpow_mono {a b : Int} (h : a ≤ b) : (2 : ℚ) ^ a ≤ (2 : ℚ) ^ b :=
  zpow_le_zpow_right₀ (by norm_num) h

/-- Rounding is monotone. -/
theorem roundToPrecision_mono (k : Nat) {a b : ℚ} (h : a ≤ b) :
    roundToPrecision (k + 1) a ≤ roundToPrecision (k + 1) b := by
  rcases le_or_lt a 0 with ha | ha
  · rcases le_or_lt 0 b with hb | hb
    · exact (roundToPrecision_nonpos _ ha).trans (roundToPrecision_nonneg _ hb)
    · have ha : a < 0 := lt_of_le_of_lt h hb
      have hlog : Int.log 2 |b| ≤ Int.log 2 |a| := by
        apply Int.log_mono_right (abs_pos.mpr hb.ne)
        rw [abs_of_neg ha, abs_of_neg hb]
        linarith
      rcases hlog.eq_or_lt with he | he
      · unfold roundToPrecision
        rw [if_neg ha.ne, if_neg hb.ne, he]
        have hu := ulp_pos (k + 1) (Int.log 2 |a|)
        apply mul_le_mul_of_nonneg_right _ hu.le
        have := roundHalfEven_mono (div_le_div_of_nonneg_right h hu.le)
        exact_mod_cast this
      · have h1 := (roundToPrecision_binade_neg k ha).2
        have h2 := (roundToPrecision_binade_neg k hb).1
        have h3 : (2 : ℚ) ^ (Int.log 2 |b| + 1) ≤ (2 : ℚ) ^ Int.log 2 |a| :=
          two_zpow_mono (by omega)
        linarith
  · have hb : 0 < b := lt_of_lt_of_le ha h
    have hlog : Int.log 2 |a| ≤ Int.log 2 |b| := by
      apply Int.log_mono_right (abs_pos.mpr ha.ne.symm)
      rw [abs_of_pos ha, abs_of_pos hb]
      exact h
    rcases hlog.eq_or_lt with he | he
    · unfold roundToPrecision
      rw [if_neg ha.ne.symm, if_neg hb.ne.symm, he]
      have hu := ulp_pos (k + 1) (Int.log 2 |b|)
      apply mul_le_mul_of_nonneg_right _ hu.le
      have := roundHalfEven_mono (div_le_div_of_nonneg_right h hu.le)
      exact_mod_cast this
    · have h1 := (roundToPrecision_binade_pos k ha).2
      have h2 := (roundToPrecision_binade_pos k hb).1
      have h3 : (2 : ℚ) ^ (Int.log 2 |a| + 1) ≤ (2 : ℚ) ^ Int.log 2 |b| :=
        two_zpow_mono (by omega)
      linarith

theorem toFloat_sub_le (x : ℚ) : |toFloat x - x| ≤ |x| / 16777216 := by
  have h := roundToPrecision_sub_le 24 x
  norm_num at h
  exact h

theorem toDouble_sub_le (x : ℚ) : |toDouble x - x| ≤ |x| / 9007199254740992 := by
  have h := roundToPrecision_sub_le 53 x
  norm_num at h
  exact h

theorem toFloat_nonneg {x : ℚ} (h : 0 ≤ x) : 0 ≤ toFloat x := roundToPrecision_nonneg 24 h

theorem toFloat_nonpos {x : ℚ} (h : x ≤ 0) : toFloat x ≤ 0 := roundToPrecision_nonpos 24 h

theorem toFloat_mono {a b : ℚ} (h : a ≤ b) : toFloat a ≤ toFloat b :=
  roundToPrecision_mono 23 h

theorem toDouble_mono {a b : ℚ} (h : a ≤ b) : toDouble a ≤ toDouble b :=
  roundToPrecision_mono 52 h

theorem toDouble_nonneg {x : ℚ} (h : 0 ≤ x) : 0 ≤ toDouble x := roundToPrecision_nonneg 53 h

theorem toDouble_nonpos {x : ℚ} (h : x ≤ 0) : toDouble x ≤ 0 := roundToPrecision_nonpos 53 h

/-- A `float` is a number that the conversion to `float` does not change; the
numbers `n * 2^j` with `|n| < 2^24` are such. -/
theorem toFloat_of_eq {x : ℚ} (n j : Int) (hn : |n| < 2 ^ 24) (hx : x = (n : ℚ) * (2 : ℚ) ^ j) :
    toFloat x = x := by
  rw [hx]
  exact roundToPrecision_of_int_mul 24 n j hn

theorem toDouble_of_eq {x : ℚ} (n j : Int) (hn : |n| < 2 ^ 53)
    (hx : x = (n : ℚ) * (2 : ℚ) ^ j) : toDouble x = x := by
  rw [hx]
  exact roundToPrecision_of_int_mul 53 n j hn

theorem toFloat_intCast (n : Int) (hn : |n| < 2 ^ 24) : toFloat (n : ℚ) = n :=
  toFloat_of_eq n 0 hn (by simp)

theorem toFloat_two_zpow (j : Int) : toFloat ((2 : ℚ) ^ j) = (2 : ℚ) ^ j :=
  toFloat_of_eq 1 j (by norm_num) (by simp)

/-- The evaluation of a rounding: for `2^e ≤ |x| < 2^(e+1)` and an integer `n`
nearer than 1/2 to `x / 2^(e-(p-1))` the rounded number is `n * 2^(e-(p-1))`. -/
theorem roundToPrecision_eval {p : Nat} {x y : ℚ} (e n : Int)
    (h1 : (2 : ℚ) ^ e ≤ |x|) (h2 : |x| < (2 : ℚ) ^ (e + 1))
    (hn : |x / (2 : ℚ) ^ (e - ((p : Int) - 1)) - n| < 1 / 2)
    (hy : y = n * (2 : ℚ) ^ (e - ((p : Int) - 1))) : roundToPrecision p x = y := by
  rw [hy]
  exact roundToPrecision_eq_of h1 h2 hn

theorem roundHalfEven_eq_of_tie {q : ℚ} {n : Int} (h : q = (n : ℚ) + 1 / 2) :
    roundHalfEven q = if n % 2 = 0 then n else n + 1 := by
  have hf : ⌊q⌋ = n := by
    rw [Int.floor_eq_iff, h]
    constructor <;> linarith
  unfold roundHalfEven
  rw [hf, h]
  have e : (n : ℚ) + 1 / 2 - (n : ℚ) = 1 / 2 := by ring
  rw [e, if_neg (lt_irrefl _), if_neg (lt_irrefl _)]

/-- The evaluation of a rounding at a number halfway between two neighbours of
the format: the neighbour with the even significand is taken. -/
theorem roundToPrecision_eval_tie {p : Nat} {x y : ℚ} (e n m : Int)
    (h1 : (2 : ℚ) ^ e ≤ |x|) (h2 : |x| < (2 : ℚ) ^ (e + 1))
    (hn : x / (2 : ℚ) ^ (e - ((p : Int) - 1)) = (n : ℚ) + 1 / 2)
    (hm : m = if n % 2 = 0 then n else n + 1)
    (hy : y = m * (2 : ℚ) ^ (e - ((p : Int) - 1))) : roundToPrecision p x = y := by
  have hx : x ≠ 0 := by
    intro h
    rw [h, abs_zero] at h1
    exact absurd h1 (not_le.mpr (by positivity))
  unfold roundToPrecision
  rw [if_neg hx, log_eq_of h1 h2, roundHalfEven_eq_of_tie hn, hy, hm]

/-- Relative errors add up: a number within `r` of `b` and a number within `s`
of it. -/
theorem rel_step {a b c r s : ℚ} (h1 : |a - b| ≤ r * |b|) (h2 : |c - a| ≤ s * |a|)
    (hs : 0 ≤ s) : |c - b| ≤ (r + s + r * s) * |b| := by
  have ha : |a| ≤ |b| + |a - b| := by
    have := abs_add (a - b) b
    simp only [sub_add_cancel] at this
    linarith
  have hc : |c - b| ≤ |c - a| + |a - b| := by
    have := abs_add (c - a) (a - b)
    simp only [sub_add_sub_cancel] at this
    exact this
  have h3 : s * |a| ≤ s * (|b| + r * |b|) := mul_le_mul_of_nonneg_left (by linarith) hs
  nlinarith

theorem rel_mul {a b r : ℚ} (k : ℚ) (h : |a - b| ≤ r * |b|) :
    |a * k - b * k| ≤ r * |b * k| := by
  rw [← sub_mul, abs_mul, abs_mul, ← mul_assoc]
  exact mul_le_mul_of_nonneg_right h (abs_nonneg k)

theorem toFloat_rel (x : ℚ) : |toFloat x - x| ≤ 1 / 16777216 * |x| := by
  have := toFloat_sub_le x
  linarith

theorem toDouble_rel (x : ℚ) : |toDouble x - x| ≤ 1 / 9007199254740992 * |x| := by
  have := toDouble_sub_le x
  linarith

/-! ## The 2-byte float decoder -/

theorem and_shiftLeft_mask (a m k : Nat) : a &&& (m <<< k) = ((a >>> k) &&& m) <<< k := by
  apply Nat.eq_of_testBit_eq
  intro j
  simp only [Nat.testBit_and, Nat.testBit_shiftLeft, Nat.testBit_shiftRight]
  by_cases h : j ≥ k
  · have e : k + (j - k) = j := by omega
    simp [h, e]
  · simp [h]

theorem and_mask_shiftRight (a m k : Nat) : (a &&& (m <<< k)) >>> k = (a >>> k) &&& m := by
  rw [and_shiftLeft_mask, Nat.shiftLeft_shiftRight]

theorem and_0x87ff (w : Nat) (hw : w < 65536) :
    w &&& 0x87ff = 32768 * (w / 32768) + w % 2048 := by
  have hmask : (0x87ff : Nat) = (1 <<< 15) ||| 0x07ff := by decide
  have h1 : w &&& (1 <<< 15) = 2 ^ 15 * (w / 32768) := by
    rw [and_shiftLeft_mask, show (1 : Nat) = 2 ^ 1 - 1 from rfl, and_mask, Nat.shiftLeft_eq,
      Nat.shiftRight_eq_div_pow]
    have : w / 2 ^ 15 % 2 ^ 1 = w / 32768 := by omega
    rw [this, Nat.mul_comm]
  have h2 := Nat.mul_add_lt_is_or (i := 15) (b := w % 2048) (by omega) (w / 32768)
  rw [hmask, Nat.and_or_distrib_left, h1, and_0x7ff, ← h2]

theorem exponent_eq (w : Nat) : QKnx2ByteFloat.exponent w = (w >>> 11) &&& 0xF := by
  unfold QKnx2ByteFloat.exponent
  rw [show (0x7800 : Nat) = 0xF <<< 11 from by decide, and_mask_shiftRight]
  have : (w >>> 11) &&& 0xF = (w >>> 11) % 16 := and_0x0f _
  rw [this]
  omega

theorem mantissa_eq (w : Nat) (hw : w < 65536) :
    QKnx2ByteFloat.mantissa w
      = ((w &&& 0x7FF : Nat) : Int) - (2048 : Int) * ((w >>> 15 : Nat) : Int) := by
  unfold QKnx2ByteFloat.mantissa
  rw [and_0x87ff w hw, and_0x7ff, Nat.shiftRight_eq_div_pow]
  simp only []
  have hs : w / 32768 = 0 ∨ w / 32768 = 1 := by omega
  have hm : w % 2048 < 2048 := Nat.mod_lt _ (by omega)
  rcases hs with hs | hs <;> rw [hs] <;> split_ifs <;> omega

/-- The number that `value()` returns is within `2^-23` of `0.01 * M * 2^E`,
relative to its magnitude. -/
theorem value_rel (bytes : List Nat) :
    |QKnx2ByteFloat.value bytes
        - (1 / 100 : ℚ) * (QKnx2ByteFloat.mantissa (QKnxUtils.QUint16.fromBytes bytes) : ℚ)
          * (2 : ℚ) ^ QKnx2ByteFloat.exponent (QKnxUtils.QUint16.fromBytes bytes)|
      ≤ 1 / 8388608
        * |(1 / 100 : ℚ) * (QKnx2ByteFloat.mantissa (QKnxUtils.QUint16.fromBytes bytes) : ℚ)
          * (2 : ℚ) ^ QKnx2ByteFloat.exponent (QKnxUtils.QUint16.fromBytes bytes)| := by
  unfold QKnx2ByteFloat.value
  dsimp only
  generalize (QKnx2ByteFloat.mantissa (QKnxUtils.QUint16.fromBytes bytes) : ℚ) = M
  generalize (2 : ℚ) ^ QKnx2ByteFloat.exponent (QKnxUtils.QUint16.fromBytes bytes) = P
  have h1 := rel_mul M (toDouble_rel (1 / 100))
  have h2 := rel_step h1 (toDouble_rel (toDouble (1 / 100) * M)) (by norm_num)
  have h3 := rel_mul P h2
  have h4 := rel_step h3 (toDouble_rel (toDouble (toDouble (1 / 100) * M) * P)) (by norm_num)
  have h5 := rel_step h4 (toFloat_rel (toDouble (toDouble (toDouble (1 / 100) * M) * P)))
    (by norm_num)
  refine h5.trans (mul_le_mul_of_nonneg_right ?_ (abs_nonneg _))
  norm_num

/-- The `double` literal `0.01`. -/
theorem toDouble_centi : toDouble (1 / 100) = (5764607523034235 / 576460752303423488) := by
  apply roundToPrecision_eval (-7) (5764607523034235) <;> norm_num [abs_of_neg, abs_of_pos]

/-- The mantissa -520 with the exponent 0 decodes to the `float` nearest to -5.2. -/
theorem decode_minusFivePointTwo :
    toFloat (toDouble (toDouble (toDouble (1 / 100) * (((-520) : Int) : ℚ)) * (2 : ℚ) ^ 0))
      = (-5452595 / 1048576) := by
  rw [toDouble_centi]
  have d1 : toDouble ((5764607523034235 / 576460752303423488) * (((-520) : Int) : ℚ))
      = (-5854679515581645 / 1125899906842624) := by
    apply roundToPrecision_eval (2) (-5854679515581645) <;> norm_num [abs_of_neg, abs_of_pos]
  rw [d1]
  have d2 : toDouble ((-5854679515581645 / 1125899906842624) * (2 : ℚ) ^ 0)
      = (-5854679515581645 / 1125899906842624) := by
    apply roundToPrecision_eval (2) (-5854679515581645) <;> norm_num [abs_of_neg, abs_of_pos]
  rw [d2]
  show toFloat (-5854679515581645 / 1125899906842624) = _
  apply roundToPrecision_eval (2) (-10905190) <;> norm_num [abs_of_neg, abs_of_pos]

/-- The mantissa -2048 with the exponent 15 decodes to -671088.625. -/
theorem decode_lowest :
    toFloat (toDouble (toDouble (toDouble (1 / 100) * (((-2048) : Int) : ℚ)) * (2 : ℚ) ^ 15))
      = (-5368709 / 8) := by
  rw [toDouble_centi]
  have d1 : toDouble ((5764607523034235 / 576460752303423488) * (((-2048) : Int) : ℚ))
      = (-5764607523034235 / 281474976710656) := by
    apply roundToPrecision_eval (4) (-5764607523034235) <;> norm_num [abs_of_neg, abs_of_pos]
  rw [d1]
  have d2 : toDouble ((-5764607523034235 / 281474976710656) * (2 : ℚ) ^ 15)
      = (-5764607523034235 / 8589934592) := by
    apply roundToPrecision_eval (19) (-5764607523034235) <;> norm_num [abs_of_neg, abs_of_pos]
  rw [d2]
  show toFloat (-5764607523034235 / 8589934592) = _
  apply roundToPrecision_eval (19) (-10737418) <;> norm_num [abs_of_neg, abs_of_pos]

/-- The mantissa 2047 with the exponent 15 decodes to 670760.9375. -/
theorem decode_highest :
    toFloat (toDouble (toDouble (toDouble (1 / 100) * ((2047 : Int) : ℚ)) * (2 : ℚ) ^ 15))
      = (10732175 / 16) := by
  rw [toDouble_centi]
  have d1 : toDouble ((5764607523034235 / 576460752303423488) * ((2047 : Int) : ℚ))
      = (720224096658391 / 35184372088832) := by
    apply roundToPrecision_eval (4) (5761792773267128) <;> norm_num [abs_of_neg, abs_of_pos]
  rw [d1]
  have d2 : toDouble ((720224096658391 / 35184372088832) * (2 : ℚ) ^ 15)
      = (720224096658391 / 1073741824) := by
    apply roundToPrecision_eval (19) (5761792773267128) <;> norm_num [abs_of_neg, abs_of_pos]
  rw [d2]
  show toFloat (720224096658391 / 1073741824) = _
  apply roundToPrecision_eval (19) (10732175) <;> norm_num [abs_of_neg, abs_of_pos]

/-- The mantissa -1706 with the exponent 4 decodes to the `float` nearest to
-272.96. -/
theorem decode_celsius :
    toFloat (toDouble (toDouble (toDouble (1 / 100) * (((-1706) : Int) : ℚ)) * (2 : ℚ) ^ 4))
      = (-8944353 / 32768) := by
  rw [toDouble_centi]
  have d1 : toDouble ((5764607523034235 / 576460752303423488) * (((-1706) : Int) : ℚ))
      = (-4801963102683791 / 281474976710656) := by
    apply roundToPrecision_eval (4) (-4801963102683791) <;> norm_num [abs_of_neg, abs_of_pos]
  rw [d1]
  have d2 : toDouble ((-4801963102683791 / 281474976710656) * (2 : ℚ) ^ 4)
      = (-4801963102683791 / 17592186044416) := by
    apply roundToPrecision_eval (8) (-4801963102683791) <;> norm_num [abs_of_neg, abs_of_pos]
  rw [d2]
  show toFloat (-4801963102683791 / 17592186044416) = _
  apply roundToPrecision_eval (8) (-8944353) <;> norm_num [abs_of_neg, abs_of_pos]

theorem value_85F8 : QKnx2ByteFloat.value [0x85, 0xF8] = (-5452595 / 1048576) := by
  have hm : QKnx2ByteFloat.mantissa (QKnxUtils.QUint16.fromBytes [0x85, 0xF8])
      = (-520) := by
    decide
  have he : QKnx2ByteFloat.exponent (QKnxUtils.QUint16.fromBytes [0x85, 0xF8])
      = 0 := by
    decide
  unfold QKnx2ByteFloat.value
  simp only [hm, he]
  exact decode_minusFivePointTwo

theorem value_F800 : QKnx2ByteFloat.value [0xF8, 0x00] = (-5368709 / 8) := by
  have hm : QKnx2ByteFloat.mantissa (QKnxUtils.QUint16.fromBytes [0xF8, 0x00])
      = (-2048) := by
    decide
  have he : QKnx2ByteFloat.exponent (QKnxUtils.QUint16.fromBytes [0xF8, 0x00])
      = 15 := by
    decide
  unfold QKnx2ByteFloat.value
  simp only [hm, he]
  exact decode_lowest

theorem value_7FFF : QKnx2ByteFloat.value [0x7F, 0xFF] = (10732175 / 16) := by
  have hm : QKnx2ByteFloat.mantissa (QKnxUtils.QUint16.fromBytes [0x7F, 0xFF])
      = 2047 := by
    decide
  have he : QKnx2ByteFloat.exponent (QKnxUtils.QUint16.fromBytes [0x7F, 0xFF])
      = 15 := by
    decide
  unfold QKnx2ByteFloat.value
  simp only [hm, he]
  exact decode_highest

/-- C10 fails as stated: the bytes 0x85 0xF8 hold the exponent 0 and the mantissa
-520, and `value()` returns the `float` -5.19999980926513671875, which is not
`0.01 * (-520) * 2^0 = -5.2`. -/
theorem value_counterexample :
    QKnx2ByteFloat.value [0x85, 0xF8] = -5452595 / 1048576
      ∧ ((0x85 * 256 + 0xF8) >>> 11) &&& 0xF = 0
      ∧ (((0x85 * 256 + 0xF8) &&& 0x7FF : Nat) : Int)
          - (2048 : Int) * (((0x85 * 256 + 0xF8) >>> 15 : Nat) : Int) = -520
      ∧ QKnx2ByteFloat.value [0x85, 0xF8]
          ≠ (1 / 100 : ℚ)
            * (((((0x85 * 256 + 0xF8) &&& 0x7FF : Nat) : Int)
                - (2048 : Int) * (((0x85 * 256 + 0xF8) >>> 15 : Nat) : Int) : Int) : ℚ)
            * (2 : ℚ) ^ (((0x85 * 256 + 0xF8) >>> 11) &&& 0xF) := by
  refine ⟨value_85F8, by decide, by decide, ?_⟩
  rw [value_85F8, show ((0x85 * 256 + 0xF8) &&& 0x7FF) = 1528 from by decide,
    show ((0x85 * 256 + 0xF8) >>> 15) = 1 from by decide,
    show (((0x85 * 256 + 0xF8) >>> 11) &&& 0xF) = 0 from by decide]
  norm_num

/-- C10, amended: for a buffer of two bytes `b0`, `b1` with `w = b0*256 + b1`, the
decoder computes the exponent `E = (w >> 11) & 0xF` and the mantissa
`M = (w & 0x7FF) - 2048 * (w >> 15)`, the 12 bit two's-complement number made of
the sign bit and the 11 mantissa bits; `value()` is the product `0.01 * M * 2^E`
as `double` arithmetic gives it, converted to `float`, and differs from the number
`0.01 * M * 2^E` by at most `2^-23` times the magnitude of that number. -/
theorem value_spec (b0 b1 : Nat) (h0 : b0 < 256) (h1 : b1 < 256) :
    QKnx2ByteFloat.exponent (b0 * 256 + b1) = ((b0 * 256 + b1) >>> 11) &&& 0xF
      ∧ QKnx2ByteFloat.mantissa (b0 * 256 + b1)
          = (((b0 * 256 + b1) &&& 0x7FF : Nat) : Int)
            - (2048 : Int) * (((b0 * 256 + b1) >>> 15 : Nat) : Int)
      ∧ QKnx2ByteFloat.value [b0, b1]
          = toFloat (toDouble (toDouble (toDouble (1 / 100)
              * (((((b0 * 256 + b1) &&& 0x7FF : Nat) : Int)
                - (2048 : Int) * (((b0 * 256 + b1) >>> 15 : Nat) : Int) : Int) : ℚ))
            * (2 : ℚ) ^ (((b0 * 256 + b1) >>> 11) &&& 0xF)))
      ∧ |QKnx2ByteFloat.value [b0, b1]
          - (1 / 100 : ℚ)
            * (((((b0 * 256 + b1) &&& 0x7FF : Nat) : Int)
                - (2048 : Int) * (((b0 * 256 + b1) >>> 15 : Nat) : Int) : Int) : ℚ)
            * (2 : ℚ) ^ (((b0 * 256 + b1) >>> 11) &&& 0xF)|
        ≤ 1 / 8388608
          * |(1 / 100 : ℚ)
            * (((((b0 * 256 + b1) &&& 0x7FF : Nat) : Int)
                - (2048 : Int) * (((b0 * 256 + b1) >>> 15 : Nat) : Int) : Int) : ℚ)
            * (2 : ℚ) ^ (((b0 * 256 + b1) >>> 11) &&& 0xF)| := by
  have hw : b0 * 256 + b1 < 65536 := by omega
  have hb : QKnxUtils.QUint16.fromBytes [b0, b1] = b0 * 256 + b1 := by
    simp only [QKnxUtils.QUint16.fromBytes]
    omega
  have hrel := value_rel [b0, b1]
  rw [hb, exponent_eq, mantissa_eq _ hw] at hrel
  refine ⟨exponent_eq _, mantissa_eq _ hw, ?_, hrel⟩
  rw [QKnx2ByteFloat.value]
  simp only [hb, exponent_eq, mantissa_eq _ hw]

/-- C10, amended, on the bytes 0x85 0xF8 (sign 1, exponent 0, mantissa bits
0x5F8): they decode to the `float` nearest to -5.2, which is within `2^-23 * 5.2`
of -5.2. -/
theorem value_spec_witness :
    QKnx2ByteFloat.exponent 0x85F8 = 0 ∧ QKnx2ByteFloat.mantissa 0x85F8 = -520
      ∧ QKnx2ByteFloat.value [0x85, 0xF8] = minusFivePointTwo
      ∧ |QKnx2ByteFloat.value [0x85, 0xF8] - (-52 / 10)| ≤ 1 / 8388608 * (52 / 10) := by
  have h1 := value_spec 0x85 0xF8 (by decide) (by decide)
  refine ⟨by rw [show (0x85F8 : Nat) = 0x85 * 256 + 0xF8 from rfl, h1.1]; decide,
    by rw [show (0x85F8 : Nat) = 0x85 * 256 + 0xF8 from rfl, h1.2.1]; decide, ?_, ?_⟩
  · rw [value_85F8]
    norm_num [minusFivePointTwo]
  · have h2 := h1.2.2.2
    rw [show ((0x85 * 256 + 0xF8) &&& 0x7FF) = 1528 from by decide,
      show ((0x85 * 256 + 0xF8) >>> 15) = 1 from by decide,
      show (((0x85 * 256 + 0xF8) >>> 11) &&& 0xF) = 0 from by decide] at h2
    norm_num [abs_of_pos] at h2 ⊢
    exact h2

/-! ## Additional info -/

theorem additionalInfo_type_cases (type : Nat) :
    type = 1 ∨ type = 2 ∨ type = 3 ∨ type = 4 ∨ type = 5 ∨ type = 6 ∨ type = 7 ∨ type = 8
      ∨ type = 9 ∨ type = 10 ∨ type = 254
      ∨ (type ≠ 1 ∧ type ≠ 2 ∧ type ≠ 3 ∧ type ≠ 4 ∧ type ≠ 5 ∧ type ≠ 6 ∧ type ≠ 7
          ∧ type ≠ 8 ∧ type ≠ 9 ∧ type ≠ 10 ∧ type ≠ 254) := by
  omega

theorem isValidData_iff (type : Nat) (data : List Nat) :
    QKnxAdditionalInfo.isValidData type data = true
      ↔ data.length ≤ 252 ∧ QKnxAdditionalInfo.Fits type data.length := by
  unfold QKnxAdditionalInfo.isValidData QKnxAdditionalInfo.Fits
  by_cases hlen : data.length ≤ 252
  · have hnot : ¬ ((data.length : Int) > 252) := by omega
    simp only [hnot, if_false, hlen, true_and]
    rcases additionalInfo_type_cases type with h | h | h | h | h | h | h | h | h | h | h | h
    all_goals first
      | (subst h
         simp [QKnxAdditionalInfo.isFixedCase, QKnxAdditionalInfo.expectedDataSize,
           QKnxAdditionalInfo.table]
         try omega)
      | (obtain ⟨h1, h2, h3, h4, h5, h6, h7, h8, h9, h10, h254⟩ := h
         simp [QKnxAdditionalInfo.isFixedCase, h1, h2, h3, h4, h5, h6, h7, h8, h9, h10, h254])
  · have hgt : (data.length : Int) > 252 := by omega
    simp [hgt, hlen]

theorem create_store (type : Nat) (data : List Nat) :
    QKnxByteStore.appendBytes
        (QKnxByteStore.setByte (QKnxByteStore.setByte [] 0 (type % 256)) 1 (data.length % 256))
        data
      = type % 256 :: data.length % 256 :: data := by
  simp [QKnxByteStore.appendBytes, QKnxByteStore.setByte, QKnxByteStore.resize]

theorem isValid_filled (type : Nat) (data : List Nat) (htype : type < 256) :
    QKnxAdditionalInfo.isValid (type % 256 :: data.length % 256 :: data)
      = QKnxAdditionalInfo.isValidData type data := by
  have ht : type % 256 = type := Nat.mod_eq_of_lt htype
  rw [ht]
  unfold QKnxAdditionalInfo.isValid QKnxAdditionalInfo.isValidData
  simp only [QKnxAdditionalInfo.size, QKnxAdditionalInfo.dataSize, QKnxByteStore.byte,
    List.length_cons, List.getD_cons_zero]
  by_cases hlen : data.length ≤ 252
  · have h1 : ¬ (data.length + 1 + 1 > 254) := by omega
    have h2 : ¬ ((data.length : Int) > 252) := by omega
    have h3 : data.length + 1 + 1 ≥ 2 := by omega
    have h4 : (data.length + 1 + 1 - 2) % 256 = data.length := by omega
    simp only [h1, h2, h3, h4, if_true, if_false]
  · have h1 : data.length + 1 + 1 > 254 := by omega
    have h2 : (data.length : Int) > 252 := by omega
    simp only [h1, h2, if_true]

theorem isValid_nil : QKnxAdditionalInfo.isValid [] = false := by decide

theorem create_eq (type : Nat) (data : List Nat) (htype : type < 256) :
    QKnxAdditionalInfo.create type data
      = if QKnxAdditionalInfo.isValidData type data then type :: data.length :: data
        else [] := by
  unfold QKnxAdditionalInfo.create
  simp only [create_store, isValid_filled type data htype]
  by_cases h : QKnxAdditionalInfo.isValidData type data = true
  · have hlen := ((isValidData_iff type data).mp h).1
    have h1 : data.length % 256 = data.length := by omega
    simp [h, h1, Nat.mod_eq_of_lt htype]
  · simp [h, QKnxByteStore.resize]

theorem create_isValid (type : Nat) (data : List Nat) (htype : type < 256) :
    QKnxAdditionalInfo.isValid (QKnxAdditionalInfo.create type data)
      = QKnxAdditionalInfo.isValidData type data := by
  rw [create_eq type data htype]
  by_cases h : QKnxAdditionalInfo.isValidData type data = true
  · have hlen := ((isValidData_iff type data).mp h).1
    have h1 : data.length % 256 = data.length := by omega
    have := isValid_filled type data htype
    rw [Nat.mod_eq_of_lt htype, h1] at this
    simp [h, this]
  · simp [h, isValid_nil]

/-- C15: an additional-info object built from a type id and data is valid iff
the data has at most 252 bytes and its length fits the type: exactly 2, 8, 1, 2,
4, 4, 2, 4, 3 bytes for the nine fixed types, an even length of at least 2 for
RfFastAck, at least 3 for ManufacturerSpecific; every other type id is invalid
for every data. The static check of the header decides the same. -/
theorem additionalInfo_valid_iff (type : Nat) (data : List Nat) (htype : type < 256) :
    (QKnxAdditionalInfo.isValid (QKnxAdditionalInfo.create type data) = true
        ↔ data.length ≤ 252 ∧ QKnxAdditionalInfo.Fits type data.length)
      ∧ (QKnxAdditionalInfo.isValidData type data = true
        ↔ data.length ≤ 252 ∧ QKnxAdditionalInfo.Fits type data.length) := by
  refine ⟨?_, isValidData_iff type data⟩
  rw [create_isValid type data htype]
  exact isValidData_iff type data

/-- C15, on the example of the specification: BusmonitorStatus with one byte is
valid, with two bytes it is not; the Reserved type and EscCode are not valid
with any of these data. -/
theorem additionalInfo_valid_iff_witness :
    QKnxAdditionalInfo.isValid
        (QKnxAdditionalInfo.create QKnxAdditionalInfo.BusmonitorStatusInfo [0x00]) = true
      ∧ QKnxAdditionalInfo.isValid
        (QKnxAdditionalInfo.create QKnxAdditionalInfo.BusmonitorStatusInfo [0x00, 0x00]) = false
      ∧ QKnxAdditionalInfo.isValid
        (QKnxAdditionalInfo.create QKnxAdditionalInfo.Reserved [0x00]) = false
      ∧ QKnxAdditionalInfo.isValid
        (QKnxAdditionalInfo.create QKnxAdditionalInfo.EscCode [0x00, 0x00]) = false := by
  have h1 := (additionalInfo_valid_iff QKnxAdditionalInfo.BusmonitorStatusInfo [0x00]
    (by decide)).1
  have h2 := (additionalInfo_valid_iff QKnxAdditionalInfo.BusmonitorStatusInfo [0x00, 0x00]
    (by decide)).1
  have h3 := (additionalInfo_valid_iff QKnxAdditionalInfo.Reserved [0x00] (by decide)).1
  have h4 := (additionalInfo_valid_iff QKnxAdditionalInfo.EscCode [0x00, 0x00] (by decide)).1
  refine ⟨h1.mpr ⟨by decide, by simp [QKnxAdditionalInfo.Fits]⟩, ?_, ?_, ?_⟩
  · rw [Bool.eq_false_iff]
    exact fun h => absurd (h2.mp h).2 (by simp [QKnxAdditionalInfo.Fits])
  · rw [Bool.eq_false_iff]
    exact fun h => absurd (h3.mp h).2 (by simp [QKnxAdditionalInfo.Fits])
  · rw [Bool.eq_false_iff]
    exact fun h => absurd (h4.mp h).2 (by simp [QKnxAdditionalInfo.Fits])

/-- C16: for a type id and data that are accepted (at most 252 bytes, of a length
that fits the type) the bytes of the additional info are the type id, the data
length and the data, `length + 2` bytes in all; for a type id and data that are
rejected the object has size 0, its bytes are empty and it is invalid. -/
theorem additionalInfo_bytes (type : Nat) (data : List Nat) (htype : type < 256) :
    (data.length ≤ 252 ∧ QKnxAdditionalInfo.Fits type data.length →
        QKnxAdditionalInfo.bytes (QKnxAdditionalInfo.create type data)
            = type :: data.length :: data
          ∧ QKnxAdditionalInfo.size (QKnxAdditionalInfo.create type data) = data.length + 2
          ∧ QKnxAdditionalInfo.rawData type data = type :: data.length :: data)
      ∧ (¬ (data.length ≤ 252 ∧ QKnxAdditionalInfo.Fits type data.length) →
        QKnxAdditionalInfo.size (QKnxAdditionalInfo.create type data) = 0
          ∧ QKnxAdditionalInfo.bytes (QKnxAdditionalInfo.create type data) = []
          ∧ QKnxAdditionalInfo.isValid (QKnxAdditionalInfo.create type data) = false
          ∧ QKnxAdditionalInfo.rawData type data = []) := by
  have hvalid := isValidData_iff type data
  constructor
  · intro h
    have hd : QKnxAdditionalInfo.isValidData type data = true := hvalid.mpr h
    have hv : QKnxAdditionalInfo.isValid (QKnxAdditionalInfo.create type data) = true := by
      rw [create_isValid type data htype]
      exact hd
    have hc : QKnxAdditionalInfo.create type data = type :: data.length :: data := by
      rw [create_eq type data htype, if_pos hd]
    have h1 : data.length % 256 = data.length := by omega
    refine ⟨?_, ?_, ?_⟩
    · unfold QKnxAdditionalInfo.bytes
      rw [if_pos hv, hc]
    · rw [hc]; simp [QKnxAdditionalInfo.size]
    · unfold QKnxAdditionalInfo.rawData
      rw [if_pos hd, h1, Nat.mod_eq_of_lt htype]
      rfl
  · intro h
    have hd : ¬ QKnxAdditionalInfo.isValidData type data = true := fun e => h (hvalid.mp e)
    have hc : QKnxAdditionalInfo.create type data = [] := by
      rw [create_eq type data htype, if_neg hd]
    refine ⟨by rw [hc]; rfl, by rw [hc]; rfl, by rw [hc]; exact isValid_nil, ?_⟩
    unfold QKnxAdditionalInfo.rawData
    rw [if_neg hd]

/-- C16, on the example of the specification: BusmonitorStatus with the byte
0x00 has the bytes 0x03, 0x01, 0x00; with two bytes it is empty. -/
theorem additionalInfo_bytes_witness :
    QKnxAdditionalInfo.bytes
        (QKnxAdditionalInfo.create QKnxAdditionalInfo.BusmonitorStatusInfo [0x00])
        = [0x03, 0x01, 0x00]
      ∧ QKnxAdditionalInfo.bytes
        (QKnxAdditionalInfo.create QKnxAdditionalInfo.BusmonitorStatusInfo [0x00, 0x00]) = []
      ∧ QKnxAdditionalInfo.size
        (QKnxAdditionalInfo.create QKnxAdditionalInfo.BusmonitorStatusInfo [0x00, 0x00]) = 0 :=
  ⟨((additionalInfo_bytes QKnxAdditionalInfo.BusmonitorStatusInfo [0x00] (by decide)).1
      ⟨by decide, by simp [QKnxAdditionalInfo.Fits]⟩).1,
   ((additionalInfo_bytes QKnxAdditionalInfo.BusmonitorStatusInfo [0x00, 0x00] (by decide)).2
      (by simp [QKnxAdditionalInfo.Fits])).2.1,
   ((additionalInfo_bytes QKnxAdditionalInfo.BusmonitorStatusInfo [0x00, 0x00] (by decide)).2
      (by simp [QKnxAdditionalInfo.Fits])).1⟩

/-- C17, as the code has it: for the type id Reserved (0x00) `expectedDataSize`
returns -1, the mark of an unknown type, and yet sets `isFixedSize` to true;
for every type id the flag is true exactly when the id is below
RfFastAckInformation (0x0a). -/
theorem expectedDataSize_reserved :
    QKnxAdditionalInfo.expectedDataSize QKnxAdditionalInfo.Reserved = (-1, true)
      ∧ ∀ type : Nat, ((QKnxAdditionalInfo.expectedDataSize type).2 = true ↔ type < 0x0a) := by
  refine ⟨by decide, ?_⟩
  intro type
  simp [QKnxAdditionalInfo.expectedDataSize]

/-! ## Device management frames -/

theorem isValidObject_iff (io : QKnxInterfaceObject) (f : QKnxDeviceManagementFrame) :
    QKnxDeviceManagementFrame.isValidObject io f = true
      ↔ io.isObjectType f.objectType = true ∧ 1 ≤ f.objectInstance
        ∧ io.isMatch f.objectType f.property = true := by
  unfold QKnxDeviceManagementFrame.isValidObject
  by_cases h1 : io.isObjectType f.objectType = true
  · by_cases h2 : f.objectInstance < 1
    · simp [h1, h2]
    · by_cases h3 : io.isMatch f.objectType f.property = true
      · simp [h1, h2, h3]; omega
      · simp [h1, h2, h3]
  · simp [h1]

/-- C18: for a frame whose message code is one of the eight property codes,
`isValid` holds iff the frame has at least 7 bytes, and not more than 7 for a
PropertyRead request, its object type is a registered interface-object type,
its object instance is at least 1, and its property matches the object type. A
frame with a message code that is neither one of these nor a Reset code is
invalid. -/
theorem deviceManagement_isValid_property (io : QKnxInterfaceObject)
    (f : QKnxDeviceManagementFrame)
    (hcode : QKnxDeviceManagementFrame.isPropertyCode f.messageCode = true) :
    (QKnxDeviceManagementFrame.isValid io f = true
        ↔ 7 ≤ f.size ∧ (f.messageCode = MessageCode.PropertyReadRequest → f.size ≤ 7)
          ∧ io.isObjectType f.objectType = true ∧ 1 ≤ f.objectInstance
          ∧ io.isMatch f.objectType f.property = true)
      ∧ ∀ (code : Nat) (si : List Nat),
          QKnxDeviceManagementFrame.isValid io ⟨MessageCode.Other code, si⟩ = false := by
  refine ⟨?_, fun code si => rfl⟩
  obtain ⟨code, si⟩ := f
  rw [← isValidObject_iff io ⟨code, si⟩]
  cases code <;> simp [QKnxDeviceManagementFrame.isPropertyCode] at hcode <;>
    simp only [QKnxDeviceManagementFrame.isValid, QKnxDeviceManagementFrame.size] <;>
    split_ifs <;> simp <;> first
      | omega
      | exact ⟨fun h => ⟨by omega, by omega, h⟩, fun h => h.2.2⟩

/-- C18, on a PropertyRead request of 7 bytes for object type 0, instance 1,
which is valid, and on the same request with one more byte, which is not. -/
theorem deviceManagement_isValid_property_witness :
    QKnxDeviceManagementFrame.isValid exampleInterfaceObject
        ⟨MessageCode.PropertyReadRequest, [0x00, 0x00, 0x01, 0x01, 0x10, 0x01]⟩ = true
      ∧ QKnxDeviceManagementFrame.isValid exampleInterfaceObject
        ⟨MessageCode.PropertyReadRequest, [0x00, 0x00, 0x01, 0x01, 0x10, 0x01, 0x00]⟩ = false := by
  have h1 := (deviceManagement_isValid_property exampleInterfaceObject
    ⟨MessageCode.PropertyReadRequest, [0x00, 0x00, 0x01, 0x01, 0x10, 0x01]⟩ rfl).1
  have h2 := (deviceManagement_isValid_property exampleInterfaceObject
    ⟨MessageCode.PropertyReadRequest, [0x00, 0x00, 0x01, 0x01, 0x10, 0x01, 0x00]⟩ rfl).1
  refine ⟨h1.mpr ⟨by decide, fun _ => by decide, by decide, by decide, by decide⟩, ?_⟩
  rw [Bool.eq_false_iff]
  intro h
  exact absurd ((h2.mp h).2.1 rfl) (by decide)

/-- C19: a frame with the message code ResetRequest or ResetIndication is valid
iff its size is exactly 1 byte; the frame that the message-code constructor
builds for these two codes is valid, and the frame that it builds for a
property message code, with object type 0xFFFF and instance 0, is invalid. -/
theorem deviceManagement_isValid_reset (io : QKnxInterfaceObject)
    (f : QKnxDeviceManagementFrame)
    (hcode : f.messageCode = MessageCode.ResetRequest
      ∨ f.messageCode = MessageCode.ResetIndication) :
    (QKnxDeviceManagementFrame.isValid io f = true ↔ f.size = 1)
      ∧ QKnxDeviceManagementFrame.isValid io
          (QKnxDeviceManagementFrame.create MessageCode.ResetRequest) = true
      ∧ QKnxDeviceManagementFrame.isValid io
          (QKnxDeviceManagementFrame.create MessageCode.ResetIndication) = true
      ∧ ∀ code : MessageCode, QKnxDeviceManagementFrame.isPropertyCode code = true →
          (QKnxDeviceManagementFrame.create code).objectType = 0xFFFF
            ∧ (QKnxDeviceManagementFrame.create code).objectInstance = 0
            ∧ QKnxDeviceManagementFrame.isValid io (QKnxDeviceManagementFrame.create code)
                = false := by
  refine ⟨?_, rfl, rfl, ?_⟩
  · obtain ⟨code, si⟩ := f
    simp only at hcode
    rcases hcode with h | h <;> subst h <;> simp [QKnxDeviceManagementFrame.isValid]
  · intro code hcode
    cases code <;> simp [QKnxDeviceManagementFrame.isPropertyCode] at hcode <;>
      refine ⟨by decide, by decide, ?_⟩ <;>
      simp [QKnxDeviceManagementFrame.isValid, QKnxDeviceManagementFrame.create,
        QKnxDeviceManagementFrame.size, QKnxDeviceManagementFrame.isValidObject,
        QKnxDeviceManagementFrame.objectInstance, QKnxByteStore.byte]

/-- C19, on a ResetRequest of one byte, which is valid, and on a ResetRequest
that is followed by a byte, which is not. -/
theorem deviceManagement_isValid_reset_witness :
    QKnxDeviceManagementFrame.isValid exampleInterfaceObject ⟨MessageCode.ResetRequest, []⟩
        = true
      ∧ QKnxDeviceManagementFrame.isValid exampleInterfaceObject
          ⟨MessageCode.ResetIndication, [0x00]⟩ = false
      ∧ QKnxDeviceManagementFrame.isValid exampleInterfaceObject
          (QKnxDeviceManagementFrame.create MessageCode.PropertyWriteRequest) = false := by
  have h1 := deviceManagement_isValid_reset exampleInterfaceObject
    ⟨MessageCode.ResetRequest, []⟩ (Or.inl rfl)
  have h2 := deviceManagement_isValid_reset exampleInterfaceObject
    ⟨MessageCode.ResetIndication, [0x00]⟩ (Or.inr rfl)
  refine ⟨h1.1.mpr rfl, ?_, (h1.2.2.2 MessageCode.PropertyWriteRequest rfl).2.2⟩
  rw [Bool.eq_false_iff]
  intro h
  exact absurd (h2.1.mp h) (by decide)

/-- C20: for every frame, `isNegativeConfirmation` holds iff the message code is
PropertyReadConfirmation or PropertyWriteConfirmation and the number of
elements, the high nibble of byte 4 of the service information, is 0. -/
theorem deviceManagement_isNegativeConfirmation (f : QKnxDeviceManagementFrame) :
    (f.isNegativeConfirmation = true
        ↔ (f.messageCode = MessageCode.PropertyReadConfirmation
            ∨ f.messageCode = MessageCode.PropertyWriteConfirmation)
          ∧ f.numberOfElements = 0)
      ∧ f.numberOfElements = (QKnxByteStore.byte f.serviceInformation 4 / 16) % 16 := by
  constructor
  · simp [QKnxDeviceManagementFrame.isNegativeConfirmation]
  · unfold QKnxDeviceManagementFrame.numberOfElements
    generalize QKnxByteStore.byte f.serviceInformation 4 = b
    have h1 : b &&& 0xf0 = ((b >>> 4) &&& 0xf) <<< 4 := and_shiftLeft_mask b 0xf 4
    have h2 : (b >>> 4) &&& 0xf = (b >>> 4) % 16 := and_0x0f _
    rw [h1, h2, Nat.shiftLeft_eq, Nat.shiftRight_eq_div_pow, Nat.shiftRight_eq_div_pow]
    omega

/-! ## The 2-byte float encoder -/

theorem truncate_of_nonneg {x : ℚ} (h : 0 ≤ x) : QKnx2ByteFloat.truncate x = ⌊x⌋ := if_pos h

theorem truncate_of_nonpos {x : ℚ} (h : x ≤ 0) : QKnx2ByteFloat.truncate x = ⌈x⌉ := by
  unfold QKnx2ByteFloat.truncate
  split_ifs with h0
  · have : x = 0 := le_antisymm h h0
    subst this
    simp
  · rfl

/-- The function `qRound(float)` gives an integer within 1/2 of its argument, up
to the rounding of the `float` operations. -/
theorem qRound_sub_le (d : ℚ) (hd : |d| ≤ 4096) :
    |(QKnx2ByteFloat.qRound d : ℚ) - d| ≤ 1 / 2 + 1 / 4000 := by
  have hd1 := abs_le.mp hd
  unfold QKnx2ByteFloat.qRound
  by_cases h : 0 ≤ d
  · rw [if_pos h]
    have e1 := toFloat_sub_le (d + 1 / 2)
    rw [abs_of_nonneg (by linarith : 0 ≤ d + 1 / 2), abs_le] at e1
    have hu : 0 ≤ toFloat (d + 1 / 2) := toFloat_nonneg (by linarith)
    rw [truncate_of_nonneg hu]
    have f1 := Int.floor_le (toFloat (d + 1 / 2))
    have f2 := Int.lt_floor_add_one (toFloat (d + 1 / 2))
    rw [abs_le]
    constructor <;> linarith [e1.1, e1.2, hd1.2]
  · rw [if_neg h]
    have h0 : d < 0 := not_le.mp h
    have e1 := toFloat_sub_le (d - 1)
    rw [abs_of_neg (by linarith : d - 1 < 0), abs_le] at e1
    have ht1 : toFloat (d - 1) ≤ 0 := toFloat_nonpos (by linarith)
    rw [truncate_of_nonpos ht1]
    have c1 := Int.le_ceil (toFloat (d - 1))
    have c2 := Int.ceil_lt_add_one (toFloat (d - 1))
    generalize ⌈toFloat (d - 1)⌉ = i at c1 c2 ⊢
    have i1 : i ≤ 0 := by
      have : (i : ℚ) < 1 := by linarith
      have : i < 1 := by exact_mod_cast this
      omega
    have i2 : -4098 ≤ i := by
      have : (-4098 : ℚ) ≤ (i : ℚ) := by linarith [e1.1, e1.2, hd1.1]
      exact_mod_cast this
    rw [toFloat_intCast i (abs_lt.mpr ⟨by omega, by omega⟩)]
    have a1 : -(1 / 4000) ≤ d - i := by linarith [e1.1, e1.2, hd1.1]
    have a2 : d - i ≤ 1 + 1 / 4000 := by linarith [e1.1, e1.2, hd1.1]
    have e2 := toFloat_sub_le (d - i)
    have a3 : |d - (i : ℚ)| ≤ 2 := abs_le.mpr ⟨by linarith, by linarith⟩
    rw [abs_le] at e2
    have b1 : 0 ≤ toFloat (d - i) + 1 / 2 := by linarith [e2.1]
    have b2 : toFloat (d - i) + 1 / 2 ≤ 3 := by linarith [e2.2]
    have e3 := toFloat_sub_le (toFloat (d - i) + 1 / 2)
    rw [abs_of_nonneg b1, abs_le] at e3
    have hu : 0 ≤ toFloat (toFloat (d - i) + 1 / 2) := toFloat_nonneg b1
    rw [truncate_of_nonneg hu]
    have f1 := Int.floor_le (toFloat (toFloat (d - i) + 1 / 2))
    have f2 := Int.lt_floor_add_one (toFloat (toFloat (d - i) + 1 / 2))
    push_cast
    rw [abs_le]
    constructor <;> linarith [e2.1, e2.2, e3.1, e3.2]

theorem qRound_sign (d : ℚ) (hd : |d| ≤ 4096) :
    (d ≤ 0 → QKnx2ByteFloat.qRound d ≤ 0) ∧ (0 ≤ d → 0 ≤ QKnx2ByteFloat.qRound d) := by
  constructor
  · intro h
    have h1 := abs_le.mp (qRound_sub_le d hd)
    have : (QKnx2ByteFloat.qRound d : ℚ) < 1 := by linarith [h1.2]
    have : QKnx2ByteFloat.qRound d < 1 := by exact_mod_cast this
    omega
  · intro h
    unfold QKnx2ByteFloat.qRound
    rw [if_pos h, truncate_of_nonneg (toFloat_nonneg (by linarith))]
    exact Int.floor_nonneg.mpr (toFloat_nonneg (by linarith))

theorem abs_le_of_range {v : ℚ} (hlo : -67108864 / 100 ≤ v) (hhi : v ≤ 67076096 / 100) :
    |v| ≤ 67108864 / 100 :=
  abs_le.mpr ⟨by linarith, by linarith⟩

theorem setValueExponent_small (v : ℚ) (h : |v| ≤ 2048 / 100) :
    QKnx2ByteFloat.setValueExponent v = 0 := by
  unfold QKnx2ByteFloat.setValueExponent
  rw [if_neg (not_lt.mpr h)]

/-- The exponent that `setValue` chooses for a value of the range of the main
type above 20.48 in absolute value: the `E` with `1024 ≤ 100 * |v| / 2^E < 2048`. -/
theorem setValueExponent_large (v : ℚ) (hv : |v| ≤ 67108864 / 100) (h : 2048 / 100 < |v|) :
    1 ≤ QKnx2ByteFloat.setValueExponent v ∧ QKnx2ByteFloat.setValueExponent v ≤ 16
      ∧ 1024 * (2 : ℚ) ^ QKnx2ByteFloat.setValueExponent v ≤ 100 * |v|
      ∧ 100 * |v| < 2048 * (2 : ℚ) ^ QKnx2ByteFloat.setValueExponent v := by
  have habs : |v * 100 / 2048| = |v| * 100 / 2048 := by
    rw [abs_div, abs_mul]
    norm_num
  have hq1 : (1 : ℚ) < |v * 100 / 2048| := by
    rw [habs, lt_div_iff₀ (by norm_num)]
    linarith
  have hq : (0 : ℚ) < |v * 100 / 2048| := by linarith
  have hx : v * 100 / 2048 ≠ 0 := abs_pos.mp hq
  have hq2 : |v * 100 / 2048| < (2 : ℚ) ^ (16 : Int) := by
    rw [habs, div_lt_iff₀ (by norm_num)]
    norm_num
    linarith
  have l0 : (0 : Int) ≤ Int.log 2 |v * 100 / 2048| := by
    rw [← Int.zpow_le_iff_le_log (by norm_num) hq]
    norm_num
    linarith
  have l16 : Int.log 2 |v * 100 / 2048| < 16 := by
    rw [← Int.lt_zpow_iff_log_lt (by norm_num) hq]
    exact_mod_cast hq2
  obtain ⟨k, hk⟩ := Int.eq_ofNat_of_zero_le l0
  have hE : QKnx2ByteFloat.setValueExponent v = k + 1 := by
    unfold QKnx2ByteFloat.setValueExponent
    rw [if_pos h, hk]
    omega
  have hs := log_spec hx
  rw [hk, habs] at hs
  have hs1 : (2 : ℚ) ^ k ≤ |v| * 100 / 2048 := by
    have := hs.1
    rwa [zpow_natCast] at this
  have hs2 : |v| * 100 / 2048 < (2 : ℚ) ^ (k + 1) := by
    have := hs.2
    rwa [show ((k : Int) + 1) = ((k + 1 : Nat) : Int) from by push_cast; ring,
      zpow_natCast] at this
  rw [le_div_iff₀ (by norm_num)] at hs1
  rw [div_lt_iff₀ (by norm_num)] at hs2
  rw [hE]
  refine ⟨by omega, by omega, ?_, ?_⟩
  · rw [pow_succ]
    linarith
  · linarith

/-- The number `100 * v / 2^E` that `setValue` rounds to the mantissa is at most
2048 in absolute value. -/
theorem scaled_le (v : ℚ) (hv : |v| ≤ 67108864 / 100) :
    |100 * v / (2 : ℚ) ^ QKnx2ByteFloat.setValueExponent v| ≤ 2048 := by
  have hp : (0 : ℚ) < (2 : ℚ) ^ QKnx2ByteFloat.setValueExponent v := by positivity
  rw [abs_div, abs_mul, abs_of_pos hp, div_le_iff₀ hp]
  norm_num
  rcases le_or_lt |v| (2048 / 100) with h | h
  · rw [setValueExponent_small v h]
    linarith
  · have := (setValueExponent_large v hv h).2.2.2
    linarith

theorem zpow_neg_natCast_mul (v : ℚ) (E : Nat) :
    v * (2 : ℚ) ^ (-(E : Int)) * 100 = 100 * v / (2 : ℚ) ^ E := by
  rw [zpow_neg, zpow_natCast]
  field_simp
  ring

/-- The `float` that `setValue` hands to `qRound` is within 1/4000 of
`100 * v / 2^E`, and has its sign. -/
theorem scaled_float (v : ℚ) (E : Nat) (hx : |100 * v / (2 : ℚ) ^ E| ≤ 2048) :
    |toFloat (toFloat (v * toFloat ((2 : ℚ) ^ (-(E : Int)))) * 100) - 100 * v / (2 : ℚ) ^ E|
        ≤ 1 / 4000
      ∧ (v ≤ 0 → toFloat (toFloat (v * toFloat ((2 : ℚ) ^ (-(E : Int)))) * 100) ≤ 0)
      ∧ (0 ≤ v → 0 ≤ toFloat (toFloat (v * toFloat ((2 : ℚ) ^ (-(E : Int)))) * 100)) := by
  rw [toFloat_two_zpow]
  have hp : (0 : ℚ) < (2 : ℚ) ^ (-(E : Int)) := by positivity
  refine ⟨?_, ?_, ?_⟩
  · have h1 := rel_mul 100 (toFloat_rel (v * (2 : ℚ) ^ (-(E : Int))))
    have h2 := rel_step h1 (toFloat_rel (toFloat (v * (2 : ℚ) ^ (-(E : Int))) * 100))
      (by norm_num)
    rw [zpow_neg_natCast_mul] at h2
    refine h2.trans ?_
    have := mul_le_mul_of_nonneg_left hx
      (by norm_num : (0 : ℚ) ≤ 1 / 16777216 + 1 / 16777216 + 1 / 16777216 * (1 / 16777216))
    refine this.trans ?_
    norm_num
  · intro h
    apply toFloat_nonpos
    have := toFloat_nonpos (mul_nonpos_of_nonpos_of_nonneg h hp.le)
    linarith
  · intro h
    apply toFloat_nonneg
    have := toFloat_nonneg (mul_nonneg h hp.le)
    linarith

/-- The mantissa that `setValue` computes for a value of the range of the main
type is within 1/2 + 1/2000 of `100 * v / 2^E` and has the sign of the value. -/
theorem setValueMantissa_spec (v : ℚ) (hv : |v| ≤ 67108864 / 100) :
    |(QKnx2ByteFloat.setValueMantissa v (QKnx2ByteFloat.setValueExponent v) : ℚ)
        - 100 * v / (2 : ℚ) ^ QKnx2ByteFloat.setValueExponent v| ≤ 1 / 2 + 1 / 2000
      ∧ (v < 0 → QKnx2ByteFloat.setValueMantissa v (QKnx2ByteFloat.setValueExponent v) ≤ 0)
      ∧ (¬ v < 0 → 0 ≤ QKnx2ByteFloat.setValueMantissa v (QKnx2ByteFloat.setValueExponent v)) := by
  have hx := scaled_le v hv
  obtain ⟨hd, hneg, hpos⟩ := scaled_float v _ hx
  unfold QKnx2ByteFloat.setValueMantissa
  generalize toFloat (toFloat (v * toFloat ((2 : ℚ) ^ (-(QKnx2ByteFloat.setValueExponent v : Int))))
    * 100) = d at hd hneg hpos ⊢
  generalize 100 * v / (2 : ℚ) ^ QKnx2ByteFloat.setValueExponent v = x at hx hd
  have hx1 := abs_le.mp hx
  have hd1 := abs_le.mp hd
  have hd4 : |d| ≤ 4096 := abs_le.mpr ⟨by linarith, by linarith⟩
  have hq := abs_le.mp (qRound_sub_le d hd4)
  have hs := qRound_sign d hd4
  refine ⟨abs_le.mpr ⟨by linarith, by linarith⟩, fun h => hs.1 (hneg h.le),
    fun h => hs.2 (hpos (not_lt.mp h))⟩

theorem or_sign_exponent (s m E : Nat) (hm : m < 2048) (hE : E ≤ 15) :
    (32768 * s + m) ||| (E <<< 11) = 32768 * s + E * 2048 + m := by
  have h1 := Nat.mul_add_lt_is_or (i := 15) (b := m) (by omega) s
  have h2 := Nat.mul_add_lt_is_or (i := 11) (b := m) (by omega) E
  have h3 := Nat.mul_add_lt_is_or (i := 15) (b := 2 ^ 11 * E + m) (by omega) s
  have e1 : E <<< 11 = 2 ^ 11 * E := by rw [Nat.shiftLeft_eq, Nat.mul_comm]
  have e0 : 32768 * s + m = 2 ^ 15 * s + m := by norm_num
  rw [e0, e1, h1, Nat.or_assoc, Nat.or_comm m, ← h2, ← h3]
  omega

theorem fromBytes_bytes (w : Nat) (hw : w < 65536) :
    QKnxUtils.QUint16.fromBytes (QKnxUtils.QUint16.bytes w) = w := by
  simp only [QKnxUtils.QUint16.bytes, QKnxUtils.QUint16.fromBytes, Nat.shiftRight_eq_div_pow]
  omega

/-- The decoder reads back the mantissa and the exponent that the encoder packed. -/
theorem encode_decode (value : ℚ) (M : Int) (E : Nat) (hE : E ≤ 15)
    (hM1 : -2048 ≤ M) (hM2 : M ≤ 2047) (hneg : value < 0 → M ≤ 0)
    (hpos : ¬ value < 0 → 0 ≤ M) :
    QKnx2ByteFloat.encode value M E < 65536
      ∧ QKnx2ByteFloat.exponent (QKnx2ByteFloat.encode value M E) = E
      ∧ QKnx2ByteFloat.mantissa (QKnx2ByteFloat.encode value M E) = M := by
  have key : ∀ s m : Nat, s ≤ 1 → m < 2048 → (m : Int) - 2048 * (s : Int) = M →
      ∀ w : Nat, w = ((32768 * s + m) ||| (E <<< 11)) % 65536 →
      w < 65536 ∧ QKnx2ByteFloat.exponent w = E ∧ QKnx2ByteFloat.mantissa w = M := by
    intro s m hs hm hsm w hw
    rw [or_sign_exponent s m E hm hE] at hw
    have hw1 : w = 32768 * s + E * 2048 + m := by omega
    have hw2 : w < 65536 := by omega
    refine ⟨hw2, ?_, ?_⟩
    · rw [exponent_eq, and_0x0f, Nat.shiftRight_eq_div_pow]
      omega
    · rw [mantissa_eq w hw2, and_0x7ff, Nat.shiftRight_eq_div_pow]
      omega
  unfold QKnx2ByteFloat.encode
  by_cases hv : value < 0
  · have hM0 := hneg hv
    simp only [hv, if_true]
    have hu : (M % 65536).toNat < 65536 := by omega
    rw [and_0x87ff _ hu]
    exact key ((M % 65536).toNat / 32768) ((M % 65536).toNat % 2048) (by omega) (by omega)
      (by omega) _ rfl
  · have hM0 := hpos hv
    simp only [hv, if_false]
    have e : (M % 65536).toNat = 32768 * 0 + (M % 65536).toNat := by omega
    rw [e]
    exact key 0 (M % 65536).toNat (by omega) (by omega) (by omega) _ rfl

/-- What an accepted call of `setValue` stores, for a value of the range of the
main type. -/
theorem setValue_accepted (d : QKnx2ByteFloat) (v : ℚ) (hv : |v| ≤ 67108864 / 100)
    (h : (d.setValue v).1 = true) :
    ¬ (v < toFloat d.minimum ∨ v > toFloat d.maximum)
      ∧ QKnx2ByteFloat.setValueExponent v ≤ 15
      ∧ -2048 ≤ QKnx2ByteFloat.setValueMantissa v (QKnx2ByteFloat.setValueExponent v)
      ∧ QKnx2ByteFloat.setValueMantissa v (QKnx2ByteFloat.setValueExponent v) ≤ 2047
      ∧ (d.setValue v).2.storedExponent = QKnx2ByteFloat.setValueExponent v
      ∧ (d.setValue v).2.storedMantissa
          = QKnx2ByteFloat.setValueMantissa v (QKnx2ByteFloat.setValueExponent v) := by
  unfold QKnx2ByteFloat.setValue at h ⊢
  by_cases hr : v < toFloat d.minimum ∨ v > toFloat d.maximum
  · simp [hr] at h
  · simp only [hr, if_false] at h ⊢
    by_cases hc : QKnx2ByteFloat.setValueExponent v > 15
        ∨ QKnx2ByteFloat.setValueMantissa v (QKnx2ByteFloat.setValueExponent v) > 2047
        ∨ QKnx2ByteFloat.setValueMantissa v (QKnx2ByteFloat.setValueExponent v) < -2048
    · simp [hc] at h
    · simp only [hc, if_false]
      have hE : QKnx2ByteFloat.setValueExponent v ≤ 15 := by omega
      have hM1 : -2048 ≤ QKnx2ByteFloat.setValueMantissa v (QKnx2ByteFloat.setValueExponent v) := by
        omega
      have hM2 : QKnx2ByteFloat.setValueMantissa v (QKnx2ByteFloat.setValueExponent v) ≤ 2047 := by
        omega
      have hs := setValueMantissa_spec v hv
      obtain ⟨hw, hexp, hman⟩ := encode_decode v _ _ hE hM1 hM2 hs.2.1 hs.2.2
      refine ⟨not_false, hE, hM1, hM2, ?_, ?_⟩
      · simp only [QKnx2ByteFloat.storedExponent]
        rw [fromBytes_bytes _ hw, hexp]
      · simp only [QKnx2ByteFloat.storedMantissa]
        rw [fromBytes_bytes _ hw, hman]

/-- The number read back from a datapoint is within `2^-23` of
`0.01 * M * 2^E` for the stored mantissa and exponent, relative to its
magnitude. -/
theorem storedValue_rel (d : QKnx2ByteFloat) :
    |d.storedValue - (1 / 100 : ℚ) * (d.storedMantissa : ℚ) * (2 : ℚ) ^ d.storedExponent|
      ≤ 1 / 8388608 * |(1 / 100 : ℚ) * (d.storedMantissa : ℚ) * (2 : ℚ) ^ d.storedExponent| :=
  value_rel d.bytes

theorem setValue_eq_of (d : QKnx2ByteFloat) (v : ℚ) (E : Nat) (M : Int)
    (hr : toFloat d.minimum ≤ v ∧ v ≤ toFloat d.maximum)
    (hE : QKnx2ByteFloat.setValueExponent v = E)
    (hM : QKnx2ByteFloat.setValueMantissa v E = M) :
    d.setValue v
      = if E > 15 ∨ M > 2047 ∨ M < -2048 then (false, d)
        else (true, { d with bytes := QKnxUtils.QUint16.bytes (QKnx2ByteFloat.encode v M E) }) := by
  have hr1 : ¬ (v < toFloat d.minimum ∨ v > toFloat d.maximum) := by
    intro h
    rcases h with h | h
    · exact absurd hr.1 (not_le.mpr h)
    · exact absurd hr.2 (not_le.mpr h)
  unfold QKnx2ByteFloat.setValue
  simp only [hr1, if_false, hE, hM]

/-- The distance between the number read back and the value, from the distance
between the mantissa and `100 * v / 2^E`. -/
theorem readback_of (v val : ℚ) (M : Int) (E : Nat) (hM1 : -2048 ≤ M) (hM2 : M ≤ 2047)
    (hm : |(M : ℚ) - 100 * v / (2 : ℚ) ^ E| ≤ 1 / 2 + 1 / 2000)
    (hval : |val - (1 / 100 : ℚ) * (M : ℚ) * (2 : ℚ) ^ E|
      ≤ 1 / 8388608 * |(1 / 100 : ℚ) * (M : ℚ) * (2 : ℚ) ^ E|) :
    |val - v| < (1 / 100 : ℚ) * (2 : ℚ) ^ E := by
  have hp : (0 : ℚ) < (2 : ℚ) ^ E := by positivity
  have hMabs : |(M : ℚ)| ≤ 2048 := by
    rw [abs_le]
    constructor
    · exact_mod_cast hM1
    · have : (M : ℚ) ≤ 2047 := by exact_mod_cast hM2
      linarith
  have e1 : |(1 / 100 : ℚ) * (M : ℚ) * (2 : ℚ) ^ E| = 1 / 100 * |(M : ℚ)| * (2 : ℚ) ^ E := by
    rw [abs_mul, abs_mul, abs_of_pos hp]
    norm_num
  rw [e1] at hval
  have e2 : (1 / 100 : ℚ) * (M : ℚ) * (2 : ℚ) ^ E - v
      = ((M : ℚ) - 100 * v / (2 : ℚ) ^ E) * ((1 / 100 : ℚ) * (2 : ℚ) ^ E) := by
    field_simp
  have h2 : |(1 / 100 : ℚ) * (M : ℚ) * (2 : ℚ) ^ E - v|
      ≤ (1 / 2 + 1 / 2000) * ((1 / 100 : ℚ) * (2 : ℚ) ^ E) := by
    rw [e2, abs_mul, abs_of_pos (by positivity : (0 : ℚ) < (1 / 100 : ℚ) * (2 : ℚ) ^ E)]
    exact mul_le_mul_of_nonneg_right hm (by positivity)
  have h3 : |val - v| ≤ |val - (1 / 100 : ℚ) * (M : ℚ) * (2 : ℚ) ^ E|
      + |(1 / 100 : ℚ) * (M : ℚ) * (2 : ℚ) ^ E - v| := by
    have := abs_add (val - (1 / 100 : ℚ) * (M : ℚ) * (2 : ℚ) ^ E)
      ((1 / 100 : ℚ) * (M : ℚ) * (2 : ℚ) ^ E - v)
    simp only [sub_add_sub_cancel] at this
    exact this
  have h4 : 1 / 100 * |(M : ℚ)| * (2 : ℚ) ^ E ≤ 1 / 100 * 2048 * (2 : ℚ) ^ E := by
    apply mul_le_mul_of_nonneg_right _ hp.le
    linarith
  nlinarith

/-- C11: when `setValue(v)` returns true for a value `v` of the range
-671088.64 to 670760.96 of the 2-byte float, `v` has passed the range check of
the datapoint, and the number that `value()` decodes afterwards differs from `v`
by less than `0.01 * 2^E`, where `E` is the exponent in the stored bytes. The
`float` and `double` operations of `setValue` and `value()` are rounded as the
code rounds them. -/
theorem setValue_readback (d : QKnx2ByteFloat) (v : ℚ)
    (hlo : -67108864 / 100 ≤ v) (hhi : v ≤ 67076096 / 100)
    (hset : (d.setValue v).1 = true) :
    (toFloat d.minimum ≤ v ∧ v ≤ toFloat d.maximum)
      ∧ |(d.setValue v).2.storedValue - v|
        < (1 / 100 : ℚ) * (2 : ℚ) ^ (d.setValue v).2.storedExponent := by
  have hv := abs_le_of_range hlo hhi
  obtain ⟨hr, _, hM1, hM2, hexp, hman⟩ := setValue_accepted d v hv hset
  refine ⟨⟨not_lt.mp (fun h => hr (Or.inl h)), not_lt.mp (fun h => hr (Or.inr h))⟩, ?_⟩
  have hrel := storedValue_rel (d.setValue v).2
  rw [hexp, hman] at hrel
  rw [hexp]
  exact readback_of v _ _ _ hM1 hM2 (setValueMantissa_spec v hv).1 hrel

theorem setValue_keeps_range (d : QKnx2ByteFloat) (v : ℚ) :
    (d.setValue v).2.minimum = d.minimum ∧ (d.setValue v).2.maximum = d.maximum := by
  unfold QKnx2ByteFloat.setValue
  dsimp only
  split_ifs <;> exact ⟨rfl, rfl⟩

theorem truncate_eq_of_nonneg {x : ℚ} (n : Int) (h0 : 0 ≤ x) (h1 : (n : ℚ) ≤ x)
    (h2 : x < (n : ℚ) + 1) : QKnx2ByteFloat.truncate x = n := by
  rw [truncate_of_nonneg h0, Int.floor_eq_iff]
  exact ⟨h1, h2⟩

theorem truncate_eq_of_neg {x : ℚ} (n : Int) (h0 : x < 0) (h1 : (n : ℚ) - 1 < x)
    (h2 : x ≤ (n : ℚ)) : QKnx2ByteFloat.truncate x = n := by
  rw [truncate_of_nonpos h0.le, Int.ceil_eq_iff]
  exact ⟨h1, h2⟩

/-- The `double` literal `-671088.64`. -/
theorem toDouble_minimum : toDouble (-67108864 / 100) = (-5764607523034235 / 8589934592) := by
  apply roundToPrecision_eval (19) (-5764607523034235) <;> norm_num [abs_of_neg, abs_of_pos]

/-- The `double` literal `670760.96`. -/
theorem toDouble_maximum : toDouble (67076096 / 100) = (720224096658391 / 1073741824) := by
  apply roundToPrecision_eval (19) (5761792773267128) <;> norm_num [abs_of_neg, abs_of_pos]

/-- The lower bound of the main type as `float`: -671088.625. -/
theorem toFloat_minimum : toFloat (-5764607523034235 / 8589934592) = (-5368709 / 8) := by
  apply roundToPrecision_eval (19) (-10737418) <;> norm_num [abs_of_neg, abs_of_pos]

/-- The upper bound of the main type as `float`: 670760.9375. -/
theorem toFloat_maximum : toFloat (720224096658391 / 1073741824) = (10732175 / 16) := by
  apply roundToPrecision_eval (19) (10732175) <;> norm_num [abs_of_neg, abs_of_pos]

/-- The `double` literal `-459.6`. -/
theorem toDouble_fahrenheit : toDouble (-4596 / 10) = (-4042684353006797 / 8796093022208) := by
  apply roundToPrecision_eval (8) (-8085368706013594) <;> norm_num [abs_of_neg, abs_of_pos]

/-- The `double` -459.6 as `float`: -459.600006103515625. -/
theorem toFloat_fahrenheit : toFloat (-4042684353006797 / 8796093022208) = (-15060173 / 32768) := by
  apply roundToPrecision_eval (8) (-15060173) <;> norm_num [abs_of_neg, abs_of_pos]

theorem toFloat_celsius_minimum : toFloat (-273) = (-273) := by
  apply roundToPrecision_eval (8) (-8945664) <;> norm_num [abs_of_neg, abs_of_pos]

theorem toFloat_celsius_maximum : toFloat 670760 = 670760 := by
  apply roundToPrecision_eval (19) (10732160) <;> norm_num [abs_of_neg, abs_of_pos]

/-- The mantissa of 20.479f for the exponent 0: the product with 100 is rounded to
2047.9000244140625, and the sum with 0.5f lies halfway between two `float`
numbers and is rounded to 2048.39990234375. -/
theorem setValueMantissa_twentyPoint479 :
    QKnx2ByteFloat.setValueMantissa (twentyPoint479) 0 = 2048 := by
  unfold QKnx2ByteFloat.setValueMantissa
  rw [toFloat_two_zpow]
  have p1 : toFloat (twentyPoint479 * (2 : ℚ) ^ (-((0 : Nat) : Int))) = (5368447 / 262144) := by
    apply roundToPrecision_eval (4) (10736894) <;> norm_num [abs_of_neg, abs_of_pos, twentyPoint479]
  rw [p1]
  have p2 : toFloat ((5368447 / 262144) * 100) = (16776397 / 8192) := by
    apply roundToPrecision_eval (10) (16776397) <;> norm_num [abs_of_neg, abs_of_pos]
  rw [p2]
  unfold QKnx2ByteFloat.qRound
  rw [if_pos (by norm_num)]
  have q1 : toFloat ((16776397 / 8192) + 1 / 2) = (4195123 / 2048) := by
    apply roundToPrecision_eval_tie (11) (8390246) (8390246) <;>
      norm_num [abs_of_neg, abs_of_pos]
  rw [q1]
  have q2 : QKnx2ByteFloat.truncate (4195123 / 2048) = 2048 :=
    truncate_eq_of_nonneg (2048) (by norm_num) (by norm_num) (by norm_num)
  rw [q2]

/-- The mantissa of -20.479f for the exponent 0. -/
theorem setValueMantissa_neg_twentyPoint479 :
    QKnx2ByteFloat.setValueMantissa (-twentyPoint479) 0 = (-2048) := by
  unfold QKnx2ByteFloat.setValueMantissa
  rw [toFloat_two_zpow]
  have p1 : toFloat (-twentyPoint479 * (2 : ℚ) ^ (-((0 : Nat) : Int))) = (-5368447 / 262144) := by
    apply roundToPrecision_eval (4) (-10736894) <;>
      norm_num [abs_of_neg, abs_of_pos, twentyPoint479]
  rw [p1]
  have p2 : toFloat ((-5368447 / 262144) * 100) = (-16776397 / 8192) := by
    apply roundToPrecision_eval (10) (-16776397) <;> norm_num [abs_of_neg, abs_of_pos]
  rw [p2]
  unfold QKnx2ByteFloat.qRound
  rw [if_neg (by norm_num)]
  have q1 : toFloat ((-16776397 / 8192) - 1) = (-4196147 / 2048) := by
    apply roundToPrecision_eval_tie (11) (-8392295) (-8392294) <;>
      norm_num [abs_of_neg, abs_of_pos]
  rw [q1]
  have q2 : QKnx2ByteFloat.truncate (-4196147 / 2048) = (-2048) :=
    truncate_eq_of_neg (-2048) (by norm_num) (by norm_num) (by norm_num)
  rw [q2]
  rw [toFloat_intCast (-2048) (by decide)]
  have q3 : toFloat ((-16776397 / 8192) - (((-2048) : Int) : ℚ)) = (819 / 8192) := by
    apply roundToPrecision_eval (-4) (13418496) <;> norm_num [abs_of_neg, abs_of_pos]
  rw [q3]
  have q4 : toFloat ((819 / 8192) + 1 / 2) = (4915 / 8192) := by
    apply roundToPrecision_eval (-1) (10065920) <;> norm_num [abs_of_neg, abs_of_pos]
  rw [q4]
  have q5 : QKnx2ByteFloat.truncate (4915 / 8192) = 0 :=
    truncate_eq_of_nonneg (0) (by norm_num) (by norm_num) (by norm_num)
  rw [q5]
  rfl

/-- The mantissa of -273 for the exponent 4. -/
theorem setValueMantissa_celsius :
    QKnx2ByteFloat.setValueMantissa (-273) 4 = (-1706) := by
  unfold QKnx2ByteFloat.setValueMantissa
  rw [toFloat_two_zpow]
  have p1 : toFloat (-273 * (2 : ℚ) ^ (-((4 : Nat) : Int))) = (-273 / 16) := by
    apply roundToPrecision_eval (4) (-8945664) <;> norm_num [abs_of_neg, abs_of_pos]
  rw [p1]
  have p2 : toFloat ((-273 / 16) * 100) = (-6825 / 4) := by
    apply roundToPrecision_eval (10) (-13977600) <;> norm_num [abs_of_neg, abs_of_pos]
  rw [p2]
  unfold QKnx2ByteFloat.qRound
  rw [if_neg (by norm_num)]
  have q1 : toFloat ((-6825 / 4) - 1) = (-6829 / 4) := by
    apply roundToPrecision_eval (10) (-13985792) <;> norm_num [abs_of_neg, abs_of_pos]
  rw [q1]
  have q2 : QKnx2ByteFloat.truncate (-6829 / 4) = (-1707) :=
    truncate_eq_of_neg (-1707) (by norm_num) (by norm_num) (by norm_num)
  rw [q2]
  rw [toFloat_intCast (-1707) (by decide)]
  have q3 : toFloat ((-6825 / 4) - (((-1707) : Int) : ℚ)) = (3 / 4) := by
    apply roundToPrecision_eval (-1) (12582912) <;> norm_num [abs_of_neg, abs_of_pos]
  rw [q3]
  have q4 : toFloat ((3 / 4) + 1 / 2) = (5 / 4) := by
    apply roundToPrecision_eval (0) (10485760) <;> norm_num [abs_of_neg, abs_of_pos]
  rw [q4]
  have q5 : QKnx2ByteFloat.truncate (5 / 4) = 1 :=
    truncate_eq_of_nonneg (1) (by norm_num) (by norm_num) (by norm_num)
  rw [q5]
  rfl

/-- The mantissa of -5.2f for the exponent 0: the product with 100 is rounded
to -520. -/
theorem setValueMantissa_minusFivePointTwo :
    QKnx2ByteFloat.setValueMantissa (minusFivePointTwo) 0 = (-520) := by
  unfold QKnx2ByteFloat.setValueMantissa
  rw [toFloat_two_zpow]
  have p1 : toFloat (minusFivePointTwo * (2 : ℚ) ^ (-((0 : Nat) : Int)))
      = (-5452595 / 1048576) := by
    apply roundToPrecision_eval (2) (-10905190) <;>
      norm_num [abs_of_neg, abs_of_pos, minusFivePointTwo]
  rw [p1]
  have p2 : toFloat ((-5452595 / 1048576) * 100) = (-520) := by
    apply roundToPrecision_eval (9) (-8519680) <;> norm_num [abs_of_neg, abs_of_pos]
  rw [p2]
  unfold QKnx2ByteFloat.qRound
  rw [if_neg (by norm_num)]
  have q1 : toFloat ((-520) - 1) = (-521) := by
    apply roundToPrecision_eval (9) (-8536064) <;> norm_num [abs_of_neg, abs_of_pos]
  rw [q1]
  have q2 : QKnx2ByteFloat.truncate (-521) = (-521) :=
    truncate_eq_of_neg (-521) (by norm_num) (by norm_num) (by norm_num)
  rw [q2]
  rw [toFloat_intCast (-521) (by decide)]
  have q3 : toFloat ((-520) - (((-521) : Int) : ℚ)) = 1 := by
    apply roundToPrecision_eval (0) (8388608) <;> norm_num [abs_of_neg, abs_of_pos]
  rw [q3]
  have q4 : toFloat (1 + 1 / 2) = (3 / 2) := by
    apply roundToPrecision_eval (0) (12582912) <;> norm_num [abs_of_neg, abs_of_pos]
  rw [q4]
  have q5 : QKnx2ByteFloat.truncate (3 / 2) = 1 :=
    truncate_eq_of_nonneg (1) (by norm_num) (by norm_num) (by norm_num)
  rw [q5]
  rfl

/-- The mantissa of -459.6f for the exponent 5. -/
theorem setValueMantissa_fahrenheit :
    QKnx2ByteFloat.setValueMantissa (minusFourFiveNinePointSix) 5 = (-1436) := by
  unfold QKnx2ByteFloat.setValueMantissa
  rw [toFloat_two_zpow]
  have p1 : toFloat (minusFourFiveNinePointSix * (2 : ℚ) ^ (-((5 : Nat) : Int)))
      = (-15060173 / 1048576) := by
    apply roundToPrecision_eval (3) (-15060173) <;>
      norm_num [abs_of_neg, abs_of_pos, minusFourFiveNinePointSix]
  rw [p1]
  have p2 : toFloat ((-15060173 / 1048576) * 100) = (-5745 / 4) := by
    apply roundToPrecision_eval (10) (-11765760) <;> norm_num [abs_of_neg, abs_of_pos]
  rw [p2]
  unfold QKnx2ByteFloat.qRound
  rw [if_neg (by norm_num)]
  have q1 : toFloat ((-5745 / 4) - 1) = (-5749 / 4) := by
    apply roundToPrecision_eval (10) (-11773952) <;> norm_num [abs_of_neg, abs_of_pos]
  rw [q1]
  have q2 : QKnx2ByteFloat.truncate (-5749 / 4) = (-1437) :=
    truncate_eq_of_neg (-1437) (by norm_num) (by norm_num) (by norm_num)
  rw [q2]
  rw [toFloat_intCast (-1437) (by decide)]
  have q3 : toFloat ((-5745 / 4) - (((-1437) : Int) : ℚ)) = (3 / 4) := by
    apply roundToPrecision_eval (-1) (12582912) <;> norm_num [abs_of_neg, abs_of_pos]
  rw [q3]
  have q4 : toFloat ((3 / 4) + 1 / 2) = (5 / 4) := by
    apply roundToPrecision_eval (0) (10485760) <;> norm_num [abs_of_neg, abs_of_pos]
  rw [q4]
  have q5 : QKnx2ByteFloat.truncate (5 / 4) = 1 :=
    truncate_eq_of_nonneg (1) (by norm_num) (by norm_num) (by norm_num)
  rw [q5]
  rfl

theorem setValueExponent_eq_of (v : ℚ) (E : Nat) (h : 2048 / 100 < |v|)
    (hE : E ≤ 254) (h1 : (2 : ℚ) ^ E ≤ |v * 100 / 2048|)
    (h2 : |v * 100 / 2048| < (2 : ℚ) ^ (E + 1)) :
    QKnx2ByteFloat.setValueExponent v = E + 1 := by
  have hq : (0 : ℚ) < |v * 100 / 2048| := lt_of_lt_of_le (by positivity) h1
  have l1 : (E : Int) ≤ Int.log 2 |v * 100 / 2048| := by
    rw [← Int.zpow_le_iff_le_log (by norm_num) hq]
    rw [zpow_natCast]
    exact_mod_cast h1
  have l2 : Int.log 2 |v * 100 / 2048| < (E : Int) + 1 := by
    rw [← Int.lt_zpow_iff_log_lt (by norm_num) hq]
    have : ((2 : ℕ) : ℚ) ^ ((E : Int) + 1) = (2 : ℚ) ^ (E + 1) := by
      rw [← zpow_natCast]
      norm_num
    rw [this]
    exact h2
  unfold QKnx2ByteFloat.setValueExponent
  rw [if_pos h]
  omega

theorem storedValue_eq (d : QKnx2ByteFloat) :
    d.storedValue
      = toFloat (toDouble (toDouble (toDouble (1 / 100) * (d.storedMantissa : ℚ))
          * (2 : ℚ) ^ d.storedExponent)) := rfl

theorem create_range (v : ℚ) :
    (QKnx2ByteFloat.create v).minimum = toDouble (-67108864 / 100)
      ∧ (QKnx2ByteFloat.create v).maximum = toDouble (67076096 / 100) := by
  unfold QKnx2ByteFloat.create
  exact setValue_keeps_range _ v

/-- The bounds that `setValue` compares with on a datapoint of the main type:
the `float` numbers -671088.625 and 670760.9375. -/
theorem create_float_range (v : ℚ) :
    toFloat (QKnx2ByteFloat.create v).minimum = floatMinimum
      ∧ toFloat (QKnx2ByteFloat.create v).maximum = floatMaximum := by
  rw [(create_range v).1, (create_range v).2, toDouble_minimum, toDouble_maximum,
    toFloat_minimum, toFloat_maximum]
  exact ⟨rfl, rfl⟩

theorem celsius_float_range :
    toFloat QKnx2ByteFloat.QKnxTemperatureCelsius.minimum = -273
      ∧ toFloat QKnx2ByteFloat.QKnxTemperatureCelsius.maximum = 670760 :=
  ⟨toFloat_celsius_minimum, toFloat_celsius_maximum⟩

theorem fahrenheit_float_range :
    toFloat QKnx2ByteFloat.QKnxTemperatureFahrenheit.minimum = minusFourFiveNinePointSix
      ∧ toFloat QKnx2ByteFloat.QKnxTemperatureFahrenheit.maximum = floatMaximum := by
  constructor
  · show toFloat (toDouble (-4596 / 10)) = minusFourFiveNinePointSix
    rw [toDouble_fahrenheit, toFloat_fahrenheit]
    rfl
  · show toFloat (toDouble (67076096 / 100)) = floatMaximum
    rw [toDouble_maximum, toFloat_maximum]
    rfl

theorem setValueExponent_celsius : QKnx2ByteFloat.setValueExponent (-273) = 4 :=
  setValueExponent_eq_of (-273) 3 (by norm_num [abs_of_neg]) (by norm_num)
    (by norm_num [abs_of_neg]) (by norm_num [abs_of_neg])

theorem setValueExponent_fahrenheit :
    QKnx2ByteFloat.setValueExponent minusFourFiveNinePointSix = 5 :=
  setValueExponent_eq_of _ 4 (by norm_num [minusFourFiveNinePointSix, abs_of_neg]) (by norm_num)
    (by norm_num [minusFourFiveNinePointSix, abs_of_neg])
    (by norm_num [minusFourFiveNinePointSix, abs_of_neg])

theorem setValueExponent_minusFivePointTwo :
    QKnx2ByteFloat.setValueExponent minusFivePointTwo = 0 :=
  setValueExponent_small _ (by norm_num [minusFivePointTwo, abs_of_neg])

theorem setValueExponent_twentyPoint479 :
    QKnx2ByteFloat.setValueExponent twentyPoint479 = 0
      ∧ QKnx2ByteFloat.setValueExponent (-twentyPoint479) = 0 :=
  ⟨setValueExponent_small _ (by norm_num [twentyPoint479, abs_of_pos]),
    setValueExponent_small _ (by norm_num [twentyPoint479, abs_of_pos])⟩

/-- The call `setValue(-273)` on a Celsius temperature: accepted, with the
exponent 4 and the mantissa -1706. -/
theorem setValue_celsius :
    (QKnx2ByteFloat.QKnxTemperatureCelsius.setValue (-273)).1 = true
      ∧ (QKnx2ByteFloat.QKnxTemperatureCelsius.setValue (-273)).2.storedExponent = 4
      ∧ (QKnx2ByteFloat.QKnxTemperatureCelsius.setValue (-273)).2.storedMantissa = -1706 := by
  have r : toFloat QKnx2ByteFloat.QKnxTemperatureCelsius.minimum ≤ (-273 : ℚ)
      ∧ (-273 : ℚ) ≤ toFloat QKnx2ByteFloat.QKnxTemperatureCelsius.maximum := by
    rw [celsius_float_range.1, celsius_float_range.2]
    constructor <;> norm_num
  have s : (QKnx2ByteFloat.QKnxTemperatureCelsius.setValue (-273)).1 = true := by
    rw [setValue_eq_of _ _ 4 (-1706) r setValueExponent_celsius setValueMantissa_celsius]
    rfl
  have a := setValue_accepted _ _ (by norm_num [abs_of_neg]) s
  refine ⟨s, ?_, ?_⟩
  · rw [a.2.2.2.2.1, setValueExponent_celsius]
  · rw [a.2.2.2.2.2, setValueExponent_celsius, setValueMantissa_celsius]

/-- The call `setValue(-5.2f)` on a Celsius temperature: accepted, with the
exponent 0 and the mantissa -520. -/
theorem setValue_minusFivePointTwo :
    (QKnx2ByteFloat.QKnxTemperatureCelsius.setValue minusFivePointTwo).1 = true
      ∧ (QKnx2ByteFloat.QKnxTemperatureCelsius.setValue minusFivePointTwo).2.storedExponent = 0
      ∧ (QKnx2ByteFloat.QKnxTemperatureCelsius.setValue minusFivePointTwo).2.storedMantissa
          = -520 := by
  have r : toFloat QKnx2ByteFloat.QKnxTemperatureCelsius.minimum ≤ minusFivePointTwo
      ∧ minusFivePointTwo ≤ toFloat QKnx2ByteFloat.QKnxTemperatureCelsius.maximum := by
    rw [celsius_float_range.1, celsius_float_range.2]
    constructor <;> norm_num [minusFivePointTwo]
  have s : (QKnx2ByteFloat.QKnxTemperatureCelsius.setValue minusFivePointTwo).1 = true := by
    rw [setValue_eq_of _ _ 0 (-520) r setValueExponent_minusFivePointTwo
      setValueMantissa_minusFivePointTwo]
    rfl
  have a := setValue_accepted _ _ (by norm_num [minusFivePointTwo, abs_of_neg]) s
  refine ⟨s, ?_, ?_⟩
  · rw [a.2.2.2.2.1, setValueExponent_minusFivePointTwo]
  · rw [a.2.2.2.2.2, setValueExponent_minusFivePointTwo, setValueMantissa_minusFivePointTwo]

/-- C11, on the values of the test: -273 is stored with the exponent 4 and reads
back as the `float` nearest to -272.96; the `float` nearest to -5.2 reads back
as itself. -/
theorem setValue_readback_witness :
    (|(QKnx2ByteFloat.QKnxTemperatureCelsius.setValue (-273)).2.storedValue - (-273)|
        < (1 / 100 : ℚ)
          * (2 : ℚ) ^ (QKnx2ByteFloat.QKnxTemperatureCelsius.setValue (-273)).2.storedExponent
      ∧ (QKnx2ByteFloat.QKnxTemperatureCelsius.setValue (-273)).2.storedExponent = 4
      ∧ (QKnx2ByteFloat.QKnxTemperatureCelsius.setValue (-273)).2.storedValue
          = -8944353 / 32768
      ∧ toFloat (-27296 / 100) = -8944353 / 32768)
    ∧ (|(QKnx2ByteFloat.QKnxTemperatureCelsius.setValue minusFivePointTwo).2.storedValue
          - minusFivePointTwo| < 1 / 100
      ∧ (QKnx2ByteFloat.QKnxTemperatureCelsius.setValue minusFivePointTwo).2.storedValue
          = minusFivePointTwo
      ∧ toFloat (-52 / 10) = minusFivePointTwo) := by
  obtain ⟨s1, e1, m1⟩ := setValue_celsius
  obtain ⟨s2, e2, m2⟩ := setValue_minusFivePointTwo
  have w1 := (setValue_readback QKnx2ByteFloat.QKnxTemperatureCelsius (-273) (by norm_num)
    (by norm_num) s1).2
  have w2 := (setValue_readback QKnx2ByteFloat.QKnxTemperatureCelsius minusFivePointTwo
    (by norm_num [minusFivePointTwo]) (by norm_num [minusFivePointTwo]) s2).2
  refine ⟨⟨w1, e1, ?_, ?_⟩, ?_, ?_, ?_⟩
  · rw [storedValue_eq, e1, m1]
    exact decode_celsius
  · apply roundToPrecision_eval 8 (-8944353) <;> norm_num [abs_of_neg, abs_of_pos]
  · rw [e2] at w2
    simpa using w2
  · rw [storedValue_eq, e2, m2]
    exact decode_minusFivePointTwo
  · apply roundToPrecision_eval 2 (-10905190) <;>
      norm_num [abs_of_neg, abs_of_pos, minusFivePointTwo]


theorem encode_fahrenheit :
    QKnxUtils.QUint16.bytes (QKnx2ByteFloat.encode minusFourFiveNinePointSix (-1436) 5)
      = [0xAA, 0x64] := by
  unfold QKnx2ByteFloat.encode
  dsimp only
  rw [if_pos (by norm_num [minusFourFiveNinePointSix])]
  decide

theorem setValueMantissa_zero : QKnx2ByteFloat.setValueMantissa 0 0 = 0 := by
  unfold QKnx2ByteFloat.setValueMantissa
  rw [toFloat_two_zpow]
  have z : toFloat 0 = 0 := by simp [toFloat, roundToPrecision]
  rw [zero_mul, z, zero_mul, z]
  unfold QKnx2ByteFloat.qRound
  rw [if_pos (le_refl _)]
  have q1 : toFloat (0 + 1 / 2) = 1 / 2 := by
    apply roundToPrecision_eval (-1) 8388608 <;> norm_num [abs_of_pos]
  rw [q1]
  exact truncate_eq_of_nonneg 0 (by norm_num) (by norm_num) (by norm_num)

theorem encode_zero : QKnxUtils.QUint16.bytes (QKnx2ByteFloat.encode 0 0 0) = [0, 0] := by
  unfold QKnx2ByteFloat.encode
  dsimp only
  rw [if_neg (lt_irrefl _)]
  decide

/-- The default constructor leaves the two zero bytes: `setValue(0.0)` stores the
mantissa 0 with the exponent 0. -/
theorem create_zero_bytes : (QKnx2ByteFloat.create 0).bytes = [0x00, 0x00] := by
  rw [QKnx2ByteFloat.create, QKnx2ByteFloat.setValue]
  dsimp only
  rw [toDouble_minimum, toDouble_maximum, toFloat_minimum, toFloat_maximum,
    setValueExponent_small 0 (by norm_num), setValueMantissa_zero,
    if_neg (by norm_num), if_neg (by decide)]
  exact encode_zero

theorem with_range_bytes (c : QKnx2ByteFloat) (a b : ℚ) :
    ({ c with minimum := a, maximum := b } : QKnx2ByteFloat).bytes = c.bytes := rfl

/-- The constructor of a class with a range of its own leaves the two zero
bytes. -/
theorem createClass_bytes (a b : ℚ) : (QKnx2ByteFloat.createClass a b).bytes = [0x00, 0x00] := by
  rw [QKnx2ByteFloat.createClass, with_range_bytes]
  exact create_zero_bytes

/-- C12 fails as stated: the class `QKnxTemperatureFahrenheit` has the minimum
-459.6, and the `float` nearest to -459.6, the minimum converted to `float`, is
-459.600006103515625, below the minimum; `setValue` compares with the minimum
converted to `float`, returns true and stores the bytes 0xAA 0x64 in place of
0x00 0x00. -/
theorem setValue_below_minimum :
    toFloat QKnx2ByteFloat.QKnxTemperatureFahrenheit.minimum = minusFourFiveNinePointSix
      ∧ minusFourFiveNinePointSix < -4596 / 10
      ∧ minusFourFiveNinePointSix < QKnx2ByteFloat.QKnxTemperatureFahrenheit.minimum
      ∧ QKnx2ByteFloat.QKnxTemperatureFahrenheit.bytes = [0x00, 0x00]
      ∧ (QKnx2ByteFloat.QKnxTemperatureFahrenheit.setValue minusFourFiveNinePointSix).1 = true
      ∧ (QKnx2ByteFloat.QKnxTemperatureFahrenheit.setValue minusFourFiveNinePointSix).2.bytes
          = [0xAA, 0x64] := by
  have r : toFloat QKnx2ByteFloat.QKnxTemperatureFahrenheit.minimum ≤ minusFourFiveNinePointSix
      ∧ minusFourFiveNinePointSix ≤ toFloat QKnx2ByteFloat.QKnxTemperatureFahrenheit.maximum := by
    rw [fahrenheit_float_range.1, fahrenheit_float_range.2]
    exact ⟨le_refl _, by norm_num [minusFourFiveNinePointSix, floatMaximum]⟩
  have hm : QKnx2ByteFloat.QKnxTemperatureFahrenheit.minimum
      = -4042684353006797 / 8796093022208 := by
    rw [QKnx2ByteFloat.QKnxTemperatureFahrenheit, QKnx2ByteFloat.createClass]
    dsimp only
    rw [toDouble_fahrenheit]
  have hb : QKnx2ByteFloat.QKnxTemperatureFahrenheit.bytes = [0x00, 0x00] :=
    createClass_bytes _ _
  have e := setValue_eq_of QKnx2ByteFloat.QKnxTemperatureFahrenheit minusFourFiveNinePointSix
    5 (-1436) r setValueExponent_fahrenheit setValueMantissa_fahrenheit
  rw [if_neg (by decide)] at e
  refine ⟨fahrenheit_float_range.1, by norm_num [minusFourFiveNinePointSix], ?_, hb, ?_, ?_⟩
  · rw [hm]
    norm_num [minusFourFiveNinePointSix]
  · rw [e]
  · rw [e]
    exact encode_fahrenheit

/-- C12, amended: for the main type and for every class with a range of its own,
`setValue(v)` with `v` below `minimum().toFloat()` or above
`maximum().toFloat()`, the bounds of the datapoint converted to `float`, returns
false and leaves the datapoint as it was: the stored bytes, and with them
`value()`, are unchanged. -/
theorem setValue_out_of_range (d : QKnx2ByteFloat) (v : ℚ)
    (h : v < toFloat d.minimum ∨ v > toFloat d.maximum) :
    (d.setValue v).1 = false ∧ (d.setValue v).2 = d
      ∧ (d.setValue v).2.bytes = d.bytes
      ∧ (d.setValue v).2.storedValue = d.storedValue := by
  have e : d.setValue v = (false, d) := by
    unfold QKnx2ByteFloat.setValue
    rw [if_pos h]
  rw [e]
  exact ⟨rfl, rfl, rfl, rfl⟩

/-- C12, amended, on the test of the Celsius temperature: after -5.2 was stored
(bytes 0x85 0xF8), the two `float` bounds of the main type are refused and the
bytes stay. -/
theorem setValue_out_of_range_witness :
    (({ QKnx2ByteFloat.QKnxTemperatureCelsius with bytes := [0x85, 0xF8] } :
          QKnx2ByteFloat).setValue floatMinimum).1 = false
      ∧ (({ QKnx2ByteFloat.QKnxTemperatureCelsius with bytes := [0x85, 0xF8] } :
          QKnx2ByteFloat).setValue floatMinimum).2.bytes = [0x85, 0xF8]
      ∧ (({ QKnx2ByteFloat.QKnxTemperatureCelsius with bytes := [0x85, 0xF8] } :
          QKnx2ByteFloat).setValue floatMaximum).1 = false
      ∧ (({ QKnx2ByteFloat.QKnxTemperatureCelsius with bytes := [0x85, 0xF8] } :
          QKnx2ByteFloat).setValue floatMaximum).2.bytes = [0x85, 0xF8] := by
  have h1 := setValue_out_of_range
    ({ QKnx2ByteFloat.QKnxTemperatureCelsius with bytes := [0x85, 0xF8] } : QKnx2ByteFloat)
    floatMinimum (Or.inl (by
      show floatMinimum < toFloat (-273)
      rw [toFloat_celsius_minimum]
      norm_num [floatMinimum]))
  have h2 := setValue_out_of_range
    ({ QKnx2ByteFloat.QKnxTemperatureCelsius with bytes := [0x85, 0xF8] } : QKnx2ByteFloat)
    floatMaximum (Or.inr (by
      show floatMaximum > toFloat 670760
      rw [toFloat_celsius_maximum]
      norm_num [floatMaximum]))
  exact ⟨h1.1, h1.2.2.1, h2.1, h2.2.2.1⟩

/-- C14, as the code has it: the `float` 20.479 lies in the range of the main
type and passes the range check, its mantissa for the exponent 0 is rounded to
2048, and `setValue` takes the inner rejection branch: it returns false and
stores nothing. -/
theorem setValue_rejects_in_range :
    (-67108864 / 100 ≤ twentyPoint479 ∧ twentyPoint479 ≤ 67076096 / 100)
      ∧ ((QKnx2ByteFloat.create 0).minimum ≤ twentyPoint479
          ∧ twentyPoint479 ≤ (QKnx2ByteFloat.create 0).maximum)
      ∧ (QKnx2ByteFloat.create 0).setValue twentyPoint479 = (false, QKnx2ByteFloat.create 0) := by
  have hr : (QKnx2ByteFloat.create 0).minimum ≤ twentyPoint479
      ∧ twentyPoint479 ≤ (QKnx2ByteFloat.create 0).maximum := by
    rw [(create_range 0).1, (create_range 0).2, toDouble_minimum, toDouble_maximum]
    constructor <;> norm_num [twentyPoint479]
  have hf : toFloat (QKnx2ByteFloat.create 0).minimum ≤ twentyPoint479
      ∧ twentyPoint479 ≤ toFloat (QKnx2ByteFloat.create 0).maximum := by
    rw [(create_float_range 0).1, (create_float_range 0).2]
    constructor <;> norm_num [twentyPoint479, floatMinimum, floatMaximum]
  refine ⟨by constructor <;> norm_num [twentyPoint479], hr, ?_⟩
  rw [setValue_eq_of _ _ 0 2048 hf setValueExponent_twentyPoint479.1
    setValueMantissa_twentyPoint479]
  rfl

/-- C13 fails as stated: for the `float` -20.479, in the range of the main type,
`setValue` returns true and stores the exponent 0 with the mantissa -2048, whose
absolute value is above 2047; the stored exponent is not one for which the
rounded mantissa is at most 2047 in absolute value. -/
theorem smallestExponent_counterexample :
    ((QKnx2ByteFloat.create 0).setValue (-twentyPoint479)).1 = true
      ∧ ((QKnx2ByteFloat.create 0).setValue (-twentyPoint479)).2.storedExponent = 0
      ∧ ((QKnx2ByteFloat.create 0).setValue (-twentyPoint479)).2.storedMantissa = -2048
      ∧ ¬ QKnx2ByteFloat.IsSmallestExponent (-twentyPoint479)
          ((QKnx2ByteFloat.create 0).setValue (-twentyPoint479)).2.storedExponent := by
  have hr : toFloat (QKnx2ByteFloat.create 0).minimum ≤ -twentyPoint479
      ∧ -twentyPoint479 ≤ toFloat (QKnx2ByteFloat.create 0).maximum := by
    rw [(create_float_range 0).1, (create_float_range 0).2]
    constructor <;> norm_num [twentyPoint479, floatMinimum, floatMaximum]
  have hE := setValueExponent_twentyPoint479.2
  have hM := setValueMantissa_neg_twentyPoint479
  have hs : ((QKnx2ByteFloat.create 0).setValue (-twentyPoint479)).1 = true := by
    rw [setValue_eq_of _ _ 0 (-2048) hr hE hM]
    rfl
  have ha := setValue_accepted _ _ (by norm_num [twentyPoint479, abs_of_pos]) hs
  have e0 : ((QKnx2ByteFloat.create 0).setValue (-twentyPoint479)).2.storedExponent = 0 := by
    rw [ha.2.2.2.2.1, hE]
  have m0 : ((QKnx2ByteFloat.create 0).setValue (-twentyPoint479)).2.storedMantissa = -2048 := by
    rw [ha.2.2.2.2.2, hE, hM]
  refine ⟨hs, e0, m0, ?_⟩
  rw [e0]
  intro h
  have h1 := h.2.1
  have hround : round (100 * -twentyPoint479 / (2 : ℚ) ^ 0) = -2048 := by
    rw [round_eq, Int.floor_eq_iff]
    constructor <;> norm_num [twentyPoint479]
  rw [hround] at h1
  exact absurd h1 (by decide)

/-- C13, amended: for a value `v` of the range -671088.64 to 670760.96 that
`setValue` encodes, the stored exponent `E` is 0 whenever `|v| ≤ 20.48` and is
otherwise the smallest value in 1..15 with `100 * |v| / 2^E < 2048`; the stored
mantissa differs from `100 * v / 2^E` by at most 1/2 + 1/2000, the rounding of
the `float` operations included, and lies between -2048 and 2047. -/
theorem setValue_exponent (d : QKnx2ByteFloat) (v : ℚ)
    (hlo : -67108864 / 100 ≤ v) (hhi : v ≤ 67076096 / 100)
    (hset : (d.setValue v).1 = true) :
    (|v| ≤ 2048 / 100 → (d.setValue v).2.storedExponent = 0)
      ∧ (2048 / 100 < |v| →
          1 ≤ (d.setValue v).2.storedExponent
          ∧ 100 * |v| / (2 : ℚ) ^ (d.setValue v).2.storedExponent < 2048
          ∧ ∀ E1 : Nat, E1 < (d.setValue v).2.storedExponent →
              2048 ≤ 100 * |v| / (2 : ℚ) ^ E1)
      ∧ (d.setValue v).2.storedExponent ≤ 15
      ∧ |((d.setValue v).2.storedMantissa : ℚ)
          - 100 * v / (2 : ℚ) ^ (d.setValue v).2.storedExponent| ≤ 1 / 2 + 1 / 2000
      ∧ -2048 ≤ (d.setValue v).2.storedMantissa
      ∧ (d.setValue v).2.storedMantissa ≤ 2047 := by
  have hv := abs_le_of_range hlo hhi
  obtain ⟨_, hE, hM1, hM2, hexp, hman⟩ := setValue_accepted d v hv hset
  rw [hexp, hman]
  refine ⟨fun h => setValueExponent_small v h, ?_, hE, (setValueMantissa_spec v hv).1, hM1, hM2⟩
  intro hbig
  obtain ⟨h1, _, h3, h4⟩ := setValueExponent_large v hv hbig
  have hp : (0 : ℚ) < (2 : ℚ) ^ QKnx2ByteFloat.setValueExponent v := by positivity
  refine ⟨h1, by rw [div_lt_iff₀ hp]; exact h4, ?_⟩
  intro E1 hE1
  have hp1 : (0 : ℚ) < (2 : ℚ) ^ E1 := by positivity
  rw [le_div_iff₀ hp1]
  have h5 : (2 : ℚ) ^ (E1 + 1) ≤ (2 : ℚ) ^ QKnx2ByteFloat.setValueExponent v :=
    pow_le_pow_right₀ (by norm_num) (by omega)
  rw [pow_succ] at h5
  linarith

/-- C13, amended, on the Celsius temperature -273: it is stored with the
exponent 4 and the mantissa -1706; 4 is the smallest exponent that brings
`100 * 273 / 2^E` below 2048, and -1706 is within 1/2 + 1/2000 of
`100 * (-273) / 2^4 = -1706.25`. -/
theorem setValue_exponent_witness :
    (QKnx2ByteFloat.QKnxTemperatureCelsius.setValue (-273)).2.storedExponent = 4
      ∧ (QKnx2ByteFloat.QKnxTemperatureCelsius.setValue (-273)).2.storedMantissa = -1706
      ∧ 100 * |(-273 : ℚ)| / (2 : ℚ) ^ 4 < 2048
      ∧ (∀ E1 : Nat, E1 < 4 → 2048 ≤ 100 * |(-273 : ℚ)| / (2 : ℚ) ^ E1)
      ∧ |((-1706 : Int) : ℚ) - 100 * (-273) / (2 : ℚ) ^ 4| ≤ 1 / 2 + 1 / 2000 := by
  obtain ⟨s1, e1, m1⟩ := setValue_celsius
  have w := setValue_exponent QKnx2ByteFloat.QKnxTemperatureCelsius (-273) (by norm_num)
    (by norm_num) s1
  rw [e1, m1] at w
  have w2 := w.2.1 (by norm_num [abs_of_neg])
  exact ⟨e1, m1, w2.2.1, w2.2.2, w.2.2.2.1⟩

/-! ## The error code of a device management frame -/

theorem data_eq_nil_iff (f : QKnxDeviceManagementFrame) :
    f.data = [] ↔ f.serviceInformation.length ≤ 6 := by
  simp [QKnxDeviceManagementFrame.data]

theorem data_head (f : QKnxDeviceManagementFrame) (h : 6 < f.serviceInformation.length) :
    ∃ rest, f.data = QKnxByteStore.byte f.serviceInformation 6 :: rest := by
  refine ⟨f.serviceInformation.drop 7, ?_⟩
  unfold QKnxDeviceManagementFrame.data QKnxByteStore.byte
  rw [List.getD_eq_getElem _ _ h]
  exact List.drop_eq_getElem_cons h

/-- C21: `errorCode` gives `Error::None` for every frame that is not a negative
confirmation. For a negative confirmation it gives `Error::Data` when the
service information has no data byte, that is no byte after the six bytes of
object type, instance, property, number of elements and start index, and
otherwise the error whose code is the first data byte, byte 6 of the service
information. -/
theorem errorCode_spec (error : DeviceManagementError) (f : QKnxDeviceManagementFrame) :
    (f.isNegativeConfirmation = false → f.errorCode error = error.None)
      ∧ (f.isNegativeConfirmation = true → f.serviceInformation.length ≤ 6 →
          f.data = [] ∧ f.errorCode error = error.Data)
      ∧ (f.isNegativeConfirmation = true → 6 < f.serviceInformation.length →
          f.data.head? = some (QKnxByteStore.byte f.serviceInformation 6)
            ∧ f.errorCode error = QKnxByteStore.byte f.serviceInformation 6 % 256) := by
  refine ⟨?_, ?_, ?_⟩
  · intro h
    simp [QKnxDeviceManagementFrame.errorCode, h]
  · intro h hlen
    have hd := (data_eq_nil_iff f).mpr hlen
    simp [QKnxDeviceManagementFrame.errorCode, h, hd]
  · intro h hlen
    obtain ⟨rest, hd⟩ := data_head f hlen
    simp [QKnxDeviceManagementFrame.errorCode, h, hd]

theorem errorCode_spec_witness :
    negativeConfirmation.isNegativeConfirmation = true
      ∧ negativeConfirmation.errorCode exampleError = 7 :=
  ⟨by decide,
    ((errorCode_spec exampleError negativeConfirmation).2.2 (by decide) (by decide)).2⟩

/-- The three cases of `errorCode` on frames: a request, a negative confirmation
without a data byte, and a negative confirmation with the data byte 0x07. -/
theorem errorCode_examples :
    QKnxDeviceManagementFrame.errorCode exampleError
        ⟨MessageCode.PropertyReadRequest, [0x00, 0x00, 0x01, 0x0b, 0x10, 0x01]⟩ = 0
      ∧ QKnxDeviceManagementFrame.errorCode exampleError
        ⟨MessageCode.PropertyWriteConfirmation, [0x00, 0x00, 0x01, 0x0b, 0x00, 0x01]⟩ = 3
      ∧ negativeConfirmation.isNegativeConfirmation = true
      ∧ QKnxDeviceManagementFrame.errorCode exampleError negativeConfirmation = 7 := by
  decide

/-! ## The disconnect response -/

theorem setByte_nil_zero (v : Nat) : QKnxByteStore.setByte [] 0 v = [v] := by
  simp [QKnxByteStore.setByte, QKnxByteStore.resize]

theorem setByte_one (a v : Nat) : QKnxByteStore.setByte [a] 1 v = [a, v] := by
  simp [QKnxByteStore.setByte, QKnxByteStore.resize]

theorem disconnectResponse_create (c s : Nat) :
    QKnxNetIpDisconnectResponse.create c s = ⟨0x0208, [c % 256, s % 256]⟩ := by
  simp [QKnxNetIpDisconnectResponse.create, setByte_nil_zero, setByte_one,
    QKnxNetIp.ServiceType.ConnectionStateResponse]

/-- C22: the frame that `QKnxNetIpDisconnectResponse(1, NoError)` builds serialises
to `06 10 02 08 00 08 01 00`, with the service type 0x0208 of the connection
state response, and not to `06 10 02 0A 00 08 01 00`. For every channel id `c`
and status `s` of 8 bits the bytes are `06 10 02 08 00 08 c s`, and
`channelId` gives `c` and `status` gives `s`. -/
theorem disconnectResponse_bytes :
    (QKnxNetIpDisconnectResponse.create 1 QKnxNetIp.Error.NoError).bytes
        = [0x06, 0x10, 0x02, 0x08, 0x00, 0x08, 0x01, 0x00]
      ∧ (QKnxNetIpDisconnectResponse.create 1 QKnxNetIp.Error.NoError).bytes
        ≠ [0x06, 0x10, 0x02, 0x0A, 0x00, 0x08, 0x01, 0x00]
      ∧ (QKnxNetIpDisconnectResponse.create 1 QKnxNetIp.Error.NoError).serviceType
        ≠ QKnxNetIp.ServiceType.DisconnectResponse
      ∧ ∀ c s : Nat, c < 256 → s < 256 →
          (QKnxNetIpDisconnectResponse.create c s).bytes
              = [0x06, 0x10, 0x02, 0x08, 0x00, 0x08, c, s]
            ∧ (QKnxNetIpDisconnectResponse.create c s).size = 8
            ∧ QKnxNetIpDisconnectResponse.channelId (QKnxNetIpDisconnectResponse.create c s) = c
            ∧ QKnxNetIpDisconnectResponse.status (QKnxNetIpDisconnectResponse.create c s) = s := by
  refine ⟨by decide, by decide, by decide, ?_⟩
  intro c s hc hs
  rw [disconnectResponse_create, Nat.mod_eq_of_lt hc, Nat.mod_eq_of_lt hs]
  refine ⟨?_, rfl, rfl, rfl⟩
  simp [QKnxNetIpFrame.bytes, QKnxNetIpFrame.size, QKnxUtils.QUint16.bytes]

/-! ## The point-to-point TPDU factory -/

theorem QUint8_bytes_of_lt {v : Nat} (h : v < 256) : QKnxUtils.QUint8.bytes v = [v] := by
  simp [QKnxUtils.QUint8.bytes, Nat.mod_eq_of_lt h]

theorem QUint16_bytes_of_lt {v : Nat} (h : v < 65536) :
    QKnxUtils.QUint16.bytes v = [v / 256, v % 256] := by
  unfold QKnxUtils.QUint16.bytes
  rw [Nat.shiftRight_eq_div_pow]
  have h1 : v / 2 ^ 8 % 256 = v / 256 := by omega
  rw [h1]

theorem nibble_byte {a b : Nat} (ha : a ≤ 15) (hb : b ≤ 15) :
    (((a <<< 4) % 256) ||| ((b &&& 0x0f) % 256)) % 256 = 16 * a + b
      ∧ (a <<< 4) ||| b = 16 * a + b := by
  have h1 : b &&& 0x0f = b := by rw [and_0x0f]; omega
  have h2 : a <<< 4 = 2 ^ 4 * a := by rw [Nat.shiftLeft_eq, Nat.mul_comm]
  have h3 : 2 ^ 4 * a ||| b = 2 ^ 4 * a + b :=
    (Nat.mul_add_lt_is_or (show b < 2 ^ 4 by omega) a).symm
  rw [h1, h2, Nat.mod_eq_of_lt (show 2 ^ 4 * a < 256 by omega),
    Nat.mod_eq_of_lt (show b < 256 by omega), h3]
  exact ⟨by omega, by omega⟩

theorem tpci_eq_invalid_iff (mode : QKnxTpduFactory.Mode) (seq : Nat) :
    QKnxTpduFactory.tpci mode seq = TransportControlField.Invalid ↔ seq > 15 := by
  unfold QKnxTpduFactory.tpci
  split_ifs <;> simp_all

theorem tpci_connectionOriented {seq : Nat} (h : seq ≤ 15) :
    QKnxTpduFactory.tpci QKnxTpduFactory.Mode.ConnectionOriented seq
      = TransportControlField.DataConnected := by
  have h1 : ¬ seq > 15 := by omega
  simp [QKnxTpduFactory.tpci, h1]

theorem tpci_connectionless {seq : Nat} (h : seq ≤ 15) :
    QKnxTpduFactory.tpci QKnxTpduFactory.Mode.Connectionless seq
      = TransportControlField.DataIndividual := by
  have h1 : ¬ seq > 15 := by omega
  simp [QKnxTpduFactory.tpci, h1]

/-- C23: a call of a point-to-point function whose arguments pass the checks of
the function gives a TPDU whose transport control field is `Invalid` for a
sequence number above 15, otherwise `DataConnected` in the mode
`ConnectionOriented` and `DataIndividual` in the mode `Connectionless`, and whose
application control field is not `Invalid`; the functions of the
connection-oriented services, six of which check nothing, give `DataConnected`
for every sequence number up to 15. A call whose arguments fail a check gives
the TPDU with both fields `Invalid`. -/
theorem factory_tpci (codes : EraseCode) (invalidId : Nat) (mode : QKnxTpduFactory.Mode)
    (seqNumber : Nat) :
    (∀ call : QKnxTpduFactory.PointToPoint.Call,
        (call.passesChecks codes invalidId = true →
          (call.result codes invalidId mode seqNumber).tpci
              = (if seqNumber > 15 then TransportControlField.Invalid
                else if mode = QKnxTpduFactory.Mode.ConnectionOriented then
                  TransportControlField.DataConnected
                else TransportControlField.DataIndividual)
            ∧ (call.result codes invalidId mode seqNumber).apci
              ≠ ApplicationControlField.Invalid)
        ∧ (call.passesChecks codes invalidId = false →
          call.result codes invalidId mode seqNumber = QKnxTpduFactory.invalid))
      ∧ (∀ call : QKnxTpduFactory.PointToPointConnectionOriented.Call,
        (call.passesChecks = true →
          (call.result seqNumber).tpci
              = (if seqNumber > 15 then TransportControlField.Invalid
                else TransportControlField.DataConnected)
            ∧ (call.result seqNumber).apci ≠ ApplicationControlField.Invalid)
        ∧ (call.passesChecks = false →
          call.result seqNumber = QKnxTpduFactory.invalid)) := by
  constructor
  · intro call
    cases call <;>
      simp only [QKnxTpduFactory.PointToPoint.Call.result,
        QKnxTpduFactory.PointToPoint.Call.passesChecks,
        QKnxTpduFactory.PointToPoint.createFunctionPropertyCommandTpdu,
        QKnxTpduFactory.PointToPoint.createFunctionPropertyStateReadTpdu,
        QKnxTpduFactory.PointToPoint.createFunctionPropertyStateResponseTpdu,
        QKnxTpduFactory.PointToPoint.createDeviceDescriptorReadTpdu,
        QKnxTpduFactory.PointToPoint.createDeviceDescriptorResponseTpdu,
        QKnxTpduFactory.PointToPoint.createRestartTpdu,
        QKnxTpduFactory.PointToPoint.createRestartResponseTpdu,
        QKnxTpduFactory.PointToPoint.createPropertyValueReadTpdu,
        QKnxTpduFactory.PointToPoint.createPropertyValueResponseTpdu,
        QKnxTpduFactory.PointToPoint.createPropertyValueWriteTpdu,
        QKnxTpduFactory.PointToPoint.createPropertyValueTpdu,
        QKnxTpduFactory.PointToPoint.createPropertyDescriptionReadTpdu,
        QKnxTpduFactory.PointToPoint.createPropertyDescriptionResponseTpdu,
        QKnxTpduFactory.PointToPoint.createLinkReadTpdu,
        QKnxTpduFactory.PointToPoint.createLinkResponseTpdu,
        QKnxTpduFactory.PointToPoint.createLinkWriteTpdu,
        QKnxTpduFactory.PointToPoint.createFileStreamInfoReportTpdu] <;>
      split_ifs <;> simp_all [QKnxTpduFactory.invalid, QKnxTpduFactory.tpci]
  · intro call
    cases call <;>
      simp only [QKnxTpduFactory.PointToPointConnectionOriented.Call.result,
        QKnxTpduFactory.PointToPointConnectionOriented.Call.passesChecks,
        QKnxTpduFactory.PointToPointConnectionOriented.createMemoryReadTpdu,
        QKnxTpduFactory.PointToPointConnectionOriented.createMemoryResponseTpdu,
        QKnxTpduFactory.PointToPointConnectionOriented.createMemoryWriteTpdu,
        QKnxTpduFactory.PointToPointConnectionOriented.createAdcReadTpdu,
        QKnxTpduFactory.PointToPointConnectionOriented.createAdcResponseTpdu,
        QKnxTpduFactory.PointToPointConnectionOriented.createUserMemoryReadTpdu,
        QKnxTpduFactory.PointToPointConnectionOriented.createUserMemoryResponseTpdu,
        QKnxTpduFactory.PointToPointConnectionOriented.createUserMemoryWriteTpdu,
        QKnxTpduFactory.PointToPointConnectionOriented.createUserManufacturerInfoReadTpdu,
        QKnxTpduFactory.PointToPointConnectionOriented.createUserManufacturerInfoResponseTpdu,
        QKnxTpduFactory.PointToPointConnectionOriented.createAuthorizeRequestTpdu,
        QKnxTpduFactory.PointToPointConnectionOriented.createAuthorizeResponseTpdu,
        QKnxTpduFactory.PointToPointConnectionOriented.createKeyWriteTpdu,
        QKnxTpduFactory.PointToPointConnectionOriented.createKeyResponseTpdu] <;>
      split_ifs <;> simp_all [QKnxTpduFactory.invalid, QKnxTpduFactory.tpci]

theorem factory_tpci_witness :
    (QKnxTpduFactory.PointToPoint.createPropertyValueReadTpdu
        QKnxTpduFactory.Mode.Connectionless 0 1 1 1 3).tpci
        = TransportControlField.DataIndividual
      ∧ (QKnxTpduFactory.PointToPoint.createPropertyValueReadTpdu
        QKnxTpduFactory.Mode.ConnectionOriented 0 1 1 1 3).tpci
        = TransportControlField.DataConnected
      ∧ (QKnxTpduFactory.PointToPointConnectionOriented.createMemoryReadTpdu 1 0x1234 16).tpci
        = TransportControlField.Invalid
      ∧ (QKnxTpduFactory.PointToPointConnectionOriented.createAuthorizeRequestTpdu 7 15).tpci
        = TransportControlField.DataConnected
      ∧ QKnxTpduFactory.PointToPoint.createLinkReadTpdu
        QKnxTpduFactory.Mode.Connectionless 1 16 3 = QKnxTpduFactory.invalid :=
  ⟨(((factory_tpci exampleEraseCode 64 QKnxTpduFactory.Mode.Connectionless 3).1
      (QKnxTpduFactory.PointToPoint.Call.PropertyValueRead 0 1 1 1)).1 (by decide)).1,
    (((factory_tpci exampleEraseCode 64 QKnxTpduFactory.Mode.ConnectionOriented 3).1
      (QKnxTpduFactory.PointToPoint.Call.PropertyValueRead 0 1 1 1)).1 (by decide)).1,
    (((factory_tpci exampleEraseCode 64 QKnxTpduFactory.Mode.ConnectionOriented 16).2
      (QKnxTpduFactory.PointToPointConnectionOriented.Call.MemoryRead 1 0x1234)).1
        (by decide)).1,
    (((factory_tpci exampleEraseCode 64 QKnxTpduFactory.Mode.ConnectionOriented 15).2
      (QKnxTpduFactory.PointToPointConnectionOriented.Call.AuthorizeRequest 7)).1
        (by decide)).1,
    ((factory_tpci exampleEraseCode 64 QKnxTpduFactory.Mode.Connectionless 3).1
      (QKnxTpduFactory.PointToPoint.Call.LinkRead 1 16)).2 (by decide)⟩

/-! ### Memory services -/

theorem data251_length : data251.length = 251 := by
  rw [data251, List.length_replicate]

/-- C24, counterexample: with data of 251 bytes, which is more than 250, and the
sequence number 0, `createMemoryResponseTpdu` and `createMemoryWriteTpdu`
give a `DataConnected` TPDU and not an invalid one. -/
theorem createMemoryTpdu_counterexample :
    data251.length > 250
      ∧ (QKnxTpduFactory.PointToPointConnectionOriented.createMemoryResponseTpdu 1 0x1234
          data251 0) = ⟨TransportControlField.DataConnected,
            ApplicationControlField.MemoryResponse, 0, [0x01, 0x12, 0x34] ++ data251⟩
      ∧ (QKnxTpduFactory.PointToPointConnectionOriented.createMemoryWriteTpdu 1 0x1234
          data251 0) = ⟨TransportControlField.DataConnected,
            ApplicationControlField.MemoryWrite, 0, [0x01, 0x12, 0x34] ++ data251⟩
      ∧ (QKnxTpduFactory.PointToPointConnectionOriented.createMemoryResponseTpdu 1 0x1234
          data251 0).tpci ≠ TransportControlField.Invalid
      ∧ (QKnxTpduFactory.PointToPointConnectionOriented.createMemoryWriteTpdu 1 0x1234
          data251 0).tpci ≠ TransportControlField.Invalid := by
  have h : ¬ data251.length > 251 := by rw [data251_length]; omega
  have h1 : QKnxTpduFactory.PointToPointConnectionOriented.createMemoryResponseTpdu 1 0x1234
      data251 0 = ⟨TransportControlField.DataConnected,
        ApplicationControlField.MemoryResponse, 0, [0x01, 0x12, 0x34] ++ data251⟩ := by
    unfold QKnxTpduFactory.PointToPointConnectionOriented.createMemoryResponseTpdu
    rw [if_neg h]
    rfl
  have h2 : QKnxTpduFactory.PointToPointConnectionOriented.createMemoryWriteTpdu 1 0x1234
      data251 0 = ⟨TransportControlField.DataConnected,
        ApplicationControlField.MemoryWrite, 0, [0x01, 0x12, 0x34] ++ data251⟩ := by
    unfold QKnxTpduFactory.PointToPointConnectionOriented.createMemoryWriteTpdu
    rw [if_neg h]
    rfl
  refine ⟨by rw [data251_length]; omega, h1, h2, ?_, ?_⟩
  · rw [h1]
    decide
  · rw [h2]
    decide

/-- C24, amended: for a number of 8 bits and an address of 16 bits,
`createMemoryResponseTpdu` and `createMemoryWriteTpdu` give an invalid TPDU
(`tpci = Invalid`) iff the data have more than 251 bytes or the sequence number
is above 15; when the data have at most 251 bytes and the sequence number is at
most 15 they give a `DataConnected` TPDU whose payload is the number, the high
and the low byte of the address, and the data. -/
theorem createMemoryTpdu_spec (number address : Nat) (data : List Nat) (seqNumber : Nat)
    (hnumber : number < 256) (haddress : address < 65536) :
    ((QKnxTpduFactory.PointToPointConnectionOriented.createMemoryResponseTpdu number address
          data seqNumber).tpci = TransportControlField.Invalid
        ↔ data.length > 251 ∨ seqNumber > 15)
      ∧ ((QKnxTpduFactory.PointToPointConnectionOriented.createMemoryWriteTpdu number address
          data seqNumber).tpci = TransportControlField.Invalid
        ↔ data.length > 251 ∨ seqNumber > 15)
      ∧ (data.length ≤ 251 → seqNumber ≤ 15 →
          QKnxTpduFactory.PointToPointConnectionOriented.createMemoryResponseTpdu number address
              data seqNumber
            = ⟨TransportControlField.DataConnected, ApplicationControlField.MemoryResponse,
                seqNumber, [number, address / 256, address % 256] ++ data⟩
          ∧ QKnxTpduFactory.PointToPointConnectionOriented.createMemoryWriteTpdu number address
              data seqNumber
            = ⟨TransportControlField.DataConnected, ApplicationControlField.MemoryWrite,
                seqNumber, [number, address / 256, address % 256] ++ data⟩) := by
  unfold QKnxTpduFactory.PointToPointConnectionOriented.createMemoryResponseTpdu
    QKnxTpduFactory.PointToPointConnectionOriented.createMemoryWriteTpdu
  rw [QUint8_bytes_of_lt hnumber, QUint16_bytes_of_lt haddress]
  refine ⟨?_, ?_, ?_⟩
  · split_ifs with h
    · simp [QKnxTpduFactory.invalid, h]
    · simp [tpci_eq_invalid_iff, h]
  · split_ifs with h
    · simp [QKnxTpduFactory.invalid, h]
    · simp [tpci_eq_invalid_iff, h]
  · intro hlen hseq
    have h : ¬ data.length > 251 := by omega
    simp [h, tpci_connectionOriented hseq]

theorem createMemoryTpdu_spec_witness :
    (QKnxTpduFactory.PointToPointConnectionOriented.createMemoryResponseTpdu 1 0x1234
        [0xaa, 0xbb] 2)
      = ⟨TransportControlField.DataConnected, ApplicationControlField.MemoryResponse, 2,
          [0x01, 0x12, 0x34, 0xaa, 0xbb]⟩
      ∧ (QKnxTpduFactory.PointToPointConnectionOriented.createMemoryWriteTpdu 1 0x1234
        [0xaa, 0xbb] 2)
      = ⟨TransportControlField.DataConnected, ApplicationControlField.MemoryWrite, 2,
          [0x01, 0x12, 0x34, 0xaa, 0xbb]⟩ :=
  (createMemoryTpdu_spec 1 0x1234 [0xaa, 0xbb] 2 (by decide) (by decide)).2.2
    (by decide) (by decide)

/-! ### User memory services -/

/-- C25: for an address of 16 bits, `createUserMemoryResponseTpdu` and
`createUserMemoryWriteTpdu` give an invalid TPDU (`tpci = Invalid`) iff the
address extension is above 15, or the number is above 15, or the data are
empty, or the data have more than 250 bytes, or the sequence number is above
15; otherwise they give a `DataConnected` TPDU whose payload is the byte
`(addressExtention << 4) | number`, the high and the low byte of the address,
and the data. -/
theorem createUserMemoryTpdu_spec (addressExtention number address : Nat) (data : List Nat)
    (seqNumber : Nat) (haddress : address < 65536) :
    ((QKnxTpduFactory.PointToPointConnectionOriented.createUserMemoryResponseTpdu
          addressExtention number address data seqNumber).tpci = TransportControlField.Invalid
        ↔ addressExtention > 15 ∨ number > 15 ∨ data = [] ∨ data.length > 250 ∨ seqNumber > 15)
      ∧ ((QKnxTpduFactory.PointToPointConnectionOriented.createUserMemoryWriteTpdu
          addressExtention number address data seqNumber).tpci = TransportControlField.Invalid
        ↔ addressExtention > 15 ∨ number > 15 ∨ data = [] ∨ data.length > 250 ∨ seqNumber > 15)
      ∧ (¬ (addressExtention > 15 ∨ number > 15 ∨ data = [] ∨ data.length > 250
            ∨ seqNumber > 15) →
          QKnxTpduFactory.PointToPointConnectionOriented.createUserMemoryResponseTpdu
              addressExtention number address data seqNumber
            = ⟨TransportControlField.DataConnected, ApplicationControlField.UserMemoryResponse,
                seqNumber,
                [(addressExtention <<< 4) ||| number, address / 256, address % 256] ++ data⟩
          ∧ QKnxTpduFactory.PointToPointConnectionOriented.createUserMemoryWriteTpdu
              addressExtention number address data seqNumber
            = ⟨TransportControlField.DataConnected, ApplicationControlField.UserMemoryWrite,
                seqNumber,
                [(addressExtention <<< 4) ||| number, address / 256, address % 256] ++ data⟩) := by
  unfold QKnxTpduFactory.PointToPointConnectionOriented.createUserMemoryResponseTpdu
    QKnxTpduFactory.PointToPointConnectionOriented.createUserMemoryWriteTpdu
  have hnil : data.length ≤ 0 ↔ data = [] := by
    rw [Nat.le_zero, List.length_eq_zero]
  rw [QUint16_bytes_of_lt haddress]
  refine ⟨?_, ?_, ?_⟩
  · split_ifs with h
    · have h1 : addressExtention > 15 ∨ number > 15 ∨ data = [] ∨ data.length > 250
          ∨ seqNumber > 15 := by tauto
      simp only [QKnxTpduFactory.invalid, true_iff]
      exact h1
    · simp only [tpci_eq_invalid_iff]
      tauto
  · split_ifs with h
    · have h1 : addressExtention > 15 ∨ number > 15 ∨ data = [] ∨ data.length > 250
          ∨ seqNumber > 15 := by tauto
      simp only [QKnxTpduFactory.invalid, true_iff]
      exact h1
    · simp only [tpci_eq_invalid_iff]
      tauto
  · intro hn
    have h : ¬ (addressExtention > 15 ∨ number > 15 ∨ data.length ≤ 0
        ∨ data.length > 250) := by
      tauto
    have ha : addressExtention ≤ 15 := by
      by_contra hc
      exact hn (Or.inl (by omega))
    have hb : number ≤ 15 := by
      by_contra hc
      exact hn (Or.inr (Or.inl (by omega)))
    have hs : seqNumber ≤ 15 := by
      by_contra hc
      exact hn (Or.inr (Or.inr (Or.inr (Or.inr (by omega)))))
    have hnib := nibble_byte ha hb
    rw [if_neg h, if_neg h]
    dsimp only
    rw [tpci_connectionOriented hs]
    simp only [QKnxUtils.QUint8.bytes, hnib.1, hnib.2, List.cons_append, List.nil_append,
      and_self]

theorem createUserMemoryTpdu_spec_witness :
    QKnxTpduFactory.PointToPointConnectionOriented.createUserMemoryResponseTpdu 2 3 0x1234
        [0xaa] 5
      = ⟨TransportControlField.DataConnected, ApplicationControlField.UserMemoryResponse, 5,
          [0x23, 0x12, 0x34, 0xaa]⟩
      ∧ QKnxTpduFactory.PointToPointConnectionOriented.createUserMemoryWriteTpdu 2 3 0x1234
        [0xaa] 5
      = ⟨TransportControlField.DataConnected, ApplicationControlField.UserMemoryWrite, 5,
          [0x23, 0x12, 0x34, 0xaa]⟩ :=
  (createUserMemoryTpdu_spec 2 3 0x1234 [0xaa] 5 (by decide)).2.2 (by decide)

/-! ### Function property services -/

/-- C26: for an object index, a property and an error code of 8 bits,
`createFunctionPropertyCommandTpdu` and `createFunctionPropertyStateReadTpdu`
give an invalid TPDU iff the data have more than 251 bytes or the sequence
number is above 15, and otherwise the payload `[objectIndex, property] ++ data`;
`createFunctionPropertyStateResponseTpdu` gives an invalid TPDU iff the data
have more than 250 bytes or the sequence number is above 15, and otherwise the
payload `[objectIndex, property, code] ++ data`. An accepted payload has at most
253 bytes. -/
theorem createFunctionPropertyTpdu_spec (mode : QKnxTpduFactory.Mode)
    (objectIndex property code : Nat) (data : List Nat) (seqNumber : Nat)
    (hobject : objectIndex < 256) (hproperty : property < 256) (hcode : code < 256) :
    ((QKnxTpduFactory.PointToPoint.createFunctionPropertyCommandTpdu mode objectIndex property
          data seqNumber).tpci = TransportControlField.Invalid
        ↔ data.length > 251 ∨ seqNumber > 15)
      ∧ ((QKnxTpduFactory.PointToPoint.createFunctionPropertyStateReadTpdu mode objectIndex
          property data seqNumber).tpci = TransportControlField.Invalid
        ↔ data.length > 251 ∨ seqNumber > 15)
      ∧ ((QKnxTpduFactory.PointToPoint.createFunctionPropertyStateResponseTpdu mode objectIndex
          property code data seqNumber).tpci = TransportControlField.Invalid
        ↔ data.length > 250 ∨ seqNumber > 15)
      ∧ (¬ (data.length > 251 ∨ seqNumber > 15) →
          (QKnxTpduFactory.PointToPoint.createFunctionPropertyCommandTpdu mode objectIndex
              property data seqNumber).data = [objectIndex, property] ++ data
          ∧ (QKnxTpduFactory.PointToPoint.createFunctionPropertyStateReadTpdu mode objectIndex
              property data seqNumber).data = [objectIndex, property] ++ data
          ∧ ([objectIndex, property] ++ data).length ≤ 253)
      ∧ (¬ (data.length > 250 ∨ seqNumber > 15) →
          (QKnxTpduFactory.PointToPoint.createFunctionPropertyStateResponseTpdu mode objectIndex
              property code data seqNumber).data = [objectIndex, property, code] ++ data
          ∧ ([objectIndex, property, code] ++ data).length ≤ 253) := by
  unfold QKnxTpduFactory.PointToPoint.createFunctionPropertyCommandTpdu
    QKnxTpduFactory.PointToPoint.createFunctionPropertyStateReadTpdu
    QKnxTpduFactory.PointToPoint.createFunctionPropertyStateResponseTpdu
  rw [Nat.mod_eq_of_lt hcode, QUint8_bytes_of_lt hobject, QUint8_bytes_of_lt hproperty,
    QUint8_bytes_of_lt hcode]
  refine ⟨?_, ?_, ?_, ?_, ?_⟩
  · split_ifs with h
    · simp [QKnxTpduFactory.invalid, h]
    · simp [tpci_eq_invalid_iff, h]
  · split_ifs with h
    · simp [QKnxTpduFactory.invalid, h]
    · simp [tpci_eq_invalid_iff, h]
  · split_ifs with h
    · simp [QKnxTpduFactory.invalid, h]
    · simp [tpci_eq_invalid_iff, h]
  · intro hn
    have h : ¬ data.length > 251 := fun hc => hn (Or.inl hc)
    rw [if_neg h, if_neg h]
    refine ⟨rfl, rfl, ?_⟩
    simp only [List.length_append, List.length_cons, List.length_nil]
    omega
  · intro hn
    have h : ¬ data.length > 250 := fun hc => hn (Or.inl hc)
    rw [if_neg h]
    refine ⟨rfl, ?_⟩
    simp only [List.length_append, List.length_cons, List.length_nil]
    omega

theorem createFunctionPropertyTpdu_spec_witness :
    ((QKnxTpduFactory.PointToPoint.createFunctionPropertyCommandTpdu
          QKnxTpduFactory.Mode.Connectionless 1 2 [0xaa, 0xbb] 0).data = [1, 2, 0xaa, 0xbb]
        ∧ (QKnxTpduFactory.PointToPoint.createFunctionPropertyStateReadTpdu
          QKnxTpduFactory.Mode.Connectionless 1 2 [0xaa, 0xbb] 0).data = [1, 2, 0xaa, 0xbb]
        ∧ ([1, 2] ++ [0xaa, 0xbb]).length ≤ 253)
      ∧ ((QKnxTpduFactory.PointToPoint.createFunctionPropertyStateResponseTpdu
          QKnxTpduFactory.Mode.Connectionless 1 2 3 [0xaa, 0xbb] 0).data
            = [1, 2, 3, 0xaa, 0xbb]
        ∧ ([1, 2, 3] ++ [0xaa, 0xbb]).length ≤ 253) :=
  ⟨(createFunctionPropertyTpdu_spec QKnxTpduFactory.Mode.Connectionless 1 2 3 [0xaa, 0xbb] 0
      (by decide) (by decide) (by decide)).2.2.2.1 (by decide),
    (createFunctionPropertyTpdu_spec QKnxTpduFactory.Mode.Connectionless 1 2 3 [0xaa, 0xbb] 0
      (by decide) (by decide) (by decide)).2.2.2.2 (by decide)⟩

/-! ### Property value services -/

/-- C27: `createPropertyValueReadTpdu`, `createPropertyValueResponseTpdu` and
`createPropertyValueWriteTpdu` give an invalid TPDU (`tpci = Invalid`) iff the
number of elements is above 15, or the start index is above 4095, or the data
(the read service has none) have more than 249 bytes, or the sequence number is
above 15; otherwise the TPDU has the application control field
`PropertyValueRead`, `PropertyValueResponse` or `PropertyValueWrite`
respectively. -/
theorem createPropertyValueTpdu_spec (mode : QKnxTpduFactory.Mode)
    (objectIndex property nbElement startIndex : Nat) (data : List Nat) (seqNumber : Nat) :
    ((QKnxTpduFactory.PointToPoint.createPropertyValueReadTpdu mode objectIndex property
          nbElement startIndex seqNumber).tpci = TransportControlField.Invalid
        ↔ nbElement > 15 ∨ startIndex > 4095 ∨ seqNumber > 15)
      ∧ ((QKnxTpduFactory.PointToPoint.createPropertyValueResponseTpdu mode objectIndex property
          nbElement startIndex data seqNumber).tpci = TransportControlField.Invalid
        ↔ nbElement > 15 ∨ startIndex > 4095 ∨ data.length > 249 ∨ seqNumber > 15)
      ∧ ((QKnxTpduFactory.PointToPoint.createPropertyValueWriteTpdu mode objectIndex property
          nbElement startIndex data seqNumber).tpci = TransportControlField.Invalid
        ↔ nbElement > 15 ∨ startIndex > 4095 ∨ data.length > 249 ∨ seqNumber > 15)
      ∧ ((QKnxTpduFactory.PointToPoint.createPropertyValueReadTpdu mode objectIndex property
          nbElement startIndex seqNumber).tpci ≠ TransportControlField.Invalid →
        (QKnxTpduFactory.PointToPoint.createPropertyValueReadTpdu mode objectIndex property
          nbElement startIndex seqNumber).apci = ApplicationControlField.PropertyValueRead)
      ∧ ((QKnxTpduFactory.PointToPoint.createPropertyValueResponseTpdu mode objectIndex property
          nbElement startIndex data seqNumber).tpci ≠ TransportControlField.Invalid →
        (QKnxTpduFactory.PointToPoint.createPropertyValueResponseTpdu mode objectIndex property
          nbElement startIndex data seqNumber).apci
            = ApplicationControlField.PropertyValueResponse)
      ∧ ((QKnxTpduFactory.PointToPoint.createPropertyValueWriteTpdu mode objectIndex property
          nbElement startIndex data seqNumber).tpci ≠ TransportControlField.Invalid →
        (QKnxTpduFactory.PointToPoint.createPropertyValueWriteTpdu mode objectIndex property
          nbElement startIndex data seqNumber).apci
            = ApplicationControlField.PropertyValueWrite) := by
  unfold QKnxTpduFactory.PointToPoint.createPropertyValueReadTpdu
    QKnxTpduFactory.PointToPoint.createPropertyValueResponseTpdu
    QKnxTpduFactory.PointToPoint.createPropertyValueWriteTpdu
    QKnxTpduFactory.PointToPoint.createPropertyValueTpdu
  have hnil : ¬ ([] : List Nat).length > 249 := by simp
  rw [if_neg hnil]
  dsimp only
  refine ⟨?_, ?_, ?_, ?_, ?_, ?_⟩
  · split_ifs with h
    · simp only [QKnxTpduFactory.invalid, true_iff]
      tauto
    · simp only [tpci_eq_invalid_iff]
      tauto
  · split_ifs with h1 h2
    · simp only [QKnxTpduFactory.invalid, true_iff]
      tauto
    · simp only [QKnxTpduFactory.invalid, true_iff]
      tauto
    · simp only [tpci_eq_invalid_iff]
      tauto
  · split_ifs with h1 h2
    · simp only [QKnxTpduFactory.invalid, true_iff]
      tauto
    · simp only [QKnxTpduFactory.invalid, true_iff]
      tauto
    · simp only [tpci_eq_invalid_iff]
      tauto
  · split_ifs with h
    · simp [QKnxTpduFactory.invalid]
    · simp
  · split_ifs with h1 h2
    · simp [QKnxTpduFactory.invalid]
    · simp [QKnxTpduFactory.invalid]
    · simp
  · split_ifs with h1 h2
    · simp [QKnxTpduFactory.invalid]
    · simp [QKnxTpduFactory.invalid]
    · simp

theorem createPropertyValueTpdu_spec_witness :
    (QKnxTpduFactory.PointToPoint.createPropertyValueReadTpdu
        QKnxTpduFactory.Mode.Connectionless 0 0x0b 1 1 0).apci
        = ApplicationControlField.PropertyValueRead
      ∧ (QKnxTpduFactory.PointToPoint.createPropertyValueResponseTpdu
        QKnxTpduFactory.Mode.Connectionless 0 0x0b 1 1 [0xaa] 0).apci
        = ApplicationControlField.PropertyValueResponse
      ∧ (QKnxTpduFactory.PointToPoint.createPropertyValueWriteTpdu
        QKnxTpduFactory.Mode.Connectionless 0 0x0b 1 1 [0xaa] 0).apci
        = ApplicationControlField.PropertyValueWrite :=
  ⟨(createPropertyValueTpdu_spec QKnxTpduFactory.Mode.Connectionless 0 0x0b 1 1 [0xaa]
      0).2.2.2.1 (by decide),
    (createPropertyValueTpdu_spec QKnxTpduFactory.Mode.Connectionless 0 0x0b 1 1 [0xaa]
      0).2.2.2.2.1 (by decide),
    (createPropertyValueTpdu_spec QKnxTpduFactory.Mode.Connectionless 0 0x0b 1 1 [0xaa]
      0).2.2.2.2.2 (by decide)⟩

/-- The payload of an accepted property value TPDU: object index, property, the
number of elements in the high nibble of the first byte of the start index,
and the data. -/
theorem createPropertyValueTpdu_example :
    QKnxTpduFactory.PointToPoint.createPropertyValueWriteTpdu
        QKnxTpduFactory.Mode.ConnectionOriented 0 0x0b 1 0x123 [0xaa] 2
      = ⟨TransportControlField.DataConnected, ApplicationControlField.PropertyValueWrite, 2,
          [0x00, 0x0b, 0x11, 0x23, 0xaa]⟩ := by
  decide

/-! ### Network parameter response -/

/-- C28: for an object type of 16 bits and a property of 8 bits,
`createNetworkParameterResponseTpdu` gives an invalid TPDU iff the test result
has more than 21 bytes, or test information and test result together have more
than 250 bytes, or the property does not match the object type; otherwise it
gives a `DataIndividual` TPDU with the application control field
`NetworkParameterResponse` whose payload is the high and the low byte of the
object type, the property, the test information and the test result. -/
theorem createNetworkParameterResponseTpdu_spec (io : QKnxInterfaceObject)
    (object property : Nat) (testInfo testResult : List Nat)
    (hobject : object < 65536) (hproperty : property < 256) :
    ((QKnxTpduFactory.PointToPointConnectionless.createNetworkParameterResponseTpdu io object
          property testInfo testResult).tpci = TransportControlField.Invalid
        ↔ testResult.length > 21 ∨ testInfo.length + testResult.length > 250
          ∨ io.isMatch object property = false)
      ∧ (¬ (testResult.length > 21 ∨ testInfo.length + testResult.length > 250
            ∨ io.isMatch object property = false) →
          QKnxTpduFactory.PointToPointConnectionless.createNetworkParameterResponseTpdu io
              object property testInfo testResult
            = ⟨TransportControlField.DataIndividual,
                ApplicationControlField.NetworkParameterResponse, 0,
                [object / 256, object % 256, property] ++ testInfo ++ testResult⟩) := by
  unfold QKnxTpduFactory.PointToPointConnectionless.createNetworkParameterResponseTpdu
    QKnxTpduFactory.PointToPointConnectionless.createNetworkParameterTpduP2P
  rw [Nat.mod_eq_of_lt hobject, Nat.mod_eq_of_lt hproperty, QUint16_bytes_of_lt hobject]
  constructor
  · split_ifs with h1 h2 h3
    · simp [QKnxTpduFactory.invalid, h1]
    · simp [QKnxTpduFactory.invalid, h2]
    · simp only [QKnxTpduFactory.invalid, true_iff]
      right
      right
      simpa using h3
    · have h4 : io.isMatch object property = true := by simpa using h3
      simp [h1, h2, h4]
  · intro hn
    have h1 : ¬ testResult.length > 21 := fun hc => hn (Or.inl hc)
    have h2 : ¬ testInfo.length + testResult.length > 250 := fun hc => hn (Or.inr (Or.inl hc))
    have h3 : io.isMatch object property = true := by
      cases hm : io.isMatch object property
      · exact absurd (Or.inr (Or.inr hm)) hn
      · rfl
    simp [h1, h2, h3]

theorem createNetworkParameterResponseTpdu_spec_witness :
    QKnxTpduFactory.PointToPointConnectionless.createNetworkParameterResponseTpdu
        exampleInterfaceObject 0x0001 0x0b [0xaa] [0xbb, 0xcc]
      = ⟨TransportControlField.DataIndividual,
          ApplicationControlField.NetworkParameterResponse, 0,
          [0x00, 0x01, 0x0b, 0xaa, 0xbb, 0xcc]⟩ :=
  (createNetworkParameterResponseTpdu_spec exampleInterfaceObject 0x0001 0x0b [0xaa]
    [0xbb, 0xcc] (by decide) (by decide)).2 (by decide)

/-! ### Restart -/

/-- C29: for an erase code and a channel number of 8 bits, `createRestartTpdu`
gives, for the reset type `BasicRestart`, a TPDU with the application control
field `Restart` and no payload byte, whatever the erase code and the channel.
For any other reset type it gives the invalid TPDU when the erase code is
`Reserved` or at least `Invalid`, or when the erase code is `ConfirmedRestart`,
`ResetIa` or `ResetAp` and the channel number is not 0; in every remaining case
the payload is `[0x01, eraseCode, channelNumber]`. -/
theorem createRestartTpdu_spec (codes : EraseCode) (mode : QKnxTpduFactory.Mode)
    (type : ResetType) (eraseCode channelNumber seqNumber : Nat)
    (herase : eraseCode < 256) (hchannel : channelNumber < 256) :
    (type = ResetType.BasicRestart →
        QKnxTpduFactory.PointToPoint.createRestartTpdu codes mode type eraseCode channelNumber
            seqNumber
          = ⟨QKnxTpduFactory.tpci mode seqNumber, ApplicationControlField.Restart, seqNumber,
              []⟩)
      ∧ (type ≠ ResetType.BasicRestart →
          (eraseCode = codes.Reserved ∨ eraseCode ≥ codes.Invalid
            ∨ ((eraseCode = codes.ConfirmedRestart ∨ eraseCode = codes.ResetIa
                ∨ eraseCode = codes.ResetAp) ∧ channelNumber ≠ 0)) →
          QKnxTpduFactory.PointToPoint.createRestartTpdu codes mode type eraseCode
              channelNumber seqNumber
            = ⟨TransportControlField.Invalid, ApplicationControlField.Invalid, 0, []⟩)
      ∧ (type ≠ ResetType.BasicRestart →
          ¬ (eraseCode = codes.Reserved ∨ eraseCode ≥ codes.Invalid
            ∨ ((eraseCode = codes.ConfirmedRestart ∨ eraseCode = codes.ResetIa
                ∨ eraseCode = codes.ResetAp) ∧ channelNumber ≠ 0)) →
          QKnxTpduFactory.PointToPoint.createRestartTpdu codes mode type eraseCode
              channelNumber seqNumber
            = ⟨QKnxTpduFactory.tpci mode seqNumber, ApplicationControlField.Restart, seqNumber,
                [0x01, eraseCode, channelNumber]⟩) := by
  unfold QKnxTpduFactory.PointToPoint.createRestartTpdu
  rw [Nat.mod_eq_of_lt herase, QUint8_bytes_of_lt herase, QUint8_bytes_of_lt hchannel,
    QUint8_bytes_of_lt (show 0x01 < 256 by decide)]
  refine ⟨?_, ?_, ?_⟩
  · intro ht
    rw [if_pos ht]
  · intro ht hbad
    rw [if_neg ht]
    split_ifs with h1 h2
    · rfl
    · rfl
    · exfalso
      rcases hbad with hb | hb | hb
      · exact h1 (Or.inl hb)
      · exact h1 (Or.inr hb)
      · exact h2 hb
  · intro ht hok
    rw [if_neg ht]
    have h1 : ¬ (eraseCode = codes.Reserved ∨ eraseCode ≥ codes.Invalid) := by
      tauto
    have h2 : ¬ ((eraseCode = codes.ConfirmedRestart ∨ eraseCode = codes.ResetIa
        ∨ eraseCode = codes.ResetAp) ∧ channelNumber ≠ 0x00) := by
      tauto
    rw [if_neg h1, if_neg h2]
    rfl

theorem createRestartTpdu_spec_witness :
    QKnxTpduFactory.PointToPoint.createRestartTpdu exampleEraseCode
        QKnxTpduFactory.Mode.Connectionless ResetType.BasicRestart 9 7 0
      = ⟨TransportControlField.DataIndividual, ApplicationControlField.Restart, 0, []⟩
      ∧ QKnxTpduFactory.PointToPoint.createRestartTpdu exampleEraseCode
        QKnxTpduFactory.Mode.Connectionless (ResetType.Other 1) 3 7 0
      = ⟨TransportControlField.Invalid, ApplicationControlField.Invalid, 0, []⟩
      ∧ QKnxTpduFactory.PointToPoint.createRestartTpdu exampleEraseCode
        QKnxTpduFactory.Mode.Connectionless (ResetType.Other 1) 2 7 0
      = ⟨TransportControlField.DataIndividual, ApplicationControlField.Restart, 0,
          [0x01, 2, 7]⟩ :=
  ⟨(createRestartTpdu_spec exampleEraseCode QKnxTpduFactory.Mode.Connectionless
      ResetType.BasicRestart 9 7 0 (by decide) (by decide)).1 rfl,
    (createRestartTpdu_spec exampleEraseCode QKnxTpduFactory.Mode.Connectionless
      (ResetType.Other 1) 3 7 0 (by decide) (by decide)).2.1 (by decide) (by decide),
    (createRestartTpdu_spec exampleEraseCode QKnxTpduFactory.Mode.Connectionless
      (ResetType.Other 1) 2 7 0 (by decide) (by decide)).2.2 (by decide) (by decide)⟩

/-! ### ADC services -/

/-- C30: `createAdcResponseTpdu(1, 2, 0x0304, 0)` gives a TPDU whose application
control field is `AdcRead`, the field of `createAdcReadTpdu`, and not
`AdcResponse`. For every channel up to 0x3F, read count of 8 bits, sum of 16
bits and sequence number up to 15 it gives a `DataConnected` TPDU with the
field `AdcRead` and the payload channel, read count, high and low byte of the
sum; for a channel above 0x3F both ADC functions give an invalid TPDU. -/
theorem createAdcResponseTpdu_apci :
    QKnxTpduFactory.PointToPointConnectionOriented.createAdcResponseTpdu 1 2 0x0304 0
        = ⟨TransportControlField.DataConnected, ApplicationControlField.AdcRead, 0,
            [0x01, 0x02, 0x03, 0x04]⟩
      ∧ (QKnxTpduFactory.PointToPointConnectionOriented.createAdcResponseTpdu 1 2 0x0304 0).apci
        ≠ ApplicationControlField.AdcResponse
      ∧ (QKnxTpduFactory.PointToPointConnectionOriented.createAdcResponseTpdu 1 2 0x0304 0).apci
        = (QKnxTpduFactory.PointToPointConnectionOriented.createAdcReadTpdu 1 2 0).apci
      ∧ (∀ channel readCount sumOfAdc seqNumber : Nat,
          channel ≤ 0x3f → readCount < 256 → sumOfAdc < 65536 → seqNumber ≤ 15 →
          QKnxTpduFactory.PointToPointConnectionOriented.createAdcResponseTpdu channel
              readCount sumOfAdc seqNumber
            = ⟨TransportControlField.DataConnected, ApplicationControlField.AdcRead, seqNumber,
                [channel, readCount, sumOfAdc / 256, sumOfAdc % 256]⟩)
      ∧ (∀ channel readCount sumOfAdc seqNumber : Nat, channel > 0x3f →
          (QKnxTpduFactory.PointToPointConnectionOriented.createAdcReadTpdu channel readCount
              seqNumber).tpci = TransportControlField.Invalid
            ∧ (QKnxTpduFactory.PointToPointConnectionOriented.createAdcResponseTpdu channel
              readCount sumOfAdc seqNumber).tpci = TransportControlField.Invalid) := by
  refine ⟨by decide, by decide, by decide, ?_, ?_⟩
  · intro channel readCount sumOfAdc seqNumber hc hr hsum hseq
    unfold QKnxTpduFactory.PointToPointConnectionOriented.createAdcResponseTpdu
    have h : ¬ channel > 0x3f := by omega
    rw [if_neg h]
    dsimp only
    rw [tpci_connectionOriented hseq, QUint8_bytes_of_lt (show channel < 256 by omega),
      QUint8_bytes_of_lt hr, QUint16_bytes_of_lt hsum]
    rfl
  · intro channel readCount sumOfAdc seqNumber hc
    unfold QKnxTpduFactory.PointToPointConnectionOriented.createAdcReadTpdu
      QKnxTpduFactory.PointToPointConnectionOriented.createAdcResponseTpdu
    rw [if_pos hc, if_pos hc]
    exact ⟨rfl, rfl⟩

/-! ## Number of elements and start index of a device management frame -/

theorem highNibble_eq (b : Nat) : ((b &&& 0xf0) % 256) >>> 4 = b / 16 % 16 := by
  have h1 : b &&& 0xf0 = ((b >>> 4) &&& 0xf) <<< 4 := and_shiftLeft_mask b 0xf 4
  have h2 : (b >>> 4) &&& 0xf = (b >>> 4) % 16 := and_0x0f _
  rw [h1, h2, Nat.shiftLeft_eq, Nat.shiftRight_eq_div_pow, Nat.shiftRight_eq_div_pow]
  omega

theorem and_0xfff (v : Nat) : v &&& 0x0fff = v % 4096 := and_mask v 12

theorem and_0xf000 (s : Nat) (hs : s < 65536) : s &&& 0xf000 = 4096 * (s / 4096) := by
  have h1 : s &&& 0xf000 = ((s >>> 12) &&& 0xf) <<< 12 := and_shiftLeft_mask s 0xf 12
  have h2 : (s >>> 12) &&& 0xf = (s >>> 12) % 16 := and_0x0f _
  rw [h1, h2, Nat.shiftLeft_eq, Nat.shiftRight_eq_div_pow]
  omega

theorem or_low12 (q i : Nat) (hi : i < 4096) : 4096 * q ||| i = 4096 * q + i :=
  (Nat.mul_add_lt_is_or (i := 12) (b := i) (by omega) q).symm

theorem setNibble_eq (a n : Nat) :
    ((a &&& 0xf) ||| (n <<< 4)) = a % 16 + 16 * n := by
  have h1 : a &&& 0xf = a % 16 := and_0x0f a
  have h2 : n <<< 4 = 2 ^ 4 * n := by rw [Nat.shiftLeft_eq, Nat.mul_comm]
  have h3 := Nat.mul_add_lt_is_or (i := 4) (b := a % 16) (by omega) n
  rw [h1, h2, Nat.or_comm, ← h3]
  omega

theorem serviceInformation_split (si : List Nat) (hlen : 6 ≤ si.length) :
    ∃ a0 a1 a2 a3 a4 a5 rest, si = a0 :: a1 :: a2 :: a3 :: a4 :: a5 :: rest := by
  match si, hlen with
  | a0 :: a1 :: a2 :: a3 :: a4 :: a5 :: rest, _ => exact ⟨a0, a1, a2, a3, a4, a5, rest, rfl⟩

/-- C36: for every device management frame with at least 6 bytes of service
information, all of 8 bits: after `setNumberOfElements(n)` with `n <= 15` the
number of elements is `n` and the start index is as before; after
`setStartIndex(i)` with `i <= 4095` the start index is `i` and the number of
elements is as before; message code, object type, object instance and property
are as before after both; and with `n > 15` or `i > 4095` the setter leaves the
frame as it is. -/
theorem deviceManagement_setters (f : QKnxDeviceManagementFrame) (n i : Nat)
    (hlen : 6 ≤ f.serviceInformation.length) (hbytes : ∀ b ∈ f.serviceInformation, b < 256) :
    (n ≤ 15 →
        (f.setNumberOfElements n).numberOfElements = n
        ∧ (f.setNumberOfElements n).startIndex = f.startIndex
        ∧ (f.setNumberOfElements n).messageCode = f.messageCode
        ∧ (f.setNumberOfElements n).objectType = f.objectType
        ∧ (f.setNumberOfElements n).objectInstance = f.objectInstance
        ∧ (f.setNumberOfElements n).property = f.property)
      ∧ (i ≤ 4095 →
        (f.setStartIndex i).startIndex = i
        ∧ (f.setStartIndex i).numberOfElements = f.numberOfElements
        ∧ (f.setStartIndex i).messageCode = f.messageCode
        ∧ (f.setStartIndex i).objectType = f.objectType
        ∧ (f.setStartIndex i).objectInstance = f.objectInstance
        ∧ (f.setStartIndex i).property = f.property)
      ∧ (n > 15 → f.setNumberOfElements n = f)
      ∧ (i > 4095 → f.setStartIndex i = f) := by
  obtain ⟨code, si⟩ := f
  obtain ⟨a0, a1, a2, a3, a4, a5, rest, rfl⟩ := serviceInformation_split si hlen
  have h4 : a4 < 256 := hbytes a4 (by simp)
  have h5 : a5 < 256 := hbytes a5 (by simp)
  refine ⟨?_, ?_, ?_, ?_⟩
  · intro hn
    have hn1 : ¬ n > 0xf := by omega
    simp only [QKnxDeviceManagementFrame.setNumberOfElements, hn1, if_false,
      QKnxDeviceManagementFrame.numberOfElements, QKnxDeviceManagementFrame.startIndex,
      QKnxDeviceManagementFrame.objectType, QKnxDeviceManagementFrame.objectInstance,
      QKnxDeviceManagementFrame.property, QKnxByteStore.setByte, QKnxByteStore.byte,
      List.length_cons, List.set_cons_succ, List.set_cons_zero, List.getD_cons_succ,
      List.getD_cons_zero, List.drop_succ_cons, List.drop_zero, QKnxUtils.QUint16.fromBytes,
      highNibble_eq, and_0xfff, setNibble_eq]
    have hle : ¬ (rest.length + 1 + 1 + 1 + 1 + 1 + 1 ≤ 4) := by omega
    simp only [hle, if_false, List.set_cons_succ, List.set_cons_zero, List.getD_cons_succ,
      List.getD_cons_zero, List.drop_succ_cons, List.drop_zero, QKnxUtils.QUint16.fromBytes,
      and_0xfff]
    refine ⟨by omega, by omega, trivial, trivial, trivial, trivial⟩
  · intro hi
    have hi1 : ¬ i > 0x0fff := by omega
    have hs : (a4 * 256 + a5) % 65536 = a4 * 256 + a5 := by omega
    have hle : 4 + 2 ≤ rest.length + 1 + 1 + 1 + 1 + 1 + 1 := by omega
    simp only [QKnxDeviceManagementFrame.setStartIndex, hi1, if_false,
      QKnxDeviceManagementFrame.numberOfElements, QKnxDeviceManagementFrame.startIndex,
      QKnxDeviceManagementFrame.objectType, QKnxDeviceManagementFrame.objectInstance,
      QKnxDeviceManagementFrame.property, QKnxByteStore.replaceBytes, QKnxByteStore.byte,
      QKnxUtils.QUint16.bytes, List.length_cons, List.length_nil, List.drop_succ_cons,
      List.drop_zero, List.take_succ_cons, List.take_zero, QKnxUtils.QUint16.fromBytes, hs,
      and_0xf000 _ (show a4 * 256 + a5 < 65536 by omega), or_low12 _ _ (show i < 4096 by omega),
      hle, if_true, List.cons_append, List.nil_append, List.getD_cons_succ,
      List.getD_cons_zero, highNibble_eq, and_0xfff]
    simp only [Nat.shiftRight_eq_div_pow]
    refine ⟨by omega, by omega, trivial, trivial, trivial, trivial⟩
  · intro hn
    simp [QKnxDeviceManagementFrame.setNumberOfElements, hn]
  · intro hi
    simp [QKnxDeviceManagementFrame.setStartIndex, hi]

theorem deviceManagement_setters_witness :
    ((negativeConfirmation.setNumberOfElements 3).numberOfElements = 3
        ∧ (negativeConfirmation.setNumberOfElements 3).startIndex
          = negativeConfirmation.startIndex
        ∧ (negativeConfirmation.setNumberOfElements 3).messageCode
          = negativeConfirmation.messageCode
        ∧ (negativeConfirmation.setNumberOfElements 3).objectType
          = negativeConfirmation.objectType
        ∧ (negativeConfirmation.setNumberOfElements 3).objectInstance
          = negativeConfirmation.objectInstance
        ∧ (negativeConfirmation.setNumberOfElements 3).property
          = negativeConfirmation.property)
      ∧ (negativeConfirmation.setStartIndex 0x123).startIndex = 0x123
      ∧ negativeConfirmation.setNumberOfElements 16 = negativeConfirmation
      ∧ negativeConfirmation.setStartIndex 4096 = negativeConfirmation :=
  ⟨(deviceManagement_setters negativeConfirmation 3 0x123 (by decide) (by decide)).1
      (by decide),
    ((deviceManagement_setters negativeConfirmation 3 0x123 (by decide) (by decide)).2.1
      (by decide)).1,
    (deviceManagement_setters negativeConfirmation 16 4096 (by decide) (by decide)).2.2.1
      (by decide),
    (deviceManagement_setters negativeConfirmation 16 4096 (by decide) (by decide)).2.2.2
      (by decide)⟩

/-! ## The connection header -/

theorem QUint8_fromBytes_append (pre l : List Nat) (k : Nat) :
    QKnxUtils.QUint8.fromBytes (pre ++ l) (pre.length + k) = QKnxUtils.QUint8.fromBytes l k := by
  unfold QKnxUtils.QUint8.fromBytes
  have h1 : (pre ++ l).length ≤ pre.length + k ↔ l.length ≤ k := by
    rw [List.length_append]
    omega
  have h2 : (pre ++ l).getD (pre.length + k) 0 = l.getD k 0 := by
    rw [List.getD_append_right _ _ _ _ (by omega)]
    congr 1
    omega
  by_cases h : l.length ≤ k
  · rw [if_pos h, if_pos (h1.mpr h)]
  · rw [if_neg h, if_neg (fun hc => h (h1.mp hc)), h2]

theorem fromBytes_append (pre l : List Nat) :
    QKnxNetIpConnectionHeader.fromBytes (pre ++ l) pre.length
      = QKnxNetIpConnectionHeader.fromBytes l 0 := by
  have h0 := QUint8_fromBytes_append pre l 0
  have h1 := QUint8_fromBytes_append pre l 1
  have h2 := QUint8_fromBytes_append pre l 2
  have h3 := QUint8_fromBytes_append pre l 3
  have hd : (pre ++ l).drop (pre.length + 4) = l.drop 4 := List.drop_append 4
  have hl : (((pre ++ l).length : Nat) : Int) - ((pre.length : Nat) : Int) = (l.length : Int) := by
    rw [List.length_append]
    push_cast
    ring
  simp only [Nat.add_zero] at h0
  simp only [QKnxNetIpConnectionHeader.fromBytes, h0, h1, h2, h3, hd, hl, Nat.zero_add,
    Nat.cast_zero, sub_zero]

theorem exists_split_at (b : List Nat) (i : Nat) (h : i + 4 ≤ b.length) :
    ∃ pre x0 x1 x2 x3 rest, b = pre ++ x0 :: x1 :: x2 :: x3 :: rest ∧ pre.length = i := by
  have hd : 4 ≤ (b.drop i).length := by
    rw [List.length_drop]
    omega
  match hq : b.drop i, hd with
  | x0 :: x1 :: x2 :: x3 :: rest, _ =>
    refine ⟨b.take i, x0, x1, x2, x3, rest, ?_, ?_⟩
    · rw [← hq, List.take_append_drop]
    · rw [List.length_take]
      omega

theorem fromBytes_head (n c s v : Nat) (rest : List Nat) (hn4 : 4 ≤ n) (hn : n < 256)
    (hc : c < 256) (hs : s < 256) (hv : v < 256) (havail : n ≤ rest.length + 4) :
    QKnxNetIpConnectionHeader.fromBytes (n :: c :: s :: v :: rest) 0
      = ⟨n :: c :: s :: v :: rest.take (n - 4)⟩ := by
  have hlen : ¬ (((n :: c :: s :: v :: rest).length : Int) - ((0 : Nat) : Int) < 1) := by
    simp only [List.length_cons]
    push_cast
    omega
  have htot : QKnxUtils.QUint8.fromBytes (n :: c :: s :: v :: rest) 0 = n := by
    simp [QKnxUtils.QUint8.fromBytes, Nat.mod_eq_of_lt hn]
  have hch : QKnxUtils.QUint8.fromBytes (n :: c :: s :: v :: rest) (0 + 1) = c := by
    simp [QKnxUtils.QUint8.fromBytes, Nat.mod_eq_of_lt hc]
  have hse : QKnxUtils.QUint8.fromBytes (n :: c :: s :: v :: rest) (0 + 2) = s := by
    simp [QKnxUtils.QUint8.fromBytes, Nat.mod_eq_of_lt hs]
  have hva : QKnxUtils.QUint8.fromBytes (n :: c :: s :: v :: rest) (0 + 3) = v := by
    simp [QKnxUtils.QUint8.fromBytes, Nat.mod_eq_of_lt hv]
  have hav : ¬ (((n :: c :: s :: v :: rest).length : Int) - ((0 : Nat) : Int) < (n : Int)) := by
    simp only [List.length_cons]
    push_cast
    omega
  unfold QKnxNetIpConnectionHeader.fromBytes
  simp only [hlen, if_false, htot, hch, hse, hva, hav]
  by_cases h4 : n > 4
  · have hlen2 : (List.take (n - 4) rest).length = n - 4 := by
      rw [List.length_take]
      omega
    have hbyte : ((n - 4) % 256 + 4) % 256 = n := by omega
    simp only [h4, if_true, QKnxNetIpConnectionHeader.setConnectionTypeSpecificHeaderItems,
      QKnxNetIpConnectionHeader.create, QKnxByteStore.insertBytes, QKnxByteStore.setByte,
      Nat.mod_eq_of_lt hc, Nat.mod_eq_of_lt hs, Nat.mod_eq_of_lt hv, Nat.zero_add,
      List.drop_succ_cons, List.drop_zero, List.take_succ_cons, List.take_zero,
      List.cons_append, List.nil_append, List.drop_nil, List.append_nil, hlen2, hbyte,
      List.length_cons, List.length_take]
    have hle : ¬ (n - 4 + 1 + 1 + 1 + 1 ≤ 0) := by omega
    simp only [hle, if_false, List.set_cons_zero]
  · have hn' : n = 4 := by omega
    subst hn'
    simp only [h4, if_false, QKnxNetIpConnectionHeader.create, Nat.mod_eq_of_lt hc,
      Nat.mod_eq_of_lt hs, Nat.mod_eq_of_lt hv, Nat.sub_self, List.take_zero]

/-- C33: for every buffer `b` of bytes and every index `i` such that the byte
`n = b[i]` is at least 4 and at least `n` bytes are there from the index `i` on,
`fromBytes(b, i)` gives a valid header whose channel id is `b[i+1]`, whose
sequence count is `b[i+2]`, whose service type specific value is `b[i+3]`,
whose connection type specific items are the bytes `b[i+4 .. i+n)`, and whose
bytes are `b[i .. i+n)`. -/
theorem connectionHeader_fromBytes (b : List Nat) (i : Nat) (hbytes : ∀ x ∈ b, x < 256)
    (hn4 : 4 ≤ b.getD i 0) (havail : i + b.getD i 0 ≤ b.length) :
    (QKnxNetIpConnectionHeader.fromBytes b i).isValid = true
      ∧ (QKnxNetIpConnectionHeader.fromBytes b i).channelId = b.getD (i + 1) 0
      ∧ (QKnxNetIpConnectionHeader.fromBytes b i).sequenceCount = b.getD (i + 2) 0
      ∧ (QKnxNetIpConnectionHeader.fromBytes b i).serviceTypeSpecificValue = b.getD (i + 3) 0
      ∧ (QKnxNetIpConnectionHeader.fromBytes b i).connectionTypeSpecificHeaderItems
        = (b.drop (i + 4)).take (b.getD i 0 - 4)
      ∧ (QKnxNetIpConnectionHeader.fromBytes b i).bytes = (b.drop i).take (b.getD i 0) := by
  obtain ⟨pre, n, c, s, v, rest, rfl, rfl⟩ := exists_split_at b i (by omega)
  have hg0 : (pre ++ n :: c :: s :: v :: rest).getD pre.length 0 = n := by
    rw [List.getD_append_right _ _ _ _ (by omega)]
    simp
  have hg : ∀ k, (pre ++ n :: c :: s :: v :: rest).getD (pre.length + k) 0
      = (n :: c :: s :: v :: rest).getD k 0 := by
    intro k
    rw [List.getD_append_right _ _ _ _ (by omega)]
    congr 1
    omega
  have hd0 : (pre ++ n :: c :: s :: v :: rest).drop pre.length = n :: c :: s :: v :: rest := by
    simp
  have hd4 : (pre ++ n :: c :: s :: v :: rest).drop (pre.length + 4) = rest := by
    simp
  rw [hg0] at hn4 havail
  have hn : n < 256 := hbytes n (by simp)
  have hc : c < 256 := hbytes c (by simp)
  have hs : s < 256 := hbytes s (by simp)
  have hv : v < 256 := hbytes v (by simp)
  have hav : n ≤ rest.length + 4 := by
    simp only [List.length_append, List.length_cons] at havail
    omega
  rw [fromBytes_append, fromBytes_head n c s v rest hn4 hn hc hs hv hav, hg0, hg 1, hg 2,
    hg 3, hd0, hd4]
  have hlen : (List.take (n - 4) rest).length = n - 4 := by
    rw [List.length_take]
    omega
  have htake : List.take n (n :: c :: s :: v :: rest) = n :: c :: s :: v :: rest.take (n - 4) := by
    obtain ⟨m, rfl⟩ : ∃ m, n = m + 4 := ⟨n - 4, by omega⟩
    simp
  refine ⟨?_, rfl, rfl, rfl, ?_, ?_⟩
  · simp only [QKnxNetIpConnectionHeader.isValid, QKnxNetIpConnectionHeader.size,
      QKnxByteStore.byte, List.length_cons, hlen, List.getD_cons_zero]
    have e : n - 4 + 1 + 1 + 1 + 1 = n := by omega
    simp [e, hn4]
  · simp only [QKnxNetIpConnectionHeader.connectionTypeSpecificHeaderItems,
      QKnxNetIpConnectionHeader.size, QKnxByteStore.bytes, List.length_cons, hlen,
      List.drop_succ_cons, List.drop_zero]
    rw [List.take_of_length_le (by rw [hlen]; omega)]
  · simp only [QKnxNetIpConnectionHeader.bytes]
    exact htake.symm

theorem connectionHeader_fromBytes_witness :
    (QKnxNetIpConnectionHeader.fromBytes exampleBuffer 1).isValid = true
      ∧ (QKnxNetIpConnectionHeader.fromBytes exampleBuffer 1).channelId = 0x01
      ∧ (QKnxNetIpConnectionHeader.fromBytes exampleBuffer 1).sequenceCount = 0x02
      ∧ (QKnxNetIpConnectionHeader.fromBytes exampleBuffer 1).serviceTypeSpecificValue = 0x03
      ∧ (QKnxNetIpConnectionHeader.fromBytes exampleBuffer 1).connectionTypeSpecificHeaderItems
        = [0xaa, 0xbb]
      ∧ (QKnxNetIpConnectionHeader.fromBytes exampleBuffer 1).bytes
        = [0x06, 0x01, 0x02, 0x03, 0xaa, 0xbb] :=
  connectionHeader_fromBytes exampleBuffer 1 (by decide) (by decide) (by decide)

/-- C34: `fromBytes(b, i)` gives the empty header, which is not valid, when no byte
is there at the index `i` and when fewer bytes are there from `i` on than the
byte `b[i]` says. But from the buffer `03 01 02 09`, whose size byte is 3, it
gives the valid header `04 01 02 09`, the same header as from `04 01 02 09`;
and from the buffer `00` it gives the valid header `04 00 00 00`. -/
theorem connectionHeader_fromBytes_short :
    (∀ (b : List Nat) (i : Nat), b.length ≤ i →
        QKnxNetIpConnectionHeader.fromBytes b i = QKnxNetIpConnectionHeader.empty)
      ∧ (∀ (b : List Nat) (i : Nat), i < b.length →
        b.length - i < QKnxUtils.QUint8.fromBytes b i →
        QKnxNetIpConnectionHeader.fromBytes b i = QKnxNetIpConnectionHeader.empty)
      ∧ QKnxNetIpConnectionHeader.empty.isValid = false
      ∧ QKnxNetIpConnectionHeader.fromBytes [0x03, 0x01, 0x02, 0x09] 0
        = ⟨[0x04, 0x01, 0x02, 0x09]⟩
      ∧ (QKnxNetIpConnectionHeader.fromBytes [0x03, 0x01, 0x02, 0x09] 0).isValid = true
      ∧ QKnxNetIpConnectionHeader.fromBytes [0x03, 0x01, 0x02, 0x09] 0
        = QKnxNetIpConnectionHeader.fromBytes [0x04, 0x01, 0x02, 0x09] 0
      ∧ QKnxNetIpConnectionHeader.fromBytes [0x00] 0 = ⟨[0x04, 0x00, 0x00, 0x00]⟩
      ∧ (QKnxNetIpConnectionHeader.fromBytes [0x00] 0).isValid = true := by
  refine ⟨?_, ?_, by decide, by decide, by decide, by decide, by decide, by decide⟩
  · intro b i h
    have h1 : ((b.length : Nat) : Int) - ((i : Nat) : Int) < 1 := by omega
    simp only [QKnxNetIpConnectionHeader.fromBytes, h1, if_true]
  · intro b i hi h
    have h1 : ¬ (((b.length : Nat) : Int) - ((i : Nat) : Int) < 1) := by omega
    have h2 : ((b.length : Nat) : Int) - ((i : Nat) : Int)
        < ((QKnxUtils.QUint8.fromBytes b i : Nat) : Int) := by omega
    simp only [QKnxNetIpConnectionHeader.fromBytes, h1, if_false, h2, if_true]

/-- C35: on the valid header `05 01 02 03 AA`, which has one item,
`setConnectionTypeSpecificHeaderItems([BB])` gives the bytes `05 01 02 03 BB AA`:
the first byte is 5 and the header has 6 bytes, and
`connectionTypeSpecificHeaderItems()` gives `BB AA`, not `BB`. On a header of
four bytes, which has no item, the first byte is the number of bytes after the
call and the items are the ones that were set, for every list of at most 251
items. -/
theorem connectionHeader_setItems :
    headerWithItem.isValid = true
      ∧ (headerWithItem.setConnectionTypeSpecificHeaderItems [0xbb]).store
        = [0x05, 0x01, 0x02, 0x03, 0xbb, 0xaa]
      ∧ QKnxByteStore.byte (headerWithItem.setConnectionTypeSpecificHeaderItems [0xbb]).store 0
        ≠ (headerWithItem.setConnectionTypeSpecificHeaderItems [0xbb]).size
      ∧ (headerWithItem.setConnectionTypeSpecificHeaderItems
          [0xbb]).connectionTypeSpecificHeaderItems = [0xbb, 0xaa]
      ∧ (headerWithItem.setConnectionTypeSpecificHeaderItems
          [0xbb]).connectionTypeSpecificHeaderItems ≠ [0xbb]
      ∧ (headerWithItem.setConnectionTypeSpecificHeaderItems [0xbb]).isValid = false
      ∧ (∀ (c s v : Nat) (items : List Nat), items.length ≤ 251 →
          QKnxByteStore.byte
              ((QKnxNetIpConnectionHeader.create c s v).setConnectionTypeSpecificHeaderItems
                items).store 0
            = ((QKnxNetIpConnectionHeader.create c s v).setConnectionTypeSpecificHeaderItems
                items).size
          ∧ ((QKnxNetIpConnectionHeader.create c s v).setConnectionTypeSpecificHeaderItems
                items).connectionTypeSpecificHeaderItems = items) := by
  refine ⟨by decide, by decide, by decide, by decide, by decide, by decide, ?_⟩
  intro c s v items hlen
  have hbyte : (items.length % 256 + 4) % 256 = items.length + 4 := by omega
  have hle : ¬ (items.length + 1 + 1 + 1 + 1 ≤ 0) := by omega
  simp only [QKnxNetIpConnectionHeader.setConnectionTypeSpecificHeaderItems,
    QKnxNetIpConnectionHeader.create, QKnxByteStore.insertBytes, QKnxByteStore.setByte,
    QKnxNetIpConnectionHeader.connectionTypeSpecificHeaderItems,
    QKnxNetIpConnectionHeader.size, QKnxByteStore.bytes, QKnxByteStore.byte, hbyte,
    List.drop_succ_cons, List.drop_zero, List.take_succ_cons, List.take_zero,
    List.cons_append, List.nil_append, List.drop_nil, List.append_nil, List.length_cons,
    hle, if_false, List.set_cons_zero, List.getD_cons_zero, List.length_set]
  refine ⟨trivial, ?_⟩
  rw [List.take_of_length_le (by omega)]

/-! ### The payload of the property value services -/

theorem nibble_or {a b : Nat} (ha : a ≤ 15) (hb : b ≤ 15) :
    (((a <<< 4) % 256) ||| (b % 256)) % 256 = 16 * a + b ∧ (a <<< 4) ||| b = 16 * a + b := by
  have h2 : a <<< 4 = 2 ^ 4 * a := by rw [Nat.shiftLeft_eq, Nat.mul_comm]
  have h3 : 2 ^ 4 * a ||| b = 2 ^ 4 * a + b :=
    (Nat.mul_add_lt_is_or (show b < 2 ^ 4 by omega) a).symm
  rw [h2, Nat.mod_eq_of_lt (show 2 ^ 4 * a < 256 by omega),
    Nat.mod_eq_of_lt (show b < 256 by omega), h3]
  exact ⟨by omega, by omega⟩

theorem createPropertyValueTpdu_data (mode : QKnxTpduFactory.Mode) (seqNumber : Nat)
    (apci : ApplicationControlField) (objectIndex property nbElement startIndex : Nat)
    (data : List Nat) (hobject : objectIndex < 256) (hproperty : property < 256)
    (hnb : nbElement ≤ 15) (hsi : startIndex ≤ 4095) (hdata : data.length ≤ 249) :
    (QKnxTpduFactory.PointToPoint.createPropertyValueTpdu mode seqNumber apci objectIndex
        (property % 256) nbElement startIndex data).data
      = [objectIndex, property, (nbElement <<< 4) ||| (startIndex >>> 8), startIndex &&& 0xFF]
        ++ data := by
  have h1 : ¬ data.length > 249 := by omega
  have h2 : ¬ (nbElement > 0x0f ∨ startIndex > 0x0fff) := by omega
  have hhi : startIndex >>> 8 ≤ 15 := by
    rw [Nat.shiftRight_eq_div_pow]
    omega
  have hn := nibble_or hnb hhi
  have hb : (startIndex >>> 8) % 256 = startIndex >>> 8 := by omega
  have hn1 := hn.1
  rw [hb] at hn1
  simp only [QKnxTpduFactory.PointToPoint.createPropertyValueTpdu, h1, h2, if_false,
    QKnxUtils.QUint16.bytes, QKnxUtils.QUint8.bytes, List.getD_cons_zero, List.set_cons_zero,
    Nat.mod_mod, Nat.mod_eq_of_lt hobject, Nat.mod_eq_of_lt hproperty, hb, hn1, hn.2,
    and_0xff, List.cons_append, List.nil_append]

/-- C38: for an object index and a property of 8 bits and valid arguments
(`nbElement <= 15`, `startIndex <= 4095`, at most 249 bytes of data,
`seqNumber <= 15`) the payload of the TPDU of `createPropertyValueReadTpdu`,
`createPropertyValueResponseTpdu` and `createPropertyValueWriteTpdu` is
`[objectIndex, property, (nbElement << 4) | (startIndex >> 8), startIndex & 0xFF]`
followed by the data (none for the read service), and the big-endian 16 bit
word of the payload bytes 2 and 3 has `nbElement` in its high 4 bits and
`startIndex` in its low 12 bits. -/
theorem createPropertyValueTpdu_payload (mode : QKnxTpduFactory.Mode)
    (objectIndex property nbElement startIndex : Nat) (data : List Nat) (seqNumber : Nat)
    (hobject : objectIndex < 256) (hproperty : property < 256)
    (hnb : nbElement ≤ 15) (hsi : startIndex ≤ 4095) (hdata : data.length ≤ 249)
    (hseq : seqNumber ≤ 15) :
    (QKnxTpduFactory.PointToPoint.createPropertyValueReadTpdu mode objectIndex property
          nbElement startIndex seqNumber).tpci ≠ TransportControlField.Invalid
      ∧ (QKnxTpduFactory.PointToPoint.createPropertyValueReadTpdu mode objectIndex property
          nbElement startIndex seqNumber).data
        = [objectIndex, property, (nbElement <<< 4) ||| (startIndex >>> 8),
            startIndex &&& 0xFF]
      ∧ (QKnxTpduFactory.PointToPoint.createPropertyValueResponseTpdu mode objectIndex property
          nbElement startIndex data seqNumber).data
        = [objectIndex, property, (nbElement <<< 4) ||| (startIndex >>> 8),
            startIndex &&& 0xFF] ++ data
      ∧ (QKnxTpduFactory.PointToPoint.createPropertyValueWriteTpdu mode objectIndex property
          nbElement startIndex data seqNumber).data
        = [objectIndex, property, (nbElement <<< 4) ||| (startIndex >>> 8),
            startIndex &&& 0xFF] ++ data
      ∧ QKnxUtils.QUint16.fromBytes
          ((QKnxTpduFactory.PointToPoint.createPropertyValueWriteTpdu mode objectIndex property
            nbElement startIndex data seqNumber).data.drop 2) >>> 12 = nbElement
      ∧ QKnxUtils.QUint16.fromBytes
          ((QKnxTpduFactory.PointToPoint.createPropertyValueWriteTpdu mode objectIndex property
            nbElement startIndex data seqNumber).data.drop 2) &&& 0x0fff = startIndex := by
  have hr := createPropertyValueTpdu_data mode seqNumber
    ApplicationControlField.PropertyValueRead objectIndex property nbElement startIndex []
    hobject hproperty hnb hsi (by simp)
  have hp := createPropertyValueTpdu_data mode seqNumber
    ApplicationControlField.PropertyValueResponse objectIndex property nbElement startIndex data
    hobject hproperty hnb hsi hdata
  have hw := createPropertyValueTpdu_data mode seqNumber
    ApplicationControlField.PropertyValueWrite objectIndex property nbElement startIndex data
    hobject hproperty hnb hsi hdata
  have hhi : startIndex >>> 8 ≤ 15 := by
    rw [Nat.shiftRight_eq_div_pow]
    omega
  have hn := (nibble_or hnb hhi).2
  have hword : QKnxUtils.QUint16.fromBytes
      (([objectIndex, property, (nbElement <<< 4) ||| (startIndex >>> 8),
        startIndex &&& 0xFF] ++ data).drop 2) = 4096 * nbElement + startIndex := by
    simp only [List.cons_append, List.nil_append, List.drop_succ_cons, List.drop_zero,
      QKnxUtils.QUint16.fromBytes, hn, and_0xff]
    rw [Nat.shiftRight_eq_div_pow]
    omega
  unfold QKnxTpduFactory.PointToPoint.createPropertyValueReadTpdu
    QKnxTpduFactory.PointToPoint.createPropertyValueResponseTpdu
    QKnxTpduFactory.PointToPoint.createPropertyValueWriteTpdu
  refine ⟨?_, by simpa using hr, hp, hw, ?_, ?_⟩
  · have h1 : ¬ ([] : List Nat).length > 249 := by simp
    have h2 : ¬ (nbElement > 0x0f ∨ startIndex > 0x0fff) := by omega
    have h3 : ¬ seqNumber > 15 := by omega
    simp only [QKnxTpduFactory.PointToPoint.createPropertyValueTpdu, h1, h2, if_false,
      ne_eq, tpci_eq_invalid_iff, h3, not_false_eq_true]
  · rw [hw, hword, Nat.shiftRight_eq_div_pow]
    omega
  · rw [hw, hword, and_0xfff]
    omega

theorem createPropertyValueTpdu_payload_witness :
    (QKnxTpduFactory.PointToPoint.createPropertyValueReadTpdu
          QKnxTpduFactory.Mode.Connectionless 0 0x0b 1 0x123 2).tpci
        ≠ TransportControlField.Invalid
      ∧ (QKnxTpduFactory.PointToPoint.createPropertyValueReadTpdu
          QKnxTpduFactory.Mode.Connectionless 0 0x0b 1 0x123 2).data
        = [0x00, 0x0b, 0x11, 0x23]
      ∧ (QKnxTpduFactory.PointToPoint.createPropertyValueResponseTpdu
          QKnxTpduFactory.Mode.Connectionless 0 0x0b 1 0x123 [0xaa] 2).data
        = [0x00, 0x0b, 0x11, 0x23, 0xaa]
      ∧ (QKnxTpduFactory.PointToPoint.createPropertyValueWriteTpdu
          QKnxTpduFactory.Mode.Connectionless 0 0x0b 1 0x123 [0xaa] 2).data
        = [0x00, 0x0b, 0x11, 0x23, 0xaa]
      ∧ QKnxUtils.QUint16.fromBytes
          ((QKnxTpduFactory.PointToPoint.createPropertyValueWriteTpdu
            QKnxTpduFactory.Mode.Connectionless 0 0x0b 1 0x123 [0xaa] 2).data.drop 2) >>> 12 = 1
      ∧ QKnxUtils.QUint16.fromBytes
          ((QKnxTpduFactory.PointToPoint.createPropertyValueWriteTpdu
            QKnxTpduFactory.Mode.Connectionless 0 0x0b 1 0x123 [0xaa] 2).data.drop 2) &&& 0x0fff
        = 0x123 :=
  createPropertyValueTpdu_payload QKnxTpduFactory.Mode.Connectionless 0 0x0b 1 0x123 [0xaa] 2
    (by decide) (by decide) (by decide) (by decide) (by decide) (by decide)

/-! ## The range of the 2-byte float -/

theorem mantissa_bounds (w : Nat) (hw : w < 65536) :
    -2048 ≤ QKnx2ByteFloat.mantissa w ∧ QKnx2ByteFloat.mantissa w ≤ 2047 := by
  rw [mantissa_eq w hw, and_0x7ff, Nat.shiftRight_eq_div_pow]
  have h1 : w % 2048 < 2048 := Nat.mod_lt _ (by omega)
  have h2 : w / 2 ^ 15 ≤ 1 := by omega
  constructor <;> omega

theorem exponent_le (w : Nat) : QKnx2ByteFloat.exponent w ≤ 15 := by
  rw [exponent_eq, and_0x0f]
  omega

/-- The decoded number grows with a mantissa that is not negative, and with the
exponent. -/
theorem decode_mono_nonneg (M M1 : Int) (E E1 : Nat) (h0 : 0 ≤ M) (hM : M ≤ M1)
    (hE : E ≤ E1) :
    toFloat (toDouble (toDouble (toDouble (1 / 100) * (M : ℚ)) * (2 : ℚ) ^ E))
      ≤ toFloat (toDouble (toDouble (toDouble (1 / 100) * (M1 : ℚ)) * (2 : ℚ) ^ E1)) := by
  have hc : 0 ≤ toDouble (1 / 100) := toDouble_nonneg (by norm_num)
  have m0 : (0 : ℚ) ≤ (M : ℚ) := by exact_mod_cast h0
  have m1 : (M : ℚ) ≤ (M1 : ℚ) := by exact_mod_cast hM
  have y0 : 0 ≤ toDouble (toDouble (1 / 100) * (M : ℚ)) := toDouble_nonneg (mul_nonneg hc m0)
  have y1 : toDouble (toDouble (1 / 100) * (M : ℚ)) ≤ toDouble (toDouble (1 / 100) * (M1 : ℚ)) :=
    toDouble_mono (mul_le_mul_of_nonneg_left m1 hc)
  have p0 : (0 : ℚ) ≤ (2 : ℚ) ^ E := by positivity
  have p1 : (2 : ℚ) ^ E ≤ (2 : ℚ) ^ E1 := pow_le_pow_right₀ (by norm_num) hE
  exact toFloat_mono (toDouble_mono (mul_le_mul y1 p1 p0 (y0.trans y1)))

/-- The decoded number falls with a negative mantissa that falls further, and
with the exponent. -/
theorem decode_mono_nonpos (M M1 : Int) (E E1 : Nat) (h0 : M ≤ 0) (hM : M1 ≤ M)
    (hE : E ≤ E1) :
    toFloat (toDouble (toDouble (toDouble (1 / 100) * (M1 : ℚ)) * (2 : ℚ) ^ E1))
      ≤ toFloat (toDouble (toDouble (toDouble (1 / 100) * (M : ℚ)) * (2 : ℚ) ^ E)) := by
  have hc : 0 ≤ toDouble (1 / 100) := toDouble_nonneg (by norm_num)
  have m0 : (M : ℚ) ≤ (0 : ℚ) := by exact_mod_cast h0
  have m1 : (M1 : ℚ) ≤ (M : ℚ) := by exact_mod_cast hM
  have y0 : toDouble (toDouble (1 / 100) * (M : ℚ)) ≤ 0 :=
    toDouble_nonpos (mul_nonpos_of_nonneg_of_nonpos hc m0)
  have y1 : toDouble (toDouble (1 / 100) * (M1 : ℚ)) ≤ toDouble (toDouble (1 / 100) * (M : ℚ)) :=
    toDouble_mono (mul_le_mul_of_nonneg_left m1 hc)
  have p0 : (0 : ℚ) ≤ (2 : ℚ) ^ E := by positivity
  have p1 : (2 : ℚ) ^ E ≤ (2 : ℚ) ^ E1 := pow_le_pow_right₀ (by norm_num) hE
  apply toFloat_mono
  apply toDouble_mono
  have y2 : (0 : ℚ) ≤ -toDouble (toDouble (1 / 100) * (M1 : ℚ)) := by linarith
  have := mul_le_mul (neg_le_neg y1) p1 p0 y2
  linarith

/-- Every pattern of two bytes decodes to a number between the `float` numbers
-671088.625 and 670760.9375. -/
theorem value_bounds (b0 b1 : Nat) :
    floatMinimum ≤ QKnx2ByteFloat.value [b0, b1]
      ∧ QKnx2ByteFloat.value [b0, b1] ≤ floatMaximum := by
  have hw : QKnxUtils.QUint16.fromBytes [b0, b1] < 65536 := by
    simp only [QKnxUtils.QUint16.fromBytes]
    omega
  have hm := mantissa_bounds _ hw
  have he := exponent_le (QKnxUtils.QUint16.fromBytes [b0, b1])
  rw [QKnx2ByteFloat.value]
  generalize QKnx2ByteFloat.mantissa (QKnxUtils.QUint16.fromBytes [b0, b1]) = M at hm
  generalize QKnx2ByteFloat.exponent (QKnxUtils.QUint16.fromBytes [b0, b1]) = E at he
  have hlow := decode_lowest
  have hhigh := decode_highest
  have hzero : toFloat (toDouble (toDouble (toDouble (1 / 100) * ((0 : Int) : ℚ)) * (2 : ℚ) ^ E))
      = 0 := by
    simp [toFloat, toDouble, roundToPrecision]
  rcases le_or_lt 0 M with h | h
  · have u := decode_mono_nonneg M 2047 E 15 h hm.2 he
    have l := decode_mono_nonneg 0 M E E (le_refl _) h (le_refl _)
    rw [hhigh] at u
    rw [hzero] at l
    constructor
    · unfold floatMinimum
      linarith
    · unfold floatMaximum
      linarith
  · have l := decode_mono_nonpos M (-2048) E 15 h.le hm.1 he
    have u := decode_mono_nonpos 0 M E E (le_refl _) h.le (le_refl _)
    rw [hlow] at l
    rw [hzero] at u
    constructor
    · unfold floatMinimum
      linarith
    · unfold floatMaximum
      linarith

theorem with_bytes (c : QKnx2ByteFloat) (l : List Nat) :
    ({ c with bytes := l } : QKnx2ByteFloat).bytes = l
      ∧ ({ c with bytes := l } : QKnx2ByteFloat).minimum = c.minimum
      ∧ ({ c with bytes := l } : QKnx2ByteFloat).maximum = c.maximum :=
  ⟨rfl, rfl, rfl⟩

/-- C40 fails as stated: the patterns 0xF800 and 0x7FFF decode to the `float`
numbers -671088.625 and 670760.9375, not to -671088.64 and 670760.96, which no
pattern attains. -/
theorem value_range_counterexample :
    QKnx2ByteFloat.value [0xF8, 0x00] = -5368709 / 8
      ∧ QKnx2ByteFloat.value [0xF8, 0x00] ≠ -67108864 / 100
      ∧ QKnx2ByteFloat.value [0x7F, 0xFF] = 10732175 / 16
      ∧ QKnx2ByteFloat.value [0x7F, 0xFF] ≠ 67076096 / 100 := by
  refine ⟨value_F800, ?_, value_7FFF, ?_⟩
  · rw [value_F800]
    norm_num
  · rw [value_7FFF]
    norm_num

/-- C40, amended: for every pattern of two bytes the number that `value()`
decodes lies between -671088.625 and 670760.9375, the `float` numbers nearest to
-671088.64 and 670760.96, and so between -671088.64 and 670760.96; the patterns
0xF800 and 0x7FFF give exactly the two `float` bounds, which are
`minimum().toFloat()` and `maximum().toFloat()` of the main type. Hence every
buffer of two bytes meets the range condition of `isValid()` of the main
type. -/
theorem value_range (b0 b1 : Nat) :
    (floatMinimum ≤ QKnx2ByteFloat.value [b0, b1]
        ∧ QKnx2ByteFloat.value [b0, b1] ≤ floatMaximum)
      ∧ ((-67108864 / 100 : ℚ) ≤ QKnx2ByteFloat.value [b0, b1]
        ∧ QKnx2ByteFloat.value [b0, b1] ≤ (67076096 / 100 : ℚ))
      ∧ QKnx2ByteFloat.value [0xF8, 0x00] = floatMinimum
      ∧ QKnx2ByteFloat.value [0x7F, 0xFF] = floatMaximum
      ∧ toFloat (QKnx2ByteFloat.create 0).minimum = floatMinimum
      ∧ toFloat (QKnx2ByteFloat.create 0).maximum = floatMaximum
      ∧ QKnx2ByteFloat.isValidRange
          ({ QKnx2ByteFloat.create 0 with bytes := [b0, b1] } : QKnx2ByteFloat) = true := by
  have hb := value_bounds b0 b1
  have hr := create_float_range 0
  refine ⟨hb, ⟨?_, ?_⟩, value_F800, value_7FFF, hr.1, hr.2, ?_⟩
  · have := hb.1
    unfold floatMinimum at this
    linarith
  · have := hb.2
    unfold floatMaximum at this
    linarith
  · rw [QKnx2ByteFloat.isValidRange, (with_bytes _ _).1, (with_bytes _ _).2.1,
      (with_bytes _ _).2.2, hr.1, hr.2]
    have g1 : QKnx2ByteFloat.value [b0, b1] ≥ floatMinimum := hb.1
    simp only [g1, hb.2, decide_True, Bool.and_self]

/-! ## The KNX addresses DIB -/

theorem individual_bytes (a : QKnxAddress) (ht : a.m_type = AddressType.Individual)
    (hv : a.m_address < 65536) :
    QKnxAddress.bytes a = [a.m_address / 256, a.m_address % 256]
      ∧ QKnxAddress.fromBytes AddressType.Individual [a.m_address / 256, a.m_address % 256]
        = a := by
  obtain ⟨t, v⟩ := a
  simp only at ht hv
  subst ht
  constructor
  · simp [QKnxAddress.bytes, QKnxAddress.isValid, QUint16_bytes_of_lt hv]
  · have h : (v / 256 * 256 + v % 256) % 65536 = v := by omega
    simp [QKnxAddress.fromBytes, QKnxUtils.QUint16.fromBytes, h]

theorem knxAddresses_payload (addresses : List QKnxAddress)
    (hvalid : ∀ a ∈ addresses, a.m_type = AddressType.Individual ∧ a.m_address < 65536) :
    (addresses.map QKnxAddress.bytes).flatten
        = addresses.flatMap (fun a => [a.m_address / 256, a.m_address % 256])
      ∧ ((addresses.map QKnxAddress.bytes).flatten).length = 2 * addresses.length
      ∧ QKnxNetIpKnxAddressesDIB.addressesOf ((addresses.map QKnxAddress.bytes).flatten)
        = addresses := by
  induction addresses with
  | nil => simp [QKnxNetIpKnxAddressesDIB.addressesOf]
  | cons a rest ih =>
    have ha := hvalid a (by simp)
    have hb := individual_bytes a ha.1 ha.2
    have ih1 := ih (fun x hx => hvalid x (by simp [hx]))
    simp only [List.map_cons, List.flatten_cons, List.flatMap_cons, hb.1, ih1.1,
      List.cons_append, List.nil_append, List.length_cons, QKnxNetIpKnxAddressesDIB.addressesOf,
      hb.2]
    refine ⟨trivial, ?_, ?_⟩
    · rw [← ih1.1, ih1.2.1]
      omega
    · rw [← ih1.1, ih1.2.2]

/-- C31: for every list of `n` individual addresses of 16 bits with
`2 + 2n <= 255`, the addresses DIB that is built from the list is valid, its
bytes are `[2 + 2n, 0x05]` followed by the two big-endian bytes of each address
in the order of the list, and `individualAddresses()` gives the same addresses
in the same order. -/
theorem knxAddressesDib_roundtrip (addresses : List QKnxAddress)
    (hvalid : ∀ a ∈ addresses, a.m_type = AddressType.Individual ∧ a.m_address < 65536)
    (hsize : 2 + 2 * addresses.length ≤ 255) :
    QKnxNetIpKnxAddressesDIB.isValid (QKnxNetIpKnxAddressesDIB.create addresses) = true
      ∧ (QKnxNetIpKnxAddressesDIB.create addresses).bytes
        = [2 + 2 * addresses.length, 0x05]
          ++ addresses.flatMap (fun a => [a.m_address / 256, a.m_address % 256])
      ∧ QKnxNetIpKnxAddressesDIB.individualAddresses (QKnxNetIpKnxAddressesDIB.create addresses)
        = addresses := by
  obtain ⟨h1, h2, h3⟩ := knxAddresses_payload addresses hvalid
  have hcode : ¬ (QKnxNetIp.DescriptionType.KnxAddresses = 0) := by decide
  have hs : (QKnxNetIpKnxAddressesDIB.create addresses).size = 2 + 2 * addresses.length := by
    simp only [QKnxNetIpStruct.size, QKnxNetIpKnxAddressesDIB.create, hcode, if_false, h2]
  refine ⟨?_, ?_, ?_⟩
  · have he : (2 + 2 * addresses.length) % 2 = 0 := by omega
    simp only [QKnxNetIpKnxAddressesDIB.isValid, QKnxNetIpStruct.isValid, hs, he, hsize]
    simp [QKnxNetIpKnxAddressesDIB.create]
  · have hm : (2 + 2 * addresses.length) % 256 = 2 + 2 * addresses.length := by omega
    simp only [QKnxNetIpStruct.bytes, hs, hm]
    simp [QKnxNetIpKnxAddressesDIB.create, h1, QKnxNetIp.DescriptionType.KnxAddresses]
  · simp only [QKnxNetIpKnxAddressesDIB.individualAddresses, QKnxNetIpKnxAddressesDIB.create,
      h3]

theorem knxAddressesDib_roundtrip_witness :
    QKnxNetIpKnxAddressesDIB.isValid (QKnxNetIpKnxAddressesDIB.create testAddresses) = true
      ∧ (QKnxNetIpKnxAddressesDIB.create testAddresses).bytes
        = [0x08, 0x05, 0x11, 0x00, 0x12, 0x05, 0x23, 0x08]
      ∧ QKnxNetIpKnxAddressesDIB.individualAddresses
          (QKnxNetIpKnxAddressesDIB.create testAddresses) = testAddresses :=
  knxAddressesDib_roundtrip testAddresses (by decide) (by decide)

/-! ## The supported service families DIB -/

theorem assign_length (a : List Nat) (c : Nat) : QByteArray.assign a a.length c = a ++ [c] := by
  unfold QByteArray.assign
  have h : a.length + 1 - a.length = 1 := by omega
  simp only [le_refl, if_true, h, List.replicate_one]
  rw [List.set_append_right _ _ (le_refl _)]
  simp

theorem addStep_eq (key value : Nat) (a : List Nat) :
    QKnxNetIpServiceFamiliesDib.addStep key (a, a.length) value
      = (a ++ [key % 256, value], (a ++ [key % 256, value]).length) := by
  have h1 : a.length + 1 = (a ++ [key % 256]).length := by simp
  simp only [QKnxNetIpServiceFamiliesDib.addStep, assign_length]
  rw [h1, assign_length]
  simp

theorem addStep_foldl (key : Nat) (values : List Nat) (a : List Nat) :
    values.foldl (QKnxNetIpServiceFamiliesDib.addStep key) (a, a.length)
      = (a ++ values.flatMap (fun v => [key % 256, v]),
          (a ++ values.flatMap (fun v => [key % 256, v])).length) := by
  induction values generalizing a with
  | nil => simp
  | cons v rest ih =>
    rw [List.foldl_cons, addStep_eq, ih]
    simp

theorem addKey_foldl (families : QMultiMap) (keys : List Nat) (a : List Nat) :
    keys.foldl (QKnxNetIpServiceFamiliesDib.addKey families) (a, a.length)
      = (a ++ keys.flatMap (fun key =>
            ((families.values key).insertionSort (fun x y => x ≤ y)).flatMap
              (fun v => [key % 256, v])),
          (a ++ keys.flatMap (fun key =>
            ((families.values key).insertionSort (fun x y => x ≤ y)).flatMap
              (fun v => [key % 256, v]))).length) := by
  induction keys generalizing a with
  | nil => simp
  | cons k rest ih =>
    rw [List.foldl_cons]
    simp only [QKnxNetIpServiceFamiliesDib.addKey]
    rw [addStep_foldl, ih]
    simp

theorem addFamilies_payload (dib : QKnxNetIpStruct) (families : QMultiMap) :
    (QKnxNetIpServiceFamiliesDib.addFamilies dib families).payload
      = dib.payload ++ families.uniqueKeys.flatMap (fun key =>
          ((families.values key).insertionSort (fun x y => x ≤ y)).flatMap
            (fun v => [key % 256, v])) := by
  have h := addKey_foldl families families.uniqueKeys []
  simp only [List.length_nil, List.nil_append] at h
  simp only [QKnxNetIpServiceFamiliesDib.addFamilies, QKnxNetIpStruct.setPayload,
    QKnxByteStore.appendBytes, h]

theorem flatMap_pairs_even (keys : List Nat) (f : Nat → List Nat) (g : Nat → Nat → List Nat)
    (hg : ∀ k v, (g k v).length = 2) :
    (keys.flatMap (fun key => (f key).flatMap (g key))).length % 2 = 0 := by
  have inner : ∀ (k : Nat) (vs : List Nat), (vs.flatMap (g k)).length % 2 = 0 := by
    intro k vs
    induction vs with
    | nil => simp
    | cons v rest ih =>
      simp only [List.flatMap_cons, List.length_append, hg]
      omega
  induction keys with
  | nil => simp
  | cons k rest ih =>
    have := inner k (f k)
    simp only [List.flatMap_cons, List.length_append]
    omega

theorem built_even (dib : QKnxNetIpStruct) (h : QKnxNetIpServiceFamiliesDib.Built dib) :
    dib.payload.length % 2 = 0 := by
  induction h with
  | empty => simp [QKnxNetIpServiceFamiliesDib.empty]
  | create id version =>
    simp [QKnxNetIpServiceFamiliesDib.create, QKnxNetIpServiceFamiliesDib.add,
      QKnxNetIpServiceFamiliesDib.empty, QKnxNetIpStruct.setPayload, QKnxByteStore.appendBytes]
  | createFamilies families =>
    rw [QKnxNetIpServiceFamiliesDib.createFamilies, addFamilies_payload]
    have := flatMap_pairs_even families.uniqueKeys
      (fun key => (families.values key).insertionSort (fun x y => x ≤ y))
      (fun key v => [key % 256, v]) (by simp)
    simp only [QKnxNetIpServiceFamiliesDib.empty, List.nil_append]
    exact this
  | ofStruct other _ ih => exact ih
  | add dib id version _ ih =>
    simp only [QKnxNetIpServiceFamiliesDib.add, QKnxNetIpStruct.setPayload,
      QKnxByteStore.appendBytes, List.length_append, List.length_cons, List.length_nil]
    omega
  | addFamilies dib families _ ih =>
    rw [addFamilies_payload]
    have := flatMap_pairs_even families.uniqueKeys
      (fun key => (families.values key).insertionSort (fun x y => x ≤ y))
      (fun key v => [key % 256, v]) (by simp)
    dsimp only at this
    rw [List.length_append]
    omega

/-- C32: a supported service families DIB is valid only if the length of its
payload is even and its description type is `SupportedServiceFamilies`;
`add(id, version)` appends the two bytes `[id, version]` after the payload and
keeps the code; and a DIB that is built with the constructors and the `add`
methods alone has a payload of even length. -/
theorem serviceFamiliesDib_even :
    (∀ dib : QKnxNetIpStruct, QKnxNetIpServiceFamiliesDib.isValid dib = true →
        dib.payload.length % 2 = 0
        ∧ dib.code = QKnxNetIp.DescriptionType.SupportedServiceFamilies)
      ∧ (∀ (dib : QKnxNetIpStruct) (id version : Nat), id < 256 → version < 256 →
        (QKnxNetIpServiceFamiliesDib.add dib id version).payload
            = dib.payload ++ [id, version]
        ∧ (QKnxNetIpServiceFamiliesDib.add dib id version).code = dib.code)
      ∧ (∀ dib : QKnxNetIpStruct, QKnxNetIpServiceFamiliesDib.Built dib →
        dib.payload.length % 2 = 0) := by
  refine ⟨?_, ?_, built_even⟩
  · intro dib h
    simp only [QKnxNetIpServiceFamiliesDib.isValid, QKnxNetIpStruct.isValid,
      QKnxNetIpServiceFamiliesDib.descriptionType, Bool.and_eq_true, decide_eq_true_eq] at h
    obtain ⟨⟨⟨hc, _⟩, hs⟩, hcode⟩ := h
    refine ⟨?_, hcode⟩
    simp only [QKnxNetIpStruct.size, hc, if_false] at hs
    omega
  · intro dib id version hid hversion
    simp [QKnxNetIpServiceFamiliesDib.add, QKnxNetIpStruct.setPayload,
      QKnxByteStore.appendBytes, Nat.mod_eq_of_lt hid, Nat.mod_eq_of_lt hversion]

theorem serviceFamiliesDib_even_witness :
    ((QKnxNetIpServiceFamiliesDib.add (QKnxNetIpServiceFamiliesDib.create 0x02 0x01) 0x04
          0x01).payload = [0x02, 0x01] ++ [0x04, 0x01]
        ∧ (QKnxNetIpServiceFamiliesDib.add (QKnxNetIpServiceFamiliesDib.create 0x02 0x01) 0x04
          0x01).code = (QKnxNetIpServiceFamiliesDib.create 0x02 0x01).code)
      ∧ (QKnxNetIpServiceFamiliesDib.add (QKnxNetIpServiceFamiliesDib.create 0x02 0x01) 0x04
          0x01).payload.length % 2 = 0 :=
  ⟨serviceFamiliesDib_even.2.1 (QKnxNetIpServiceFamiliesDib.create 0x02 0x01) 0x04 0x01
      (by decide) (by decide),
    serviceFamiliesDib_even.2.2 _
      (QKnxNetIpServiceFamiliesDib.Built.add _ 0x04 0x01
        (QKnxNetIpServiceFamiliesDib.Built.create 0x02 0x01))⟩

/-! ### The multimap of service families -/

theorem insertMulti_perm (m : QMultiMap) (key value : Nat) :
    (QMultiMap.insertMulti m key value).Perm ((key, value) :: m) := by
  induction m with
  | nil => simp [QMultiMap.insertMulti]
  | cons p rest ih =>
    obtain ⟨k, v⟩ := p
    simp only [QMultiMap.insertMulti]
    split_ifs with h
    · exact List.Perm.refl _
    · exact (List.Perm.cons _ ih).trans (List.Perm.swap _ _ _)

theorem insertPairs_perm (pairs : List (Nat × Nat)) (acc : QMultiMap) :
    (QKnxNetIpServiceFamiliesDib.insertPairs (pairs.flatMap (fun p => [p.1, p.2])) acc).Perm
      (pairs ++ acc) := by
  induction pairs generalizing acc with
  | nil => simp [QKnxNetIpServiceFamiliesDib.insertPairs]
  | cons p rest ih =>
    simp only [List.flatMap_cons, List.cons_append, List.nil_append,
      QKnxNetIpServiceFamiliesDib.insertPairs]
    refine (ih _).trans ?_
    refine (List.Perm.append_left rest (insertMulti_perm acc p.1 p.2)).trans ?_
    exact List.perm_middle

theorem flatMap_congr_mem {α β : Type} (l : List α) (f g : α → List β)
    (h : ∀ a ∈ l, f a = g a) : l.flatMap f = l.flatMap g := by
  induction l with
  | nil => rfl
  | cons a rest ih =>
    rw [List.flatMap_cons, List.flatMap_cons, h a (by simp),
      ih (fun x hx => h x (by simp [hx]))]

theorem filter_disjoint_perm {α : Type} (p q : α → Bool) (l : List α)
    (h : ∀ x ∈ l, ¬ (p x = true ∧ q x = true)) :
    (l.filter p ++ l.filter q).Perm (l.filter (fun x => p x || q x)) := by
  induction l with
  | nil => simp
  | cons x rest ih =>
    have ih1 := ih (fun y hy => h y (by simp [hy]))
    have hx := h x (by simp)
    cases hp : p x <;> cases hq : q x
    · simpa [List.filter_cons, hp, hq] using ih1
    · simp only [List.filter_cons, hp, hq, Bool.or_true, if_true, if_false, Bool.false_eq_true]
      exact List.perm_middle.trans (List.Perm.cons _ ih1)
    · simp only [List.filter_cons, hp, hq, Bool.or_false, if_true, if_false,
        Bool.false_eq_true, List.cons_append]
      exact List.Perm.cons _ ih1
    · exact absurd ⟨hp, hq⟩ hx

theorem group_perm (m : QMultiMap) (k : Nat) :
    ((((m.values k).insertionSort (fun x y => x ≤ y))).map (fun v => (k, v))).Perm
      (m.filter (fun p => decide (p.1 = k))) := by
  have h1 := (List.perm_insertionSort (fun x y : Nat => x ≤ y) (m.values k)).map
    (fun v => (k, v))
  refine h1.trans ?_
  have h2 : (m.values k).map (fun v => (k, v)) = m.filter (fun p => decide (p.1 = k)) := by
    simp only [QMultiMap.values, List.map_map]
    conv_rhs => rw [← List.map_id (m.filter (fun p => decide (p.1 = k)))]
    apply List.map_congr_left
    intro p hp
    have hk : p.1 = k := by simpa using (List.mem_filter.mp hp).2
    simp [← hk]
  rw [h2]

theorem groups_perm (m : QMultiMap) (ks : List Nat) (hnd : ks.Nodup) :
    (ks.flatMap (fun k => m.filter (fun p => decide (p.1 = k)))).Perm
      (m.filter (fun p => decide (p.1 ∈ ks))) := by
  induction ks with
  | nil => simp
  | cons k rest ih =>
    have hk : k ∉ rest := (List.nodup_cons.mp hnd).1
    have ih1 := ih (List.nodup_cons.mp hnd).2
    rw [List.flatMap_cons]
    refine (List.Perm.append_left _ ih1).trans ?_
    have hd := filter_disjoint_perm (fun p : Nat × Nat => decide (p.1 = k))
      (fun p => decide (p.1 ∈ rest)) m (by
        intro x _ hx
        simp only [decide_eq_true_eq] at hx
        exact hk (hx.1 ▸ hx.2))
    refine hd.trans ?_
    have he : m.filter (fun x => decide (x.1 = k) || decide (x.1 ∈ rest))
        = m.filter (fun p => decide (p.1 ∈ k :: rest)) := by
      apply List.filter_congr
      intro x _
      simp
    rw [he]

/-- C39: for every multimap of pairs of service family id and version, with ids
of 8 bits, the payload of the DIB that is built from it consists of the two
bytes `[id, version]` of each pair of the multimap, ordered by ascending id and,
for equal ids, by ascending version; and `serviceFamilyIdVersions()` on that
DIB gives a multimap with the same pairs in the same multiplicities. -/
theorem serviceFamilies_roundtrip (families : QMultiMap) (hwf : families.WellFormed)
    (hbytes : ∀ p ∈ families, p.1 < 256) :
    ∃ pairs : List (Nat × Nat),
      pairs.Perm families
        ∧ pairs.Pairwise (fun a b => a.1 < b.1 ∨ (a.1 = b.1 ∧ a.2 ≤ b.2))
        ∧ (QKnxNetIpServiceFamiliesDib.createFamilies families).payload
          = pairs.flatMap (fun p => [p.1, p.2])
        ∧ (QKnxNetIpServiceFamiliesDib.serviceFamilyIdVersions
            (QKnxNetIpServiceFamiliesDib.createFamilies families)).Perm families := by
  have hnd : families.uniqueKeys.Nodup := List.nodup_dedup _
  have hmem : ∀ k, k ∈ families.uniqueKeys ↔ ∃ p ∈ families, p.1 = k := by
    intro k
    simp [QMultiMap.uniqueKeys]
  have hsorted : families.uniqueKeys.Pairwise (fun a b => a ≤ b) := by
    have h1 : (families.map Prod.fst).Pairwise (fun a b => a ≤ b) :=
      List.pairwise_map.mpr hwf
    exact List.Pairwise.sublist (List.dedup_sublist _) h1
  have hstrict : families.uniqueKeys.Pairwise (fun a b => a < b) := by
    have h2 := List.Pairwise.and hsorted hnd
    exact h2.imp (fun h => lt_of_le_of_ne h.1 h.2)
  have hpairs : (families.uniqueKeys.flatMap (fun k =>
      ((families.values k).insertionSort (fun x y => x ≤ y)).map (fun v => (k, v)))).Perm
      families := by
    refine (List.Perm.flatMap_left _ (fun k _ => group_perm families k)).trans ?_
    refine (groups_perm families _ hnd).trans ?_
    have hall : families.filter (fun p => decide (p.1 ∈ families.uniqueKeys)) = families := by
      rw [List.filter_eq_self]
      intro p hp
      simp only [decide_eq_true_eq]
      exact (hmem p.1).mpr ⟨p, hp, rfl⟩
    rw [hall]
  have hpayload : (QKnxNetIpServiceFamiliesDib.createFamilies families).payload
      = (families.uniqueKeys.flatMap (fun k =>
          ((families.values k).insertionSort (fun x y => x ≤ y)).map (fun v => (k, v)))).flatMap
          (fun p => [p.1, p.2]) := by
    rw [QKnxNetIpServiceFamiliesDib.createFamilies, addFamilies_payload, List.flatMap_assoc]
    simp only [QKnxNetIpServiceFamiliesDib.empty, List.nil_append]
    apply flatMap_congr_mem
    intro k hk
    obtain ⟨p, hp, hpk⟩ := (hmem k).mp hk
    have hk256 : k % 256 = k := Nat.mod_eq_of_lt (hpk ▸ hbytes p hp)
    rw [List.flatMap_map, hk256]
  refine ⟨_, hpairs, ?_, hpayload, ?_⟩
  · rw [List.pairwise_flatMap]
    constructor
    · intro k _
      rw [List.pairwise_map]
      have hs := List.sorted_insertionSort (fun x y : Nat => x ≤ y) (families.values k)
      exact List.Pairwise.imp (fun h => Or.inr ⟨rfl, h⟩) hs
    · refine hstrict.imp ?_
      intro a b hab x hx y hy
      have hx1 : x.1 = a := by
        obtain ⟨v, _, hv⟩ := List.mem_map.mp hx
        rw [← hv]
      have hy1 : y.1 = b := by
        obtain ⟨v, _, hv⟩ := List.mem_map.mp hy
        rw [← hv]
      left
      rw [hx1, hy1]
      exact hab
  · unfold QKnxNetIpServiceFamiliesDib.serviceFamilyIdVersions
    rw [hpayload]
    have h := insertPairs_perm (families.uniqueKeys.flatMap (fun k =>
      ((families.values k).insertionSort (fun x y => x ≤ y)).map (fun v => (k, v)))) []
    rw [List.append_nil] at h
    exact h.trans hpairs

theorem serviceFamilies_roundtrip_witness :
    ∃ pairs : List (Nat × Nat),
      pairs.Perm exampleFamilies
        ∧ pairs.Pairwise (fun a b => a.1 < b.1 ∨ (a.1 = b.1 ∧ a.2 ≤ b.2))
        ∧ (QKnxNetIpServiceFamiliesDib.createFamilies exampleFamilies).payload
          = pairs.flatMap (fun p => [p.1, p.2])
        ∧ (QKnxNetIpServiceFamiliesDib.serviceFamilyIdVersions
            (QKnxNetIpServiceFamiliesDib.createFamilies exampleFamilies)).Perm
          exampleFamilies :=
  serviceFamilies_roundtrip exampleFamilies
    (by unfold QMultiMap.WellFormed exampleFamilies; decide) (by decide)

/-- The example multimap: the payload has the versions of the family 0x04 in
ascending order, and reading it back gives the pairs with the version inserted
last first. -/
theorem serviceFamilies_example :
    (QKnxNetIpServiceFamiliesDib.createFamilies exampleFamilies).payload
        = [0x02, 0x01, 0x04, 0x01, 0x04, 0x02]
      ∧ QKnxNetIpServiceFamiliesDib.serviceFamilyIdVersions
          (QKnxNetIpServiceFamiliesDib.createFamilies exampleFamilies)
        = [(0x02, 0x01), (0x04, 0x02), (0x04, 0x01)] := by
  decide

theorem insertMulti_wellFormed (m : QMultiMap) (hwf : m.WellFormed) (key value : Nat) :
    (QMultiMap.insertMulti m key value).WellFormed := by
  unfold QMultiMap.WellFormed at *
  induction m with
  | nil => simp [QMultiMap.insertMulti]
  | cons p rest ih =>
    obtain ⟨k, v⟩ := p
    have hrest := (List.pairwise_cons.mp hwf).2
    have hhead := (List.pairwise_cons.mp hwf).1
    simp only [QMultiMap.insertMulti]
    split_ifs with h
    · refine List.pairwise_cons.mpr ⟨?_, hwf⟩
      intro b hb
      rcases List.mem_cons.mp hb with hb | hb
      · rw [hb]
        exact h
      · exact le_trans h (hhead b hb)
    · refine List.pairwise_cons.mpr ⟨?_, ih hrest⟩
      intro b hb
      have hb1 := (insertMulti_perm rest key value).mem_iff.mp hb
      rcases List.mem_cons.mp hb1 with hb2 | hb2
      · rw [hb2]
        exact le_of_lt (not_le.mp h)
      · exact hhead b hb2

/-! ## The current IP configuration DIB -/

theorem fromArray_toArray (address : Nat) (h : address < 4294967296) :
    QKnxNetIpCurrentConfigDIB.fromArray (QKnxNetIpCurrentConfigDIB.toArray address)
      = address := by
  simp only [QKnxNetIpCurrentConfigDIB.toArray, QKnxUtils.QUint32.bytes,
    QKnxNetIpCurrentConfigDIB.fromArray, Nat.shiftRight_eq_div_pow]
  omega

theorem create_payload (uninitialized : Nat → Nat) (ip subnetMask gateway dhcp method : Nat)
    (hm : method = 1 ∨ method = 2 ∨ method = 4 ∨ method = 8) :
    QKnxNetIpCurrentConfigDIB.create uninitialized ip subnetMask gateway dhcp method
      = ⟨QKnxNetIp.DescriptionType.CurrentIpConfiguration,
          QKnxNetIpCurrentConfigDIB.toArray ip ++ QKnxNetIpCurrentConfigDIB.toArray subnetMask
            ++ QKnxNetIpCurrentConfigDIB.toArray gateway
            ++ QKnxNetIpCurrentConfigDIB.toArray dhcp
            ++ [uninitialized 16 % 256, method]⟩ := by
  have hcheck : ¬ (method < QKnxNetIpCurrentConfigDIB.AssignmentMethod.Manual
      ∨ method > QKnxNetIpCurrentConfigDIB.AssignmentMethod.AutoIp
      ∨ QKnxNetIpCurrentConfigDIB.bitcount (method % 256) ≠ 1) := by
    rcases hm with h | h | h | h <;> subst h <;> decide
  have hmod : method % 256 = method := by omega
  unfold QKnxNetIpCurrentConfigDIB.create
  rw [if_neg hcheck]
  simp only [hmod,
    QKnxNetIpCurrentConfigDIB.toArray, QKnxUtils.QUint32.bytes,
    QKnxNetIpCurrentConfigDIB.insert, QKnxNetIpCurrentConfigDIB.resize,
    QKnxNetIpStruct.setPayload, List.take_zero, List.drop_zero, List.nil_append,
    List.take_succ_cons, List.drop_succ_cons, List.take_nil, List.drop_nil, List.append_nil,
    List.cons_append, List.length_cons, List.length_nil]
  simp [List.range']

/-- C37: with the byte 0 where the constructor leaves the array uninitialised,
the DIB built for the method `Manual` gives 0 as `assignmentMethod()`, not
`Manual`: the constructor writes the method to the byte 17 of the data and the
getter reads the byte 16. For every assignment method that is one of Manual,
BootP, Dhcp and AutoIp and all IPv4 addresses the DIB is valid, the four
address getters return the arguments of the constructor, the byte 17 holds the
method, and `assignmentMethod()` returns the uninitialised byte 16. -/
theorem currentConfigDib_assignmentMethod :
    (QKnxNetIpCurrentConfigDIB.create (fun _ => 0) 0xC0A80001 0xFFFFFF00 0xC0A800FE
          0xC0A800FD QKnxNetIpCurrentConfigDIB.AssignmentMethod.Manual).payload
        = [0xC0, 0xA8, 0x00, 0x01, 0xFF, 0xFF, 0xFF, 0x00, 0xC0, 0xA8, 0x00, 0xFE,
            0xC0, 0xA8, 0x00, 0xFD, 0x00, 0x01]
      ∧ QKnxNetIpCurrentConfigDIB.assignmentMethod
          (QKnxNetIpCurrentConfigDIB.create (fun _ => 0) 0xC0A80001 0xFFFFFF00 0xC0A800FE
            0xC0A800FD QKnxNetIpCurrentConfigDIB.AssignmentMethod.Manual) = 0
      ∧ QKnxNetIpCurrentConfigDIB.assignmentMethod
          (QKnxNetIpCurrentConfigDIB.create (fun _ => 0) 0xC0A80001 0xFFFFFF00 0xC0A800FE
            0xC0A800FD QKnxNetIpCurrentConfigDIB.AssignmentMethod.Manual)
        ≠ QKnxNetIpCurrentConfigDIB.AssignmentMethod.Manual
      ∧ (∀ (uninitialized : Nat → Nat) (ip subnetMask gateway dhcp method : Nat),
          ip < 4294967296 → subnetMask < 4294967296 → gateway < 4294967296 →
          dhcp < 4294967296 → (method = 1 ∨ method = 2 ∨ method = 4 ∨ method = 8) →
          QKnxNetIpCurrentConfigDIB.isValid
              (QKnxNetIpCurrentConfigDIB.create uninitialized ip subnetMask gateway dhcp
                method) = true
            ∧ QKnxNetIpCurrentConfigDIB.ipAddress
              (QKnxNetIpCurrentConfigDIB.create uninitialized ip subnetMask gateway dhcp
                method) = ip
            ∧ QKnxNetIpCurrentConfigDIB.subnetMask
              (QKnxNetIpCurrentConfigDIB.create uninitialized ip subnetMask gateway dhcp
                method) = subnetMask
            ∧ QKnxNetIpCurrentConfigDIB.defaultGateway
              (QKnxNetIpCurrentConfigDIB.create uninitialized ip subnetMask gateway dhcp
                method) = gateway
            ∧ QKnxNetIpCurrentConfigDIB.dhcpOrBootP
              (QKnxNetIpCurrentConfigDIB.create uninitialized ip subnetMask gateway dhcp
                method) = dhcp
            ∧ QKnxByteStore.byte
              (QKnxNetIpCurrentConfigDIB.create uninitialized ip subnetMask gateway dhcp
                method).payload 17 = method
            ∧ QKnxNetIpCurrentConfigDIB.assignmentMethod
              (QKnxNetIpCurrentConfigDIB.create uninitialized ip subnetMask gateway dhcp
                method) = uninitialized 16 % 256) := by
  refine ⟨by decide, by decide, by decide, ?_⟩
  intro uninitialized ip subnetMask gateway dhcp method hip hmask hgw hdhcp hm
  rw [create_payload uninitialized ip subnetMask gateway dhcp method hm]
  have h1 := fromArray_toArray ip hip
  have h2 := fromArray_toArray subnetMask hmask
  have h3 := fromArray_toArray gateway hgw
  have h4 := fromArray_toArray dhcp hdhcp
  simp only [QKnxNetIpCurrentConfigDIB.toArray, QKnxUtils.QUint32.bytes] at h1 h2 h3 h4
  simp only [QKnxNetIpCurrentConfigDIB.isValid, QKnxNetIpStruct.isValid, QKnxNetIpStruct.size,
    QKnxNetIpStruct.dataSize, QKnxNetIpCurrentConfigDIB.ipAddress,
    QKnxNetIpCurrentConfigDIB.subnetMask, QKnxNetIpCurrentConfigDIB.defaultGateway,
    QKnxNetIpCurrentConfigDIB.dhcpOrBootP, QKnxNetIpCurrentConfigDIB.assignmentMethod,
    QKnxNetIpStruct.data, QKnxByteStore.bytes, QKnxByteStore.byte,
    QKnxNetIpCurrentConfigDIB.toArray, QKnxUtils.QUint32.bytes, List.cons_append,
    List.nil_append, List.drop_succ_cons, List.drop_zero, List.take_succ_cons, List.take_zero,
    List.length_cons, List.length_nil, List.getD_cons_succ, List.getD_cons_zero, h1, h2, h3,
    h4]
  simp

end QKnx
